import Mathlib

/-! # Two-axis celestial tracker: stepper controller, pointing orchestrator, astronomy

Shallow embedding of `stepper.cpp`, `stepper.h`, `ds3231.cpp`, of `set_pointer` in
`main.cpp`, and of `astronomy.cpp` / `astronomy.h` of the two-axis celestial tracker, with
the properties of the stepper-motion controller, the persisted registers, the pointing
orchestrator, the sidereal clock and the ephemeris engine.

Conventions of the embedding

* C `int` values in `step_to` are mathematical integers (`Int`); the properties concern
  moves in which no signed overflow occurs. The `uint64_t` arithmetic of the sidereal clock
  is reduced modulo `2 ^ 64` explicitly.
* `step_to` sees the two alarm-register sets of the DS3231 only through `rtcRead` and
  `rtcWrite`; the store `Rtc` holds, per register set, the integer that the register set
  stands for. The bytes of the register sets, with the `uint16_t` and `uint8_t` reductions
  and the width of `int` as a parameter, are the subject of the namespace `Ds3231`.
* Every call of `step_energize` and of `rtcWrite` made by `step_to` is recorded as an
  `Event`, in program order; `step_energize` itself is the list of its `digitalWrite`
  calls. The busy-wait pacing between events touches neither the coils nor the registers
  and is not recorded.
* The loop of `step_to` and the Kepler loop of `getPlanet` are run with a fuel bound:
  `none` means that the bound was too small for the loop to finish.
* `double` values are exact numbers: elements of an ordered field in `set_pointer` and in
  the sidereal clock, real numbers in the ephemeris engine and in `transform`. Rounding is
  not modelled.
-/

namespace StarTracker

/-! ## stepper.h -/

/-- Macro `steps_per_revolution`. -/
def steps_per_revolution : Int := 2048

/-- Macro `motor_pin_azimuth`: motor driver pins 2-5. -/
def motor_pin_azimuth : Int := 2

/-- Macro `motor_pin_altitude`: motor driver pins 6-9. -/
def motor_pin_altitude : Int := 6

/-- Macro `slop_steps` ("was 25"). -/
def slop_steps : Int := 0

/-- Macro `altitude_limit`: lowest step altitude. -/
def altitude_limit : Int := -200

/-! ## The persisted registers, as `step_to` uses them -/

/-- The two alarm-register sets used as NVRAM, each holding one integer. -/
structure Rtc where
  alrm0 : Int
  alrm1 : Int
deriving DecidableEq, Repr

/-- Call `rtcRead (adr)`: register set 0 when `adr == 0`, register set 1 otherwise. -/
def rtcRead (rtc : Rtc) (adr : Int) : Int :=
  if adr = 0 then rtc.alrm0 else rtc.alrm1

/-- Call `rtcWrite (adr, value)`: register set 0 when `adr == 0`, register set 1 otherwise. -/
def rtcWrite (rtc : Rtc) (adr : Int) (value : Int) : Rtc :=
  if adr = 0 then { rtc with alrm0 := value } else { rtc with alrm1 := value }

/-! ## stepper.cpp -/

/-- One observable action of `step_to`. -/
inductive Event where
  | energize (motor_pin_first : Int) (mode : Int)
  | write (adr : Int) (value : Int)
deriving DecidableEq, Repr

/-- Expression `x & 0x3` on a two's-complement `int`. -/
def and3 (x : Int) : Int := Int.land x 3

/-- Result of the block that `step_to` runs for one axis in one loop iteration. -/
structure AxisStep where
  step_position : Int
  step_delta : Int
  rtc : Rtc
  events : List Event
deriving DecidableEq, Repr

/-- The `if (delta > 0) ... else if (delta < 0) ...` block of the loop of `step_to`,
which the source spells out once for the azimuth axis (`motor_pin_azimuth`,
register 0) and once for the altitude axis (`motor_pin_altitude`, register 1). -/
def step_axis (slop : Int) (calibrating : Bool) (motor_pin adr : Int)
    (step_position step_delta : Int) (rtc : Rtc) : AxisStep :=
  if 0 < step_delta then
    -- clockwise
    let step_position := step_position + 1
    { step_position := step_position
      step_delta := step_delta - 1
      rtc := if calibrating then rtc else rtcWrite rtc adr step_position
      events := Event.energize motor_pin (and3 step_position) ::
        (if calibrating then [] else [Event.write adr step_position]) }
  else if step_delta < 0 then
    -- counter clockwise
    let step_position := step_position - 1
    let step_delta := step_delta + 1
    { step_position := step_position
      step_delta := if step_delta = 0 ∧ calibrating = false then step_delta + slop else step_delta
      rtc := if calibrating then rtc else rtcWrite rtc adr step_position
      events := Event.energize motor_pin (and3 step_position) ::
        (if calibrating then [] else [Event.write adr step_position]) }
  else
    { step_position := step_position, step_delta := step_delta, rtc := rtc, events := [] }

/-- Local variables of `step_to` together with the register store. -/
structure Locals where
  step_position_azimuth : Int
  step_delta_azimuth : Int
  step_position_altitude : Int
  step_delta_altitude : Int
  rtc : Rtc
deriving DecidableEq, Repr

/-- One iteration of the loop of `step_to`: the azimuth block, the altitude block,
the pacing wait, then the de-energize calls. Returns the new locals and the events
of the iteration. -/
def step_body (slop : Int) (calibrating : Bool) (s : Locals) : Locals × List Event :=
  let az := step_axis slop calibrating motor_pin_azimuth 0
    s.step_position_azimuth s.step_delta_azimuth s.rtc
  let al := step_axis slop calibrating motor_pin_altitude 1
    s.step_position_altitude s.step_delta_altitude az.rtc
  ({ step_position_azimuth := az.step_position
     step_delta_azimuth := az.step_delta
     step_position_altitude := al.step_position
     step_delta_altitude := al.step_delta
     rtc := al.rtc },
   az.events ++ al.events ++
     ((if az.step_delta = 0 then [Event.energize motor_pin_azimuth 99] else []) ++
      (if al.step_delta = 0 then [Event.energize motor_pin_altitude 99] else [])))

/-- The loop `while (step_delta_azimuth != 0 || step_delta_altitude != 0)`.
Returns the final locals and the events of each iteration, in order. -/
def step_loop (slop : Int) (calibrating : Bool) : Nat → Locals → Option (Locals × List (List Event))
  | fuel, s =>
    if s.step_delta_azimuth ≠ 0 ∨ s.step_delta_altitude ≠ 0 then
      match fuel with
      | 0 => none
      | fuel + 1 =>
        let r := step_body slop calibrating s
        (step_loop slop calibrating fuel r.1).map (fun out => (out.1, r.2 :: out.2))
    else some (s, [])

/-- What a call of `step_to` leaves behind: the register store, the events issued
before the loop and the events of each loop iteration. -/
structure Outcome where
  rtc : Rtc
  before : List Event
  iterations : List (List Event)
deriving DecidableEq, Repr

/-- All events of a call, in program order. -/
def Outcome.trace (o : Outcome) : List Event := o.before ++ o.iterations.flatten

/-- Delta computation at the start of `step_to`: `target - position`, with the slop
subtracted on a counter-clockwise move when not calibrating. -/
def start_delta (slop : Int) (calibrating : Bool) (new_position step_position : Int) : Int :=
  let step_delta := new_position - step_position
  if step_delta < 0 ∧ calibrating = false then step_delta - slop else step_delta

/-- Function `step_to (new_position_azimuth, new_position_altitude, calibrating)`, with
the macro `slop_steps` as the parameter `slop`. -/
def step_to (slop : Int) (fuel : Nat) (rtc : Rtc)
    (new_position_azimuth new_position_altitude : Int) (calibrating : Bool) : Option Outcome :=
  let step_position_azimuth := rtcRead rtc 0
  let step_position_altitude := rtcRead rtc 1
  let step_delta_azimuth := start_delta slop calibrating new_position_azimuth step_position_azimuth
  let step_delta_altitude := start_delta slop calibrating new_position_altitude step_position_altitude
  if step_delta_azimuth = 0 ∧ step_delta_altitude = 0 then
    some { rtc := rtc, before := [], iterations := [] }
  else
    let before :=
      (if step_delta_azimuth ≠ 0 then
        [Event.energize motor_pin_azimuth (and3 step_position_azimuth)] else []) ++
      (if step_delta_altitude ≠ 0 then
        [Event.energize motor_pin_altitude (and3 step_position_altitude)] else [])
    (step_loop slop calibrating fuel
      { step_position_azimuth := step_position_azimuth
        step_delta_azimuth := step_delta_azimuth
        step_position_altitude := step_position_altitude
        step_delta_altitude := step_delta_altitude
        rtc := rtc }).map
      (fun out => { rtc := out.1.rtc, before := before, iterations := out.2 })

/-! ## Observers of an event list -/

/-- Motor pins of the axis that persists into register `adr`. -/
def axis_pin (adr : Int) : Int :=
  if adr = 0 then motor_pin_azimuth else motor_pin_altitude

/-- Test: the event belongs to the motion of the axis on `motor_pin` / `adr`, that is,
it is a coil command with a phase `0 .. 3` on `motor_pin` or a write to register `adr`.
The off command (any other mode) is not a motion event. -/
def Event.moves (motor_pin adr : Int) : Event → Bool
  | Event.energize p m => decide (p = motor_pin ∧ 0 ≤ m ∧ m ≤ 3)
  | Event.write a _ => decide (a = adr)

/-- The motion events of one axis, in order. -/
def axisEvents (motor_pin adr : Int) (evs : List Event) : List Event :=
  evs.filter (Event.moves motor_pin adr)

/-- Test: the event is a coil command with a phase `0 .. 3` on `motor_pin`. -/
def Event.isPhase (motor_pin : Int) : Event → Bool
  | Event.energize p m => decide (p = motor_pin ∧ 0 ≤ m ∧ m ≤ 3)
  | Event.write _ _ => false

/-- Test: the event is a write to register `adr`. -/
def Event.isWrite (adr : Int) : Event → Bool
  | Event.energize _ _ => false
  | Event.write a _ => decide (a = adr)

/-- The values written to register `adr`, in order. -/
def writes (adr : Int) : List Event → List Int
  | [] => []
  | Event.write a v :: evs => if a = adr then v :: writes adr evs else writes adr evs
  | Event.energize _ _ :: evs => writes adr evs

/-- Content of register `adr` after the events, when it held `v` before them. -/
def persisted (adr : Int) (v : Int) : List Event → Int
  | [] => v
  | Event.write a x :: evs => if a = adr then persisted adr x evs else persisted adr v evs
  | Event.energize _ _ :: evs => persisted adr v evs

/-- Positions visited when walking one step at a time from `p` (excluded) to `t`
(included): `p+1, .., t` when `p ≤ t`, and `p-1, .., t` otherwise. -/
def path (p t : Int) : List Int :=
  if p ≤ t then List.map (fun k : Nat => p + 1 + (k : Int)) (List.range (t - p).toNat)
  else List.map (fun k : Nat => p - 1 - (k : Int)) (List.range (p - t).toNat)

/-- The events of one step to position `q`: the coil command with the phase of `q`,
followed by the write of `q` unless calibrating. -/
def step_events (calibrating : Bool) (motor_pin adr : Int) (q : Int) : List Event :=
  Event.energize motor_pin (and3 q) :: (if calibrating then [] else [Event.write adr q])

/-- Rotor of a four-phase motor: it follows the energized phase to the neighbouring
position that has this phase, and keeps its position on any other command. -/
def rotor_follow (q mode : Int) : Int :=
  if mode = and3 (q + 1) then q + 1 else if mode = and3 (q - 1) then q - 1 else q

/-- Position of the rotor on `motor_pin` after the events, when it was at `q` before. -/
def rotor (motor_pin : Int) (q : Int) : List Event → Int
  | [] => q
  | Event.energize p m :: evs =>
    if p = motor_pin then rotor motor_pin (rotor_follow q m) evs else rotor motor_pin q evs
  | Event.write _ _ :: evs => rotor motor_pin q evs

/-! ## Closed forms for one axis of the loop -/

/-- Position of an axis after its block of one loop iteration. -/
def next_position (step_position step_delta : Int) : Int :=
  if 0 < step_delta then step_position + 1
  else if step_delta < 0 then step_position - 1 else step_position

/-- Remaining delta of an axis after its block of one loop iteration. -/
def next_delta (slop : Int) (calibrating : Bool) (step_delta : Int) : Int :=
  if 0 < step_delta then step_delta - 1
  else if step_delta < 0 then
    (if step_delta + 1 = 0 ∧ calibrating = false then step_delta + 1 + slop else step_delta + 1)
  else step_delta

/-- Number of loop iterations an axis with remaining delta `step_delta` still needs. -/
def iterations_left (slop : Int) (calibrating : Bool) (step_delta : Int) : Nat :=
  if 0 ≤ step_delta then step_delta.toNat
  else if calibrating then (-step_delta).toNat else (-step_delta).toNat + slop.toNat

/-- Positions an axis at `step_position` with remaining delta `step_delta` still visits. -/
def positions_ahead (slop : Int) (calibrating : Bool) (step_position step_delta : Int) : List Int :=
  if 0 ≤ step_delta ∨ calibrating = true then path step_position (step_position + step_delta)
  else path step_position (step_position + step_delta) ++
    path (step_position + step_delta) (step_position + step_delta + slop)

/-- Position at which an axis at `step_position` with remaining delta `step_delta` comes to rest. -/
def rest_position (slop : Int) (calibrating : Bool) (step_position step_delta : Int) : Int :=
  if 0 ≤ step_delta ∨ calibrating = true then step_position + step_delta
  else step_position + step_delta + slop

/-- Number of loop iterations that the move of one axis takes, for `d = target - persisted`:
`|d|` on a clockwise or calibrating move, `|d| + 2 * slop` otherwise. -/
def loop_iterations (slop : Int) (calibrating : Bool) (d : Int) : Nat :=
  if 0 ≤ d ∨ calibrating = true then d.natAbs else d.natAbs + 2 * slop.toNat

/-! ## Write ordering and the power-loss bound, as predicates on an event list -/

/-- Every write in `evs` goes to register 0 or 1, comes directly after the coil command
of the same axis with the phase of the written position, changes the register by exactly
one step, and leaves the register equal to the rotor position. The registers hold `r`
and the rotors stand at the positions in `r` before `evs`. -/
def WriteOrdered (r : Rtc) (evs : List Event) : Prop :=
  ∀ pre post adr v, evs = pre ++ Event.write adr v :: post →
    (adr = 0 ∨ adr = 1) ∧
    (∃ pre2, pre = pre2 ++ [Event.energize (axis_pin adr) (and3 v)]) ∧
    (v - persisted adr (rtcRead r adr) pre).natAbs = 1 ∧
    persisted adr (rtcRead r adr) (pre ++ [Event.write adr v]) =
      rotor (axis_pin adr) (rtcRead r adr) (pre ++ [Event.write adr v])

/-- After every initial segment of `evs`, each register is within one step of the
rotor position of its axis. -/
def WithinOneStep (r : Rtc) (evs : List Event) : Prop :=
  ∀ pre post adr, evs = pre ++ post → (adr = 0 ∨ adr = 1) →
    (persisted adr (rtcRead r adr) pre - rotor (axis_pin adr) (rtcRead r adr) pre).natAbs ≤ 1

/-- After `evs`, registers and rotors both stand at the positions in `r2`. -/
def EndsAt (r : Rtc) (evs : List Event) (r2 : Rtc) : Prop :=
  ∀ adr, (adr = 0 ∨ adr = 1) →
    persisted adr (rtcRead r adr) evs = rtcRead r2 adr ∧
    rotor (axis_pin adr) (rtcRead r adr) evs = rtcRead r2 adr

/-- The three conditions together. -/
def Good (r : Rtc) (evs : List Event) (r2 : Rtc) : Prop :=
  WriteOrdered r evs ∧ WithinOneStep r evs ∧ EndsAt r evs r2

/-! ## main.cpp: `set_pointer`

`double` values are taken as exact numbers of an ordered field `K` with a floor
function (the rationals, for evaluation, or the reals); rounding of the floating-point
operations is not part of the embedding. -/

/-- Conversion of a `double` to an integer type: truncation toward zero. -/
def trunc {K : Type} [LinearOrderedField K] [FloorRing K] (x : K) : Int := if 0 ≤ x then ⌊x⌋ else ⌈x⌉

/-- Statement `if (object_az_d > 180.0) object_az_d -= 360.0;` of `set_pointer`. -/
def fold_azimuth {K : Type} [LinearOrderedField K] (object_az_d : K) : K :=
  if object_az_d > 180 then object_az_d - 360 else object_az_d

/-- Statement `if (al_ticks < altitude_limit) al_ticks = altitude_limit;` of `set_pointer`. -/
def protect_pointer (al_ticks : Int) : Int :=
  if al_ticks < altitude_limit then altitude_limit else al_ticks

/-- The part of `set_pointer` after the call of `transform`: from the azimuth and altitude
in degrees to the arguments `(az_ticks, al_ticks)` of the call `step_to (az_ticks, al_ticks,
false)`. -/
def set_pointer_targets {K : Type} [LinearOrderedField K] [FloorRing K] (object_az_d object_al_d : K) : Int × Int :=
  let object_az_d := fold_azimuth object_az_d
  let az_ticks := trunc (-object_az_d * (steps_per_revolution : K) / 360)
  let al_ticks := trunc (object_al_d * (steps_per_revolution : K) / 360)
  (az_ticks, protect_pointer al_ticks)

/-! ## astronomy.h, astronomy.cpp: the sidereal clock -/

/-- Macro `pi`. -/
def pi {K : Type} [LinearOrderedField K] : K := 3.141592653589793

/-- Macro `solar_ms_seconds_per_sidereal_day`. -/
def solar_ms_seconds_per_sidereal_day : Int := 86164091

/-- Macro `siderial_ms_offset`. -/
def siderial_ms_offset : Int := 1546276779239

/-- Reduction of an integer to its `uint64_t` value. -/
def uint64 (x : Int) : Int := x % 2 ^ 64

/-- The body of `getSiderealAngle` after `ms = t * 1000ull`: the value of `ms` after
`ms = ms % solar_ms_seconds_per_sidereal_day`, for the value `ms` of the first assignment
and the longitude `loc_lng_d`. The `int32_t` correction `ln` is the truncated quotient. -/
def sidereal_ms {K : Type} [LinearOrderedField K] [FloorRing K] (ms : Int) (loc_lng_d : K) : Int :=
  let ms := uint64 (ms - siderial_ms_offset)
  let ln : Int := trunc (loc_lng_d * (solar_ms_seconds_per_sidereal_day : K) / 360)
  let ms := uint64 (ms + ln)
  ms % solar_ms_seconds_per_sidereal_day

/-- The value of `ms` in `getSiderealAngle (t, loc_lng_d)` after the reduction modulo the
sidereal day. -/
def getSiderealAngle_ms {K : Type} [LinearOrderedField K] [FloorRing K] (t : Int) (loc_lng_d : K) : Int :=
  sidereal_ms (uint64 (t * 1000)) loc_lng_d

/-- Function `getSiderealAngle (t, loc_lng_d)`. -/
def getSiderealAngle {K : Type} [LinearOrderedField K] [FloorRing K] (t : Int) (loc_lng_d : K) : K :=
  let sidereal_r : K := (getSiderealAngle_ms t loc_lng_d : K)
  sidereal_r * 2 * pi / (solar_ms_seconds_per_sidereal_day : K)

/-! ## astronomy.cpp: the ephemeris engine

`double` values are real numbers and the C library functions are the real functions;
rounding is not part of the embedding. The macro `pi` keeps its decimal value. The Kepler
iteration is run with a fuel bound: `none` means that the bound was too small. -/

/-- C library function `atan2 (y, x)` on real arguments. -/
noncomputable def atan2 (y x : ℝ) : ℝ :=
  if 0 < x then Real.arctan (y / x)
  else if x < 0 then
    (if 0 ≤ y then Real.arctan (y / x) + Real.pi else Real.arctan (y / x) - Real.pi)
  else if 0 < y then Real.pi / 2
  else if y < 0 then -(Real.pi / 2)
  else 0

/-- Days since 31-12-1999T00:00:00: `d = (now - 946684800.0) / 86400.0 + 1`. -/
noncomputable def day_number (now : Int) : ℝ := ((now : ℝ) - 946684800.0) / 86400.0 + 1

/-- What `getPlanet` keeps of the Sun: elements and geocentric ecliptic vector. -/
structure SunState where
  ws : ℝ
  as : ℝ
  Ms : ℝ
  lonsun : ℝ
  xg : ℝ
  yg : ℝ
  zg : ℝ

/-- The Sun part of `getPlanet`: elements, eccentric anomaly, true longitude and vector. -/
noncomputable def sun (d : ℝ) : SunState :=
  let ws := 4.93824156690976 + 8.219366312880E-7 * d
  let as := 1.0
  let ecs := 0.016709 - 1.151E-09 * d
  let Ms := 6.21419244184825 + 1.720196961933E-2 * d
  let Eo := Ms + ecs * Real.sin Ms * (1.0 + ecs * Real.cos Ms)
  let xv := as * (Real.cos Eo - ecs)
  let yv := as * (Real.sqrt (1.0 - ecs * ecs) * Real.sin Eo)
  let vo := atan2 yv xv
  let ro := Real.sqrt (xv * xv + yv * yv)
  let lonsun := vo + ws
  { ws := ws, as := as, Ms := Ms, lonsun := lonsun
    xg := ro * Real.cos lonsun, yg := ro * Real.sin lonsun, zg := 0 }

/-- Orbital elements of an object: `No`, `io`, `wo`, `ao`, `eco`, `Mo`. -/
structure Elements where
  No : ℝ
  io : ℝ
  wo : ℝ
  ao : ℝ
  eco : ℝ
  Mo : ℝ

/-- The `switch (object)` of `getPlanet`. For an object outside `1 .. 8` the variables stay
unassigned: `none`. -/
noncomputable def elements (object : Int) (d : ℝ) : Option Elements :=
  if object = 1 then
    some { No := 0.843540316769135 + 5.665111859171E-7 * d
           io := 0.122255078114447 + 8.726646259972E-10 * d
           wo := 0.508311436680081 + 1.770531806393E-7 * d
           ao := 0.387098
           eco := 0.205635 + 5.59E-10 * d
           Mo := 2.94360599390206 + 7.142471001491E-2 * d }
  else if object = 2 then
    some { No := 1.3383167251 + 4.303807402493E-7 * d
           io := 0.0592469467881995 + 4.799655442984E-10 * d
           wo := 0.958028679712207 + 2.415081899155E-7 * d
           ao := 0.723330
           eco := 0.006773 - 1.302E-9 * d
           Mo := 0.837848798078382 + 2.796244746150E-2 * d }
  else if object = 3 then
    some { No := 2.18380482931436 - 9.242183063049E-4 * d
           io := 0.0898041713321162
           wo := 5.55125356008773 + 2.868576423897E-3 * d
           ao := 60.2666
           eco := 0.0549
           Mo := 2.01350607288027 + 2.280271437431E-1 * d }
  else if object = 4 then
    some { No := 0.864939798727838 + 3.68405843840215E-7 * d
           io := 0.0322833551741391 - 3.10668606854991E-10 * d
           wo := 5.00039623223179 + 5.11313402993511E-7 * d
           ao := 1.523688
           eco := 0.093405 + 2.516E-9 * d
           Mo := 0.324667892785237 + 9.14588790052766E-3 * d }
  else if object = 5 then
    some { No := 1.75325653745689 + 4.832013847316E-7 * d
           io := 0.0227416401534861 - 2.717477645355E-9 * d
           wo := 4.78006761278927 + 2.871153885993E-7 * d
           ao := 5.20256
           eco := 0.048498 + 4.469E-9 * d
           Mo := 0.347233254684272 + 1.450112046753E-3 * d }
  else if object = 6 then
    some { No := 1.98380056901132 + 4.170987846416E-7 * d
           io := 0.0434342637651309 - 1.886700921406E-9 * d
           wo := 5.92354101618438 + 5.195164504779E-7 * d
           ao := 9.55475
           eco := 0.055546 - 9.499E-9 * d
           Mo := 5.53211777016887 + 5.837118978783E-4 * d }
  else if object = 7 then
    some { No := 1.29155237312206 + 2.439621228438E-7 * d
           io := 0.0134966311056722 + 3.316125578789E-10 * d
           wo := 1.68705619892874 + 5.334598858721E-7 * d
           ao := 19.18171 - 1.55E-8 * d
           eco := 0.047318 + 7.45E-9 * d
           Mo := 2.48867370706497 + 2.046539221501E-4 * d }
  else if object = 8 then
    some { No := 2.30000536025364 + 5.266181952043E-7 * d
           io := 0.0308923277602996 - 4.450589592586E-9 * d
           wo := 4.7620627962257 - 1.051909940177E-7 * d
           ao := 30.05826 + 3.313E-8 * d
           eco := 0.008606 + 2.15E-9 * d
           Mo := 4.54216876376693 + 1.046350542911E-4 * d }
  else none

/-- The loop `while (EoDelta < -0.000872664 || EoDelta > 0.000872664)` of `getPlanet`,
from the current `Eo` and `EoDelta`; returns the final `Eo`. -/
noncomputable def kepler_loop (eco Mo : ℝ) : Nat → ℝ → ℝ → Option ℝ
  | fuel, Eo, EoDelta =>
    if EoDelta < -0.000872664 ∨ EoDelta > 0.000872664 then
      match fuel with
      | 0 => none
      | fuel + 1 =>
        let Eo1 := Eo - (Eo - eco * Real.sin Eo - Mo) / (1 - eco * Real.cos Eo)
        kepler_loop eco Mo fuel Eo1 (Eo - Eo1)
    else some Eo

/-- Eccentric anomaly of the object: first approximation, then the loop. -/
noncomputable def eccentric_anomaly (fuel : Nat) (eco Mo : ℝ) : Option ℝ :=
  let Eo := Mo + eco * Real.sin Mo * (1.0 + eco * Real.cos Mo)
  let EoDelta := 1.0
  kepler_loop eco Mo fuel Eo EoDelta

/-- Ecliptic longitude, latitude and distance of an object. -/
structure Ecliptic where
  lon : ℝ
  lat : ℝ
  ro : ℝ

/-- From the eccentric anomaly to the object's distance, longitude and latitude. -/
noncomputable def heliocentric (el : Elements) (Eo : ℝ) : Ecliptic :=
  let xv := el.ao * (Real.cos Eo - el.eco)
  let yv := el.ao * (Real.sqrt (1.0 - el.eco * el.eco) * Real.sin Eo)
  let vo := atan2 yv xv
  let ro := Real.sqrt (xv * xv + yv * yv)
  let xh := ro * (Real.cos el.No * Real.cos (vo + el.wo) -
    Real.sin el.No * Real.sin (vo + el.wo) * Real.cos el.io)
  let yh := ro * (Real.sin el.No * Real.cos (vo + el.wo) +
    Real.cos el.No * Real.sin (vo + el.wo) * Real.cos el.io)
  let zh := ro * (Real.sin (vo + el.wo) * Real.sin el.io)
  { lon := atan2 yh xh, lat := atan2 zh (Real.sqrt (xh * xh + yh * yh)), ro := ro }

/-- Perturbations of the Moon (`object == 3`). -/
noncomputable def perturb_moon (s : SunState) (el : Elements) (p : Ecliptic) : Ecliptic :=
  let Ms := s.Ms
  let Mo := el.Mo
  let Ls := s.Ms + s.ws
  let Lo := el.Mo + el.wo + el.No
  let ddo := Lo - Ls
  let F := Lo - el.No
  let lon := p.lon
  let lon := lon - 0.022235495 * Real.sin (Mo - 2 * ddo)
  let lon := lon + 0.011484266 * Real.sin (2 * ddo)
  let lon := lon - 0.003246312 * Real.sin Ms
  let lon := lon - 0.001029744 * Real.sin (2 * Mo - 2 * ddo)
  let lon := lon - 0.000994838 * Real.sin (Mo - 2 * ddo + Ms)
  let lon := lon + 0.000925025 * Real.sin (Mo + 2 * ddo)
  let lon := lon + 0.000802851 * Real.sin (2 * ddo - Ms)
  let lon := lon + 0.000715585 * Real.sin (Mo - Ms)
  let lon := lon - 0.000610865 * Real.sin ddo
  let lon := lon - 0.000541052 * Real.sin (Mo + Ms)
  let lon := lon - 0.000261799 * Real.sin (2 * F - 2 * ddo)
  let lon := lon + 0.000191986 * Real.sin (Mo - 4 * ddo)
  let lat := p.lat
  let lat := lat - 0.003019420 * Real.sin (F - 2 * ddo)
  let lat := lat - 0.000959931 * Real.sin (Mo - F - 2 * ddo)
  let lat := lat - 0.000802851 * Real.sin (Mo + F - 2 * ddo)
  let lat := lat + 0.000575959 * Real.sin (F + 2 * ddo)
  let lat := lat + 0.000296706 * Real.sin (2 * Mo + F)
  let ro := p.ro
  let ro := ro - 0.58 * Real.cos (Mo - 2 * ddo)
  let ro := ro - 0.46 * Real.cos (2 * ddo)
  { lon := lon, lat := lat, ro := ro }

/-- Perturbations of Jupiter, Saturn and Uranus (`object == 5`, `6`, `7`); any other object
is returned unchanged. -/
noncomputable def perturb_planet (object : Int) (d : ℝ) (p : Ecliptic) : Ecliptic :=
  let Mj := 0.347233254684272 + 1.450112046753E-3 * d
  let Ma := 5.53211777016887 + 5.837118978783E-4 * d
  let Mu := 2.48867370706497 + 2.046539221501E-4 * d
  if object = 5 then
    let lon := p.lon
    let lon := lon - 0.332 * Real.sin (2 * Mj - 5 * Ma - 1.17984257434817)
    let lon := lon - 0.056 * Real.sin (2 * Mj - 2 * Ma + 0.366519142918809)
    let lon := lon + 0.042 * Real.sin (3 * Mj - 5 * Ma + 0.366519142918809)
    let lon := lon - 0.036 * Real.sin (Mj - 2 * Ma)
    let lon := lon + 0.022 * Real.cos (Mj - Ma)
    let lon := lon + 0.023 * Real.sin (2 * Mj - 3 * Ma + 0.907571211037051)
    let lon := lon - 0.016 * Real.sin (Mj - 5 * Ma - 1.20427718387609)
    { lon := lon, lat := p.lat, ro := p.ro }
  else if object = 6 then
    let lon := p.lon
    let lon := lon + 0.812 * Real.sin (2 * Mj - 5 * Ma - 1.17984257434817)
    let lon := lon - 0.229 * Real.cos (2 * Mj - 4 * Ma - 0.0349065850398866)
    let lon := lon + 0.119 * Real.sin (Mj - 2 * Ma - 0.0523598775598299)
    let lon := lon + 0.046 * Real.sin (2 * Mj - 6 * Ma - 1.17984257434817)
    let lon := lon + 0.014 * Real.sin (Mj - 3 * Ma + 0.558505360638185)
    let lat := p.lat
    let lat := lat - 0.020 * Real.cos (2 * Mj - 4 * Ma - 0.0349065850398866)
    let lat := lat + 0.018 * Real.sin (2 * Mj - 6 * Ma - 0.855211333477221)
    { lon := lon, lat := lat, ro := p.ro }
  else if object = 7 then
    let lon := p.lon
    let lon := lon + 0.040 * Real.sin (Ma - 2 * Mu + 0.10471975511966)
    let lon := lon + 0.035 * Real.sin (Ma - 3 * Mu + 0.575958653158129)
    let lon := lon - 0.015 * Real.sin (Mj - Mu + 0.349065850398866)
    { lon := lon, lat := p.lat, ro := p.ro }
  else p

/-- Geocentric ecliptic vector `(xg, yg, zg)` of an object other than the Sun, from its
perturbed longitude, latitude and distance. -/
noncomputable def geocentric (object : Int) (s : SunState) (p : Ecliptic) : ℝ × ℝ × ℝ :=
  let xh := p.ro * Real.cos p.lon * Real.cos p.lat
  let yh := p.ro * Real.sin p.lon * Real.cos p.lat
  let zh := p.ro * Real.sin p.lat
  if object = 3 then (xh, yh, zh)
  else (xh + s.as * Real.cos s.lonsun, yh + s.as * Real.sin s.lonsun, zh)

/-- Rotation to equatorial coordinates and conversion to right ascension (hours) and
declination (degrees): the last statements of `getPlanet`. -/
noncomputable def equatorial (d : ℝ) (g : ℝ × ℝ × ℝ) : ℝ × ℝ :=
  let xg := g.1
  let yg := g.2.1
  let zg := g.2.2
  let ecl := 0.409092959362707 + 6.218608124856E-9 * d
  let xe := xg
  let ye := yg * Real.cos ecl - zg * Real.sin ecl
  let ze := yg * Real.sin ecl + zg * Real.cos ecl
  let object_ra := atan2 ye xe * 12.0 / pi
  let object_ra := if object_ra < 0.0 then object_ra + 24.0 else object_ra
  let object_dc := Real.arctan (ze / Real.sqrt (xe * xe + ye * ye)) * 180 / pi
  (object_ra, object_dc)

/-- Function `getPlanet (object, now, &object_ra, &object_dc)`: the pair
`(object_ra, object_dc)`. -/
noncomputable def getPlanet (fuel : Nat) (object : Int) (now : Int) : Option (ℝ × ℝ) :=
  let d := day_number now
  let s := sun d
  if object = 0 then some (equatorial d (s.xg, s.yg, s.zg))
  else
    (elements object d).bind fun el =>
    (eccentric_anomaly fuel el.eco el.Mo).bind fun Eo =>
      let p := heliocentric el Eo
      let p := if object = 3 then perturb_moon s el p else p
      let p := perturb_planet object d p
      some (equatorial d (geocentric object s p))

/-- Function `getObject (index, now, &object_ra, &object_dc)`: the pair
`(object_ra, object_dc)`. -/
noncomputable def getObject (fuel : Nat) (index : Int) (now : Int) : Option (ℝ × ℝ) :=
  if index = 9 then some (14.261, 19.182)
  else if index = 10 then some (18.616, 38.784)
  else if index = 11 then some (11.062, 61.751)
  else if index = 12 then some (5.278, 45.998)
  else if index = 13 then some (7.577, 31.888)
  else if index = 14 then some (3.7914, 24.105)
  else getPlanet fuel index now

/-- The change `EoDelta = Eo - Eo1` made by one iteration of the Kepler loop at `Eo`. -/
noncomputable def kepler_delta (eco Mo Eo : ℝ) : ℝ :=
  (Eo - eco * Real.sin Eo - Mo) / (1 - eco * Real.cos Eo)

/-- A geocentric ecliptic vector `(xg, yg, zg)` off the ecliptic axis and near the ecliptic
plane: `0 < xg² + yg²` and `zg² ≤ 0.08 (xg² + yg²)` (latitude below about 15.8 degrees). -/
def NearEcliptic (g : ℝ × ℝ × ℝ) : Prop :=
  0 < g.1 ^ 2 + g.2.1 ^ 2 ∧ g.2.2 ^ 2 ≤ 0.08 * (g.1 ^ 2 + g.2.1 ^ 2)

/-! ## ds3231.cpp: the alarm registers as NVRAM

The byte level of `rtcRead` and `rtcWrite`. The width of `int` is the parameter `w`
(16 on the AVR target); signed results that do not fit are reduced to `w` bits in
two's complement. -/

namespace Ds3231

/-- Conversion of an integer to `uint8_t`. -/
def uint8 (x : Int) : Int := x % 2 ^ 8

/-- Conversion of an integer to `uint16_t`. -/
def uint16 (x : Int) : Int := x % 2 ^ 16

/-- Value of an integer result in an `int` of `w` bits, two's complement. -/
def int_of (w : Nat) (x : Int) : Int := (x + 2 ^ (w - 1)) % 2 ^ w - 2 ^ (w - 1)

/-- Three bytes minute-hour-day: the array `mhd`, and the content of one alarm-register
set (`mhd[0]` minute, `mhd[1]` hour, `mhd[2]` day in month). -/
structure Mhd where
  minute : Int
  hour : Int
  day : Int
deriving DecidableEq, Repr

/-- The global `mhd` and the two alarm-register sets `ALRM0`, `ALRM1` of the chip. -/
structure Nvram where
  mhd : Mhd
  alrm0 : Mhd
  alrm1 : Mhd
deriving DecidableEq, Repr

/-- Function `rtcRead (adr)`: the returned value and the state, in which `mhd` holds the
bytes read by `RTC.readRTC`. -/
def rtcRead (w : Nat) (s : Nvram) (adr : Int) : Int × Nvram :=
  let mhd := if adr = 0 then s.alrm0 else s.alrm1
  let uvalue := uint16 (int_of w ((mhd.day - 1) * (60 * 24) + mhd.hour * 60 + mhd.minute))
  (int_of w (uvalue - 2000), { s with mhd := mhd })

/-- Function `rtcWrite (adr, value)`: `mhd` is filled from the value and written to the
register set by `RTC.writeRTC`. -/
def rtcWrite (w : Nat) (s : Nvram) (adr : Int) (value : Int) : Nvram :=
  let uvalue := uint16 (int_of w (value + 2000))
  let mhd : Mhd :=
    { minute := uint8 (uvalue % 60)
      hour := uint8 ((uvalue / 60) % 24)
      day := uint8 (1 + uvalue / (60 * 24)) }
  if adr = 0 then { s with mhd := mhd, alrm0 := mhd } else { s with mhd := mhd, alrm1 := mhd }

/-- The register set that `adr` selects. -/
def Nvram.alarm (s : Nvram) (adr : Int) : Mhd := if adr = 0 then s.alrm0 else s.alrm1

/-- Values that the minute, hour and day-of-month fields of an alarm-register set can
stand for. -/
def Mhd.valid (m : Mhd) : Prop :=
  0 ≤ m.minute ∧ m.minute ≤ 59 ∧ 0 ≤ m.hour ∧ m.hour ≤ 23 ∧ 1 ≤ m.day ∧ m.day ≤ 31

/-- The integers that the two register sets stand for: the store as `step_to` sees it. -/
def Nvram.toRtc (w : Nat) (s : Nvram) : Rtc := ⟨(rtcRead w s 0).1, (rtcRead w s 1).1⟩

end Ds3231

/-! ## stepper.cpp: `step_energize` and the coil outputs -/

/-- Function `step_energize (motor_pin_first, mode)`: the calls `digitalWrite (pin, level)`
that it makes, in order; `true` is `HIGH`, `false` is `LOW`. -/
def step_energize (motor_pin_first mode : Int) : List (Int × Bool) :=
  if mode = 0 then
    [(motor_pin_first, true), (motor_pin_first + 1, true),
     (motor_pin_first + 2, false), (motor_pin_first + 3, false)]
  else if mode = 1 then
    [(motor_pin_first, true), (motor_pin_first + 1, false),
     (motor_pin_first + 2, false), (motor_pin_first + 3, true)]
  else if mode = 2 then
    [(motor_pin_first, false), (motor_pin_first + 1, false),
     (motor_pin_first + 2, true), (motor_pin_first + 3, true)]
  else if mode = 3 then
    [(motor_pin_first, false), (motor_pin_first + 1, true),
     (motor_pin_first + 2, true), (motor_pin_first + 3, false)]
  else
    [(motor_pin_first, false), (motor_pin_first + 1, false),
     (motor_pin_first + 2, false), (motor_pin_first + 3, false)]

/-- The pins that a call of `step_energize` drives high, in the order of the calls. -/
def high_pins (motor_pin_first mode : Int) : List Int :=
  ((step_energize motor_pin_first mode).filter (fun c => c.2)).map (fun c => c.1)

/-- The pins that a call of `step_energize` writes, in the order of the calls. -/
def written_pins (motor_pin_first mode : Int) : List Int :=
  (step_energize motor_pin_first mode).map (fun c => c.1)

/-- Two of the four pins `first .. first + 3` are neighbours on the cycle
`first, first + 1, first + 2, first + 3, first`. -/
def cyclically_adjacent (a b : Int) : Prop := (b - a) % 4 = 1 ∨ (a - b) % 4 = 1

/-- Output levels of the pins after the calls of `digitalWrite`, in order. -/
def drive (pins : Int → Bool) : List (Int × Bool) → Int → Bool
  | [] => pins
  | c :: cs => drive (fun q => if q = c.1 then c.2 else pins q) cs

/-- Output levels of the pins after the events of `step_to`, in order: every coil
command is a call of `step_energize`. -/
def coils (pins : Int → Bool) : List Event → Int → Bool
  | [] => pins
  | Event.energize p m :: evs => coils (drive pins (step_energize p m)) evs
  | Event.write _ _ :: evs => coils pins evs

/-! ## astronomy.cpp: `transform` -/

/-- Function `transform (object_ra_h, object_dc_d, loc_lat_d, sidereal_r, &object_az_d,
&object_al_d)`: returns `(object_az_d, object_al_d)`. -/
noncomputable def transform (object_ra_h object_dc_d loc_lat_d sidereal_r : ℝ) : ℝ × ℝ :=
  let object_ra_r := object_ra_h / 12.00 * pi
  let object_dc_r := object_dc_d / 180.0 * pi
  let loc_lat_r := loc_lat_d / 180.0 * pi
  let hour_angle_r := sidereal_r - object_ra_r
  let object_ec_x := Real.cos hour_angle_r * Real.cos object_dc_r
  let object_ec_y := Real.sin hour_angle_r * Real.cos object_dc_r
  let object_ec_z := Real.sin object_dc_r
  let csin := Real.sin loc_lat_r
  let ccos := Real.cos loc_lat_r
  let tmp_x := (object_ec_x * csin) - (object_ec_z * ccos)
  let tmp_y := object_ec_y
  let tmp_z := (object_ec_x * ccos) + (object_ec_z * csin)
  let object_az_r := atan2 tmp_y tmp_x + pi
  let object_al_r := atan2 tmp_z (Real.sqrt (tmp_x * tmp_x + tmp_y * tmp_y))
  (object_az_r / pi * 180, object_al_r / pi * 180)

/-! ## Observers of the loop -/

/-- The coil commands with a phase `0 .. 3` that the loop of `step_to` sends to the axis
on `motor_pin` in the iterations that follow the iteration run from `st`, when not
calibrating. -/
def steps_after (slop : Int) (fuel : Nat) (motor_pin : Int) (st : Locals) : Option (List Event) :=
  (step_loop slop false fuel (step_body slop false st).1).map
    (fun out => out.2.flatten.filter (Event.isPhase motor_pin))

/-! ## astronomy.cpp: the degree values documented beside the orbital elements -/

/-- Degree values in the comments on the lines of the angular elements of one object:
constant term and coefficient of `d` for `No`, `io`, `wo` and `Mo`. -/
structure Documented (K : Type) where
  N0 : K
  N1 : K
  i0 : K
  i1 : K
  w0 : K
  w1 : K
  M0 : K
  M1 : K

/-- The comments on the element lines of the `switch (object)` of `getPlanet`; the line of
`io` of the Moon documents a constant only. -/
def documented {K : Type} [LinearOrderedField K] (object : Int) : Option (Documented K) :=
  if object = 1 then
    some { N0 := 48.3313, N1 := 3.24587E-5, i0 := 7.0047, i1 := 5.00E-8
           w0 := 29.1241, w1 := 1.01444E-5, M0 := 168.6562, M1 := 4.0923344368 }
  else if object = 2 then
    some { N0 := 76.6799, N1 := 2.46590E-5, i0 := 3.3946, i1 := 2.75E-8
           w0 := 54.8910, w1 := 1.38374E-5, M0 := 48.0052, M1 := 1.6021302244 }
  else if object = 3 then
    some { N0 := 125.1228, N1 := -0.0529538083, i0 := 5.1454, i1 := 0
           w0 := 318.0634, w1 := 0.1643573223, M0 := 115.3654, M1 := 13.0649929509 }
  else if object = 4 then
    some { N0 := 49.5574, N1 := 2.11081E-5, i0 := 1.8497, i1 := -1.78E-8
           w0 := 286.5016, w1 := 2.92961E-5, M0 := 18.6021, M1 := 0.5240207766 }
  else if object = 5 then
    some { N0 := 100.4542, N1 := 2.76854E-5, i0 := 1.3030, i1 := -1.557E-7
           w0 := 273.8777, w1 := 1.64505E-5, M0 := 19.8950, M1 := 0.0830853001 }
  else if object = 6 then
    some { N0 := 113.6634, N1 := 2.38980E-5, i0 := 2.4886, i1 := -1.081E-7
           w0 := 339.3939, w1 := 2.97661E-5, M0 := 316.9670, M1 := 0.0334442282 }
  else if object = 7 then
    some { N0 := 74.0005, N1 := 1.3978E-5, i0 := 0.7733, i1 := 1.9E-8
           w0 := 96.6612, w1 := 3.0565E-5, M0 := 142.5905, M1 := 0.011725806 }
  else if object = 8 then
    some { N0 := 131.7806, N1 := 3.0173E-5, i0 := 1.7700, i1 := -2.55E-7
           w0 := 272.8461, w1 := -6.027E-6, M0 := 260.2471, M1 := 0.005995147 }
  else none

/-- The comments on the lines of `ws` and `Ms` of the Sun: constant term and coefficient
of `d`, in degrees. Only the fields `w0`, `w1`, `M0`, `M1` are documented; the elements
`Ns` and `is` are zero. -/
def documented_sun {K : Type} [LinearOrderedField K] : Documented K :=
  { N0 := 0, N1 := 0, i0 := 0, i1 := 0
    w0 := 282.9404, w1 := 4.70935E-05, M0 := 356.047, M1 := 0.9856002585 }

/-- The value `code` is the angle of `deg` degrees in radians: it has the sign of `deg`
and is within a relative error of `1e-9` of `deg * pi / 180`, both for the macro `pi` of
the program and for the number π. -/
def Prebaked (code deg : ℝ) : Prop :=
  |code - deg * pi / 180| ≤ 1e-9 * |deg * pi / 180| ∧
  |code - deg * Real.pi / 180| ≤ 1e-9 * |deg * Real.pi / 180| ∧
  (0 < code ↔ 0 < deg) ∧ (code < 0 ↔ deg < 0)

/-- One update of the Kepler loop: `Eo1 = Eo - (Eo - eco * sin (Eo) - Mo) / (1 - eco * cos (Eo))`. -/
noncomputable def kepler_step (eco Mo Eo : ℝ) : ℝ := Eo - kepler_delta eco Mo Eo

/-- The obliquity of the ecliptic that `getPlanet` uses for the day number `d`: the
variable `ecl`. -/
noncomputable def ecl (d : ℝ) : ℝ := 0.409092959362707 + 6.218608124856E-9 * d

/-- The distance `ro` of the Sun that `getPlanet` computes in its Sun part
(`ro = sqrt (xv * xv + yv * yv)`), before the object part reuses the variable. -/
noncomputable def sun_ro (d : ℝ) : ℝ :=
  let as := 1.0
  let ecs := 0.016709 - 1.151E-09 * d
  let Ms := 6.21419244184825 + 1.720196961933E-2 * d
  let Eo := Ms + ecs * Real.sin Ms * (1.0 + ecs * Real.cos Ms)
  let xv := as * (Real.cos Eo - ecs)
  let yv := as * (Real.sqrt (1.0 - ecs * ecs) * Real.sin Eo)
  Real.sqrt (xv * xv + yv * yv)

/-- The rotated vector `(tmp_x, tmp_y, tmp_z)` of `transform`. -/
noncomputable def transform_vector (object_ra_h object_dc_d loc_lat_d sidereal_r : ℝ) :
    ℝ × ℝ × ℝ :=
  let object_ra_r := object_ra_h / 12.00 * pi
  let object_dc_r := object_dc_d / 180.0 * pi
  let loc_lat_r := loc_lat_d / 180.0 * pi
  let hour_angle_r := sidereal_r - object_ra_r
  let object_ec_x := Real.cos hour_angle_r * Real.cos object_dc_r
  let object_ec_y := Real.sin hour_angle_r * Real.cos object_dc_r
  let object_ec_z := Real.sin object_dc_r
  let csin := Real.sin loc_lat_r
  let ccos := Real.cos loc_lat_r
  ((object_ec_x * csin) - (object_ec_z * ccos), object_ec_y,
    (object_ec_x * ccos) + (object_ec_z * csin))

/-- The angles `(object_az_r, object_al_r)` of `transform`, in radians, before the
conversion to degrees. -/
noncomputable def transform_radians (object_ra_h object_dc_d loc_lat_d sidereal_r : ℝ) : ℝ × ℝ :=
  let v := transform_vector object_ra_h object_dc_d loc_lat_d sidereal_r
  let tmp_x := v.1
  let tmp_y := v.2.1
  let tmp_z := v.2.2
  (atan2 tmp_y tmp_x + pi, atan2 tmp_z (Real.sqrt (tmp_x * tmp_x + tmp_y * tmp_y)))

/-! ## Lemmas: phases and paths -/

theorem and3_eq_emod (x : Int) : and3 x = x % 4 := by
  unfold and3
  have h3 : (3 : Int) = Int.bit true (Int.bit true 0) := by decide
  have hx : x = Int.bit x.bodd (Int.bit x.div2.bodd x.div2.div2) := by
    rw [Int.bit_decomp, Int.bit_decomp]
  have h0 : Int.land x.div2.div2 0 = 0 := by
    cases x.div2.div2 <;> simp [Int.land, Nat.ldiff]
  have e1 := Int.bodd_add_div2 x
  have e2 := Int.bodd_add_div2 x.div2
  rw [h3]
  conv_lhs => rw [hx]
  rw [Int.land_bit, Int.land_bit, h0]
  simp only [Int.bit_val, Bool.and_true]
  cases hb1 : x.bodd <;> cases hb2 : x.div2.bodd <;> simp [hb1, hb2] at e1 e2 ⊢ <;> omega

theorem and3_range (x : Int) : 0 ≤ and3 x ∧ and3 x ≤ 3 := by
  rw [and3_eq_emod]; omega

theorem path_self (p : Int) : path p p = [] := by
  simp [path]

theorem path_up (p t : Int) (h : p < t) : path p t = (p + 1) :: path (p + 1) t := by
  have h1 : p ≤ t := by omega
  have h2 : p + 1 ≤ t := by omega
  have h3 : (t - p).toNat = (t - (p + 1)).toNat + 1 := by omega
  simp only [path, h1, h2, if_true, h3, List.range_succ_eq_map, List.map_cons, List.map_map]
  refine congrArg₂ _ (by simp) ?_
  apply List.map_congr_left
  intro k _
  simp only [Function.comp, Nat.succ_eq_add_one]
  push_cast
  ring

theorem path_down (p t : Int) (h : t < p) : path p t = (p - 1) :: path (p - 1) t := by
  have h1 : ¬ p ≤ t := by omega
  have h3 : (p - t).toNat = (p - 1 - t).toNat + 1 := by omega
  by_cases h2 : p - 1 ≤ t
  · have h4 : t = p - 1 := by omega
    subst h4
    have h5 : (p - (p - 1)).toNat = 1 := by omega
    simp [path, h1, h5, List.range_succ]
  · simp only [path, h1, h2, if_false, h3, List.range_succ_eq_map, List.map_cons, List.map_map]
    refine congrArg₂ _ (by simp) ?_
    apply List.map_congr_left
    intro k _
    simp only [Function.comp, Nat.succ_eq_add_one]
    push_cast
    ring

theorem path_length (p t : Int) : (path p t).length = (t - p).natAbs := by
  unfold path
  split <;> simp <;> omega

/-! ## Lemmas: one axis, one iteration -/

theorem step_axis_eq (slop : Int) (cal : Bool) (pin adr pos delta : Int) (rtc : Rtc) :
    step_axis slop cal pin adr pos delta rtc =
      { step_position := next_position pos delta
        step_delta := next_delta slop cal delta
        rtc := if delta = 0 ∨ cal = true then rtc else rtcWrite rtc adr (next_position pos delta)
        events := if delta = 0 then [] else step_events cal pin adr (next_position pos delta) } := by
  unfold step_axis next_position next_delta step_events
  by_cases h1 : 0 < delta
  · have h0 : delta ≠ 0 := by omega
    cases cal <;> simp [h1, h0]
  · by_cases h2 : delta < 0
    · have h0 : delta ≠ 0 := by omega
      cases cal <;> simp [h1, h2, h0]
    · have h0 : delta = 0 := by omega
      simp [h0]

theorem iterations_left_next (slop : Int) (cal : Bool) (delta : Int) (hs : 0 ≤ slop)
    (h : delta ≠ 0) :
    iterations_left slop cal (next_delta slop cal delta) + 1 = iterations_left slop cal delta := by
  unfold iterations_left next_delta
  cases cal <;> simp <;> split_ifs <;> omega

theorem iterations_left_zero (slop : Int) (cal : Bool) : iterations_left slop cal 0 = 0 := by
  simp [iterations_left]

theorem iterations_left_pos (slop : Int) (cal : Bool) (delta : Int) (h : delta ≠ 0) :
    0 < iterations_left slop cal delta := by
  unfold iterations_left
  split_ifs <;> omega

theorem rest_position_next (slop : Int) (cal : Bool) (pos delta : Int) (hs : 0 ≤ slop) :
    rest_position slop cal (next_position pos delta) (next_delta slop cal delta) =
      rest_position slop cal pos delta := by
  unfold rest_position next_position next_delta
  cases cal <;> simp <;> split_ifs <;> omega

theorem rest_position_zero (slop : Int) (cal : Bool) (pos : Int) :
    rest_position slop cal pos 0 = pos := by
  simp [rest_position]

theorem positions_ahead_zero (slop : Int) (cal : Bool) (pos : Int) :
    positions_ahead slop cal pos 0 = [] := by
  simp [positions_ahead, path_self]

theorem positions_ahead_next (slop : Int) (cal : Bool) (pos delta : Int) (hs : 0 ≤ slop)
    (h : delta ≠ 0) :
    positions_ahead slop cal pos delta =
      next_position pos delta ::
        positions_ahead slop cal (next_position pos delta) (next_delta slop cal delta) := by
  unfold positions_ahead next_position next_delta
  by_cases h1 : 0 < delta
  · have h2 : 0 ≤ delta := by omega
    have h3 : 0 ≤ delta - 1 := by omega
    have h4 : pos + 1 + (delta - 1) = pos + delta := by ring
    simp only [h1, h2, h3, if_true, true_or, h4]
    exact path_up _ _ (by omega)
  · have h2 : delta < 0 := by omega
    have h3 : ¬ 0 ≤ delta := by omega
    cases cal
    · by_cases h5 : delta + 1 = 0
      · have h6 : delta = -1 := by omega
        subst h6
        simp [hs]
        rw [path_down _ _ (by omega : pos + -1 < pos)]
        have e1 : pos - 1 = pos + -1 := by ring
        rw [e1, path_self]
        simp
      · have h6 : ¬ 0 ≤ delta + 1 := by omega
        have h4 : pos - 1 + (delta + 1) = pos + delta := by ring
        simp [h1, h2, h3, h5, h6, h4]
        rw [path_down pos (pos + delta) (by omega)]
        rfl
    · have h4 : pos - 1 + (delta + 1) = pos + delta := by ring
      simp [h1, h2, h4]
      exact path_down _ _ (by omega)

/-! ## Lemmas: one iteration of the loop -/

theorem axisEvents_append (pin adr : Int) (a b : List Event) :
    axisEvents pin adr (a ++ b) = axisEvents pin adr a ++ axisEvents pin adr b := by
  simp [axisEvents]

theorem axisEvents_step_events (cal : Bool) (pin adr q : Int) :
    axisEvents pin adr (step_events cal pin adr q) = step_events cal pin adr q := by
  have h := and3_range q
  cases cal <;> simp [axisEvents, step_events, Event.moves, h.1, h.2]

theorem axisEvents_step_events_other (cal : Bool) (pin adr pin2 adr2 q : Int)
    (hp : pin2 ≠ pin) (ha : adr2 ≠ adr) :
    axisEvents pin adr (step_events cal pin2 adr2 q) = [] := by
  cases cal <;> simp [axisEvents, step_events, Event.moves, hp, ha]

theorem axisEvents_off (pin adr p : Int) :
    axisEvents pin adr [Event.energize p 99] = [] := by
  simp [axisEvents, Event.moves]

theorem step_body_locals (slop : Int) (cal : Bool) (s : Locals) :
    (step_body slop cal s).1.step_position_azimuth =
        next_position s.step_position_azimuth s.step_delta_azimuth ∧
    (step_body slop cal s).1.step_delta_azimuth = next_delta slop cal s.step_delta_azimuth ∧
    (step_body slop cal s).1.step_position_altitude =
        next_position s.step_position_altitude s.step_delta_altitude ∧
    (step_body slop cal s).1.step_delta_altitude = next_delta slop cal s.step_delta_altitude := by
  simp [step_body, step_axis_eq]

theorem step_body_rtc_calibrating (slop : Int) (s : Locals) :
    (step_body slop true s).1.rtc = s.rtc := by
  simp [step_body, step_axis_eq]

theorem step_body_rtc (slop : Int) (s : Locals)
    (h : s.rtc = ⟨s.step_position_azimuth, s.step_position_altitude⟩) :
    (step_body slop false s).1.rtc =
      ⟨next_position s.step_position_azimuth s.step_delta_azimuth,
       next_position s.step_position_altitude s.step_delta_altitude⟩ := by
  simp only [step_body, step_axis_eq, h]
  by_cases h1 : s.step_delta_azimuth = 0 <;> by_cases h2 : s.step_delta_altitude = 0 <;>
    simp [h1, h2, rtcWrite, next_position]

theorem step_body_events_azimuth (slop : Int) (cal : Bool) (s : Locals) :
    axisEvents motor_pin_azimuth 0 (step_body slop cal s).2 =
      if s.step_delta_azimuth = 0 then []
      else step_events cal motor_pin_azimuth 0
        (next_position s.step_position_azimuth s.step_delta_azimuth) := by
  simp only [step_body, step_axis_eq, axisEvents_append]
  have e1 : ∀ q, axisEvents motor_pin_azimuth 0 (step_events cal motor_pin_altitude 1 q) = [] :=
    fun q => axisEvents_step_events_other cal _ _ _ _ q (by decide) (by decide)
  by_cases h1 : s.step_delta_azimuth = 0 <;> by_cases h2 : s.step_delta_altitude = 0 <;>
    simp only [h1, h2, if_true, if_false, e1, axisEvents_step_events] <;>
    split_ifs <;> simp [axisEvents_off, axisEvents, Event.moves]

theorem step_body_events_altitude (slop : Int) (cal : Bool) (s : Locals) :
    axisEvents motor_pin_altitude 1 (step_body slop cal s).2 =
      if s.step_delta_altitude = 0 then []
      else step_events cal motor_pin_altitude 1
        (next_position s.step_position_altitude s.step_delta_altitude) := by
  simp only [step_body, step_axis_eq, axisEvents_append]
  have e1 : ∀ q, axisEvents motor_pin_altitude 1 (step_events cal motor_pin_azimuth 0 q) = [] :=
    fun q => axisEvents_step_events_other cal _ _ _ _ q (by decide) (by decide)
  by_cases h1 : s.step_delta_azimuth = 0 <;> by_cases h2 : s.step_delta_altitude = 0 <;>
    simp only [h1, h2, if_true, if_false, e1, axisEvents_step_events] <;>
    split_ifs <;> simp [axisEvents_off, axisEvents, Event.moves]

/-! ## Lemmas: the whole loop -/

theorem step_loop_done (slop : Int) (cal : Bool) (fuel : Nat) (s : Locals)
    (h1 : s.step_delta_azimuth = 0) (h2 : s.step_delta_altitude = 0) :
    step_loop slop cal fuel s = some (s, []) := by
  cases fuel <;> simp [step_loop, h1, h2]

theorem step_loop_more (slop : Int) (cal : Bool) (fuel : Nat) (s : Locals)
    (h : s.step_delta_azimuth ≠ 0 ∨ s.step_delta_altitude ≠ 0) :
    step_loop slop cal (fuel + 1) s =
      (step_loop slop cal fuel (step_body slop cal s).1).map
        (fun out => (out.1, (step_body slop cal s).2 :: out.2)) := by
  rw [step_loop]
  simp only [h, if_true]

theorem step_loop_spec (slop : Int) (cal : Bool) (hs : 0 ≤ slop) :
    ∀ (fuel : Nat) (s : Locals),
      max (iterations_left slop cal s.step_delta_azimuth)
          (iterations_left slop cal s.step_delta_altitude) ≤ fuel →
      ∃ s2 iters, step_loop slop cal fuel s = some (s2, iters) ∧
        iters.length = max (iterations_left slop cal s.step_delta_azimuth)
          (iterations_left slop cal s.step_delta_altitude) ∧
        s2.step_delta_azimuth = 0 ∧ s2.step_delta_altitude = 0 ∧
        s2.step_position_azimuth =
          rest_position slop cal s.step_position_azimuth s.step_delta_azimuth ∧
        s2.step_position_altitude =
          rest_position slop cal s.step_position_altitude s.step_delta_altitude ∧
        axisEvents motor_pin_azimuth 0 iters.flatten =
          (positions_ahead slop cal s.step_position_azimuth s.step_delta_azimuth).flatMap
            (step_events cal motor_pin_azimuth 0) ∧
        axisEvents motor_pin_altitude 1 iters.flatten =
          (positions_ahead slop cal s.step_position_altitude s.step_delta_altitude).flatMap
            (step_events cal motor_pin_altitude 1) ∧
        (cal = true → s2.rtc = s.rtc) ∧
        (cal = false → s.rtc = ⟨s.step_position_azimuth, s.step_position_altitude⟩ →
          s2.rtc = ⟨s2.step_position_azimuth, s2.step_position_altitude⟩) := by
  intro fuel
  induction fuel with
  | zero =>
    intro s hfuel
    have h1 : s.step_delta_azimuth = 0 := by
      by_contra hne
      have := iterations_left_pos slop cal _ hne
      omega
    have h2 : s.step_delta_altitude = 0 := by
      by_contra hne
      have := iterations_left_pos slop cal _ hne
      omega
    refine ⟨s, [], step_loop_done slop cal 0 s h1 h2, ?_⟩
    simp [h1, h2, iterations_left_zero, rest_position_zero, positions_ahead_zero, axisEvents]
  | succ n ih =>
    intro s hfuel
    by_cases hdone : s.step_delta_azimuth = 0 ∧ s.step_delta_altitude = 0
    · obtain ⟨h1, h2⟩ := hdone
      refine ⟨s, [], step_loop_done slop cal (n + 1) s h1 h2, ?_⟩
      simp [h1, h2, iterations_left_zero, rest_position_zero, positions_ahead_zero, axisEvents]
    · have hmore : s.step_delta_azimuth ≠ 0 ∨ s.step_delta_altitude ≠ 0 := by
        by_contra hc
        push_neg at hc
        exact hdone hc
      obtain ⟨b1, b2, b3, b4⟩ := step_body_locals slop cal s
      have bev1 := step_body_events_azimuth slop cal s
      have bev2 := step_body_events_altitude slop cal s
      have brc : cal = true → (step_body slop cal s).1.rtc = s.rtc := by
        intro hc
        subst hc
        exact step_body_rtc_calibrating slop s
      have brn : cal = false → s.rtc = ⟨s.step_position_azimuth, s.step_position_altitude⟩ →
          (step_body slop cal s).1.rtc =
            ⟨(step_body slop cal s).1.step_position_azimuth,
             (step_body slop cal s).1.step_position_altitude⟩ := by
        intro hc hrtc
        subst hc
        rw [step_body_rtc slop s hrtc, b1, b3]
      have hstep : step_loop slop cal (n + 1) s =
          (step_loop slop cal n (step_body slop cal s).1).map
            (fun out => (out.1, (step_body slop cal s).2 :: out.2)) :=
        step_loop_more slop cal n s hmore
      generalize step_body slop cal s = r at b1 b2 b3 b4 bev1 bev2 brc brn hstep
      have haz : iterations_left slop cal r.1.step_delta_azimuth + 1 =
          iterations_left slop cal s.step_delta_azimuth ∨ (s.step_delta_azimuth = 0 ∧
          iterations_left slop cal r.1.step_delta_azimuth = 0 ∧
          iterations_left slop cal s.step_delta_azimuth = 0) := by
        rw [b2]
        by_cases h0 : s.step_delta_azimuth = 0
        · right
          simp [h0, next_delta, iterations_left_zero]
        · left
          exact iterations_left_next slop cal _ hs h0
      have hal : iterations_left slop cal r.1.step_delta_altitude + 1 =
          iterations_left slop cal s.step_delta_altitude ∨ (s.step_delta_altitude = 0 ∧
          iterations_left slop cal r.1.step_delta_altitude = 0 ∧
          iterations_left slop cal s.step_delta_altitude = 0) := by
        rw [b4]
        by_cases h0 : s.step_delta_altitude = 0
        · right
          simp [h0, next_delta, iterations_left_zero]
        · left
          exact iterations_left_next slop cal _ hs h0
      have hboth : max (iterations_left slop cal r.1.step_delta_azimuth)
            (iterations_left slop cal r.1.step_delta_altitude) ≤ n ∧
          max (iterations_left slop cal r.1.step_delta_azimuth)
            (iterations_left slop cal r.1.step_delta_altitude) + 1 =
          max (iterations_left slop cal s.step_delta_azimuth)
            (iterations_left slop cal s.step_delta_altitude) := by
        generalize iterations_left slop cal r.1.step_delta_azimuth = a2 at haz
        generalize iterations_left slop cal r.1.step_delta_altitude = l2 at hal
        generalize iterations_left slop cal s.step_delta_azimuth = a1 at haz hfuel
        generalize iterations_left slop cal s.step_delta_altitude = l1 at hal hfuel
        rcases haz with haz | ⟨z1, haz, z2⟩ <;> rcases hal with hal | ⟨z3, hal, z4⟩
        · omega
        · omega
        · omega
        · exact absurd ⟨z1, z3⟩ hdone
      obtain ⟨hfuel2, hlen⟩ := hboth
      obtain ⟨s2, iters, e, elen, d1, d2, p1, p2, ev1, ev2, r1, r2⟩ := ih r.1 hfuel2
      refine ⟨s2, r.2 :: iters, ?_, ?_, d1, d2, ?_, ?_, ?_, ?_, ?_, ?_⟩
      · rw [hstep, e]
        rfl
      · rw [List.length_cons, elen, hlen]
      · rw [p1, b1, b2, rest_position_next slop cal _ _ hs]
      · rw [p2, b3, b4, rest_position_next slop cal _ _ hs]
      · rw [List.flatten_cons, axisEvents_append, ev1, bev1, b1, b2]
        by_cases h0 : s.step_delta_azimuth = 0
        · simp [h0, next_position, next_delta]
        · rw [positions_ahead_next slop cal _ _ hs h0]
          simp [h0]
      · rw [List.flatten_cons, axisEvents_append, ev2, bev2, b3, b4]
        by_cases h0 : s.step_delta_altitude = 0
        · simp [h0, next_position, next_delta]
        · rw [positions_ahead_next slop cal _ _ hs h0]
          simp [h0]
      · intro hc
        rw [r1 hc, brc hc]
      · intro hc hrtc
        exact r2 hc (brn hc hrtc)

/-! ## Lemmas: `step_to` -/

theorem iterations_left_start (slop : Int) (cal : Bool) (t p : Int) (hs : 0 ≤ slop) :
    iterations_left slop cal (start_delta slop cal t p) = loop_iterations slop cal (t - p) := by
  unfold iterations_left start_delta loop_iterations
  cases cal <;> simp <;> split_ifs <;> omega

theorem rest_position_start (slop : Int) (cal : Bool) (t p : Int) (hs : 0 ≤ slop) :
    rest_position slop cal p (start_delta slop cal t p) = t := by
  unfold rest_position start_delta
  cases cal <;> simp <;> split_ifs <;> omega

theorem positions_ahead_start (slop : Int) (t p : Int) (hs : 0 ≤ slop) :
    positions_ahead slop false p (start_delta slop false t p) =
      if p ≤ t then path p t else path p (t - slop) ++ path (t - slop) t := by
  unfold positions_ahead start_delta
  by_cases h : p ≤ t
  · have h1 : ¬ t - p < 0 := by omega
    have h2 : 0 ≤ t - p := by omega
    have h3 : p + (t - p) = t := by ring
    simp [h, h1, h2, h3]
  · have h1 : t - p < 0 := by omega
    have h2 : ¬ 0 ≤ t - p - slop := by omega
    have h3 : p + (t - p - slop) = t - slop := by ring
    have h4 : t - slop + slop = t := by ring
    simp [h, h1, h2, h3, h4]

theorem positions_ahead_start_calibrating (slop : Int) (t p : Int) :
    positions_ahead slop true p (start_delta slop true t p) = path p t := by
  unfold positions_ahead start_delta
  have h3 : p + (t - p) = t := by ring
  simp [h3]

theorem step_to_spec (slop : Int) (cal : Bool) (hs : 0 ≤ slop) (fuel : Nat) (rtc : Rtc)
    (t_az t_al : Int)
    (hfuel : max (loop_iterations slop cal (t_az - rtcRead rtc 0))
      (loop_iterations slop cal (t_al - rtcRead rtc 1)) ≤ fuel) :
    ∃ out, step_to slop fuel rtc t_az t_al cal = some out ∧
      out.iterations.length = max (loop_iterations slop cal (t_az - rtcRead rtc 0))
        (loop_iterations slop cal (t_al - rtcRead rtc 1)) ∧
      out.before =
        (if start_delta slop cal t_az (rtcRead rtc 0) ≠ 0 then
          [Event.energize motor_pin_azimuth (and3 (rtcRead rtc 0))] else []) ++
        (if start_delta slop cal t_al (rtcRead rtc 1) ≠ 0 then
          [Event.energize motor_pin_altitude (and3 (rtcRead rtc 1))] else []) ∧
      axisEvents motor_pin_azimuth 0 out.iterations.flatten =
        (positions_ahead slop cal (rtcRead rtc 0) (start_delta slop cal t_az (rtcRead rtc 0))).flatMap
          (step_events cal motor_pin_azimuth 0) ∧
      axisEvents motor_pin_altitude 1 out.iterations.flatten =
        (positions_ahead slop cal (rtcRead rtc 1) (start_delta slop cal t_al (rtcRead rtc 1))).flatMap
          (step_events cal motor_pin_altitude 1) ∧
      out.rtc = (if cal = true then rtc else ⟨t_az, t_al⟩) := by
  rw [← iterations_left_start slop cal _ _ hs, ← iterations_left_start slop cal _ _ hs] at hfuel ⊢
  by_cases hzero : start_delta slop cal t_az (rtcRead rtc 0) = 0 ∧
      start_delta slop cal t_al (rtcRead rtc 1) = 0
  · obtain ⟨h1, h2⟩ := hzero
    refine ⟨{ rtc := rtc, before := [], iterations := [] }, ?_, ?_, ?_, ?_, ?_, ?_⟩
    · simp [step_to, h1, h2]
    · simp [h1, h2, iterations_left_zero]
    · simp [h1, h2]
    · simp [h1, positions_ahead_zero, axisEvents]
    · simp [h2, positions_ahead_zero, axisEvents]
    · have e1 := rest_position_start slop cal t_az (rtcRead rtc 0) hs
      have e2 := rest_position_start slop cal t_al (rtcRead rtc 1) hs
      rw [h1, rest_position_zero] at e1
      rw [h2, rest_position_zero] at e2
      cases cal
      · simp only [Bool.false_eq_true, if_false]
        rw [← e1, ← e2]
        simp [rtcRead]
      · simp
  · obtain ⟨s2, iters, e, elen, _, _, p1, p2, ev1, ev2, r1, r2⟩ :=
      step_loop_spec slop cal hs fuel
        { step_position_azimuth := rtcRead rtc 0
          step_delta_azimuth := start_delta slop cal t_az (rtcRead rtc 0)
          step_position_altitude := rtcRead rtc 1
          step_delta_altitude := start_delta slop cal t_al (rtcRead rtc 1)
          rtc := rtc } hfuel
    refine ⟨{ rtc := s2.rtc, before := _, iterations := iters }, ?_, elen, rfl, ev1, ev2, ?_⟩
    · simp only [step_to, hzero, if_false, e]
      rfl
    · cases cal
      · simp only [Bool.false_eq_true, if_false]
        rw [r2 rfl (by simp [rtcRead]), p1, p2]
        simp only [rest_position_start slop false _ _ hs]
      · simp only [if_true]
        exact r1 rfl

/-! ## Lemmas: writes, phase commands and paths -/

theorem mem_path (p t v : Int) : v ∈ path p t ↔ (p < v ∧ v ≤ t) ∨ (t ≤ v ∧ v < p) := by
  unfold path
  split
  · simp only [List.mem_map, List.mem_range]
    constructor
    · rintro ⟨k, hk, rfl⟩
      left
      omega
    · rintro (⟨h1, h2⟩ | ⟨h1, h2⟩)
      · exact ⟨(v - p - 1).toNat, by omega, by omega⟩
      · omega
  · simp only [List.mem_map, List.mem_range]
    constructor
    · rintro ⟨k, hk, rfl⟩
      right
      omega
    · rintro (⟨h1, h2⟩ | ⟨h1, h2⟩)
      · omega
      · exact ⟨(p - 1 - v).toNat, by omega, by omega⟩

theorem writes_append (adr : Int) (a b : List Event) :
    writes adr (a ++ b) = writes adr a ++ writes adr b := by
  induction a with
  | nil => rfl
  | cons e a ih =>
    cases e with
    | energize p m => simpa [writes] using ih
    | write x v =>
      by_cases h : x = adr <;> simp [writes, h, ih]

theorem writes_axisEvents (pin adr : Int) (evs : List Event) :
    writes adr (axisEvents pin adr evs) = writes adr evs := by
  induction evs with
  | nil => rfl
  | cons e evs ih =>
    unfold axisEvents at ih ⊢
    cases e with
    | energize p m =>
      by_cases h : p = pin ∧ 0 ≤ m ∧ m ≤ 3 <;> simp [List.filter_cons, Event.moves, h, writes, ih]
    | write x v =>
      by_cases h : x = adr <;> simp [List.filter_cons, Event.moves, h, writes, ih]

theorem writes_steps (pin adr : Int) (ps : List Int) :
    writes adr (ps.flatMap (step_events false pin adr)) = ps := by
  induction ps with
  | nil => rfl
  | cons q ps ih =>
    rw [List.flatMap_cons, writes_append, ih]
    simp [step_events, writes]

theorem writes_steps_calibrating (pin adr : Int) (ps : List Int) :
    writes adr (ps.flatMap (step_events true pin adr)) = [] := by
  induction ps with
  | nil => rfl
  | cons q ps ih =>
    rw [List.flatMap_cons, writes_append, ih]
    simp [step_events, writes]

theorem filter_isPhase_axisEvents (pin adr : Int) (evs : List Event) :
    (axisEvents pin adr evs).filter (Event.isPhase pin) = evs.filter (Event.isPhase pin) := by
  unfold axisEvents
  rw [List.filter_filter]
  apply List.filter_congr
  intro e _
  cases e <;> simp [Event.isPhase, Event.moves]

theorem filter_isPhase_steps (cal : Bool) (pin adr : Int) (ps : List Int) :
    ((ps.flatMap (step_events cal pin adr)).filter (Event.isPhase pin)).length = ps.length := by
  induction ps with
  | nil => rfl
  | cons q ps ih =>
    have h := and3_range q
    rw [List.flatMap_cons, List.filter_append, List.length_append, ih]
    cases cal <;> simp [step_events, Event.isPhase, List.filter_cons, h.1, h.2] <;> omega

theorem writes_before (adr : Int) (a b : Prop) [Decidable a] [Decidable b] (x y : Event)
    (hx : ∀ c v, x ≠ Event.write c v) (hy : ∀ c v, y ≠ Event.write c v) :
    writes adr ((if a then [x] else []) ++ (if b then [y] else [])) = [] := by
  cases x with
  | write c v => exact absurd rfl (hx c v)
  | energize p m =>
    cases y with
    | write c v => exact absurd rfl (hy c v)
    | energize p2 m2 => split_ifs <;> simp [writes]

/-! ## Lemmas: rotor and registers along an event list -/

theorem persisted_append (adr v : Int) (a b : List Event) :
    persisted adr v (a ++ b) = persisted adr (persisted adr v a) b := by
  induction a generalizing v with
  | nil => rfl
  | cons e a ih =>
    cases e with
    | energize p m => simpa [persisted] using ih v
    | write x w =>
      by_cases h : x = adr <;> simp [persisted, h, ih]

theorem rotor_append (pin q : Int) (a b : List Event) :
    rotor pin q (a ++ b) = rotor pin (rotor pin q a) b := by
  induction a generalizing q with
  | nil => rfl
  | cons e a ih =>
    cases e with
    | energize p m =>
      by_cases h : p = pin <;> simp [rotor, h, ih]
    | write x w => simpa [rotor] using ih q

theorem rotor_follow_same (q : Int) : rotor_follow q (and3 q) = q := by
  unfold rotor_follow
  simp only [and3_eq_emod]
  split_ifs <;> omega

theorem rotor_follow_up (q : Int) : rotor_follow q (and3 (q + 1)) = q + 1 := by
  simp [rotor_follow]

theorem rotor_follow_down (q : Int) : rotor_follow q (and3 (q - 1)) = q - 1 := by
  unfold rotor_follow
  simp only [and3_eq_emod]
  split_ifs <;> omega

theorem rotor_follow_off (q : Int) : rotor_follow q 99 = q := by
  unfold rotor_follow
  simp only [and3_eq_emod]
  split_ifs <;> omega

theorem rotor_follow_next (q d : Int) :
    rotor_follow q (and3 (next_position q d)) = next_position q d := by
  unfold next_position
  split_ifs
  · exact rotor_follow_up q
  · exact rotor_follow_down q
  · exact rotor_follow_same q

/-! ## Lemmas: composing event lists that keep the write ordering -/

theorem Good.nil (r : Rtc) : Good r [] r := by
  refine ⟨?_, ?_, ?_⟩
  · intro pre post adr v h
    simp at h
  · intro pre post adr h _
    have hp : pre = [] := by
      cases pre with
      | nil => rfl
      | cons x xs => simp at h
    subst hp
    simp [persisted, rotor]
  · intro adr _
    simp [persisted, rotor]

theorem Good.append {r r1 r2 : Rtc} {a b : List Event} (ha : Good r a r1) (hb : Good r1 b r2) :
    Good r (a ++ b) r2 := by
  obtain ⟨wa, oa, ea⟩ := ha
  obtain ⟨wb, ob, eb⟩ := hb
  refine ⟨?_, ?_, ?_⟩
  · intro pre post adr v h
    rcases List.append_eq_append_iff.mp h with ⟨a2, h1, h2⟩ | ⟨c, h1, h2⟩
    · obtain ⟨hadr, ⟨pre2, hpre2⟩, hstep, heq⟩ := wb a2 post adr v h2
      obtain ⟨e1, e2⟩ := ea adr hadr
      refine ⟨hadr, ⟨a ++ pre2, by rw [h1, hpre2, List.append_assoc]⟩, ?_, ?_⟩
      · rw [h1, persisted_append, e1]
        exact hstep
      · rw [h1, List.append_assoc, persisted_append, rotor_append, e1, e2]
        exact heq
    · cases c with
      | nil =>
        simp only [List.append_nil, List.nil_append] at h1 h2
        obtain ⟨hadr, ⟨pre2, hpre2⟩, hstep, heq⟩ := wb [] post adr v h2.symm
        simp at hpre2
      | cons x c =>
        simp only [List.cons_append, List.cons.injEq] at h2
        obtain ⟨hx, _⟩ := h2
        subst hx
        exact wa pre c adr v h1
  · intro pre post adr h hadr
    rcases List.append_eq_append_iff.mp h with ⟨a2, h1, h2⟩ | ⟨c, h1, _⟩
    · obtain ⟨e1, e2⟩ := ea adr hadr
      rw [h1, persisted_append, rotor_append, e1, e2]
      exact ob a2 post adr h2 hadr
    · exact oa pre c adr h1 hadr
  · intro adr hadr
    obtain ⟨e1, e2⟩ := ea adr hadr
    obtain ⟨f1, f2⟩ := eb adr hadr
    rw [persisted_append, rotor_append, e1, e2]
    exact ⟨f1, f2⟩

theorem Good.command (r : Rtc) (pin m : Int)
    (h : ∀ adr, (adr = 0 ∨ adr = 1) → axis_pin adr = pin →
      rotor_follow (rtcRead r adr) m = rtcRead r adr) :
    Good r [Event.energize pin m] r := by
  have hrot : ∀ adr, (adr = 0 ∨ adr = 1) →
      rotor (axis_pin adr) (rtcRead r adr) [Event.energize pin m] = rtcRead r adr := by
    intro adr hadr
    by_cases hp : pin = axis_pin adr
    · simp [rotor, hp, h adr hadr hp.symm]
    · simp [rotor, hp]
  refine ⟨?_, ?_, ?_⟩
  · intro pre post adr v h
    rcases pre with _ | ⟨x, pre⟩
    · simp at h
    · simp at h
  · intro pre post adr h hadr
    rcases pre with _ | ⟨x, pre⟩
    · simp [persisted, rotor]
    · simp only [List.cons_append, List.cons.injEq] at h
      obtain ⟨hx, h2⟩ := h
      have hp : pre = [] := by
        cases pre with
        | nil => rfl
        | cons y ys => simp at h2
      subst hp hx
      rw [hrot adr hadr]
      simp [persisted]
  · intro adr hadr
    exact ⟨by simp [persisted], hrot adr hadr⟩

theorem Good.step (r : Rtc) (adr d : Int) (hadr : adr = 0 ∨ adr = 1) (hd : d ≠ 0) :
    Good r [Event.energize (axis_pin adr) (and3 (next_position (rtcRead r adr) d)),
      Event.write adr (next_position (rtcRead r adr) d)]
      (rtcWrite r adr (next_position (rtcRead r adr) d)) := by
  have hq : (next_position (rtcRead r adr) d - rtcRead r adr).natAbs = 1 := by
    unfold next_position
    split_ifs <;> omega
  have hq2 : (rtcRead r adr - next_position (rtcRead r adr) d).natAbs = 1 := by omega
  have hother : ∀ a, (a = 0 ∨ a = 1) → a ≠ adr →
      axis_pin adr ≠ axis_pin a ∧
      rtcRead (rtcWrite r adr (next_position (rtcRead r adr) d)) a = rtcRead r a := by
    intro a ha hne
    rcases ha with rfl | rfl <;> rcases hadr with rfl | rfl <;>
      first
        | exact absurd rfl hne
        | simp [axis_pin, rtcRead, rtcWrite, motor_pin_azimuth, motor_pin_altitude]
  have hself : rtcRead (rtcWrite r adr (next_position (rtcRead r adr) d)) adr =
      next_position (rtcRead r adr) d := by
    rcases hadr with rfl | rfl <;> simp [rtcRead, rtcWrite]
  refine ⟨?_, ?_, ?_⟩
  · intro pre post a v h
    rcases pre with _ | ⟨x, _ | ⟨y, pre⟩⟩
    · simp at h
    · simp only [List.cons_append, List.nil_append, List.cons.injEq, Event.write.injEq] at h
      obtain ⟨hx, ⟨ha, hv⟩, _⟩ := h
      subst hx ha hv
      refine ⟨hadr, ⟨[], rfl⟩, ?_, ?_⟩
      · simpa [persisted] using hq
      · simp [persisted, rotor, rotor_follow_next]
    · simp at h
  · intro pre post a h ha
    by_cases hne : a = adr
    · subst hne
      rcases pre with _ | ⟨x, _ | ⟨y, pre⟩⟩
      · simp [persisted, rotor]
      · simp only [List.cons_append, List.nil_append, List.cons.injEq] at h
        obtain ⟨hx, _⟩ := h
        subst hx
        simp only [persisted, rotor, if_true, rotor_follow_next]
        omega
      · simp only [List.cons_append, List.cons.injEq] at h
        obtain ⟨hx, hy, h2⟩ := h
        have hp : pre = [] := by
          cases pre with
          | nil => rfl
          | cons z zs => simp at h2
        subst hp hx hy
        simp [persisted, rotor, rotor_follow_next]
    · obtain ⟨hpin, _⟩ := hother a ha hne
      have hadr2 : adr ≠ a := fun e => hne e.symm
      rcases pre with _ | ⟨x, _ | ⟨y, pre⟩⟩
      · simp [persisted, rotor]
      · simp only [List.cons_append, List.nil_append, List.cons.injEq] at h
        obtain ⟨hx, _⟩ := h
        subst hx
        simp [persisted, rotor, hpin]
      · simp only [List.cons_append, List.cons.injEq] at h
        obtain ⟨hx, hy, h2⟩ := h
        have hp : pre = [] := by
          cases pre with
          | nil => rfl
          | cons z zs => simp at h2
        subst hp hx hy
        simp [persisted, rotor, hpin, hadr2]
  · intro a ha
    by_cases hne : a = adr
    · subst hne
      simp [persisted, rotor, rotor_follow_next, hself]
    · obtain ⟨hpin, hrd⟩ := hother a ha hne
      have hadr2 : adr ≠ a := fun e => hne e.symm
      simp [persisted, rotor, hpin, hadr2, hrd]

/-! ## Lemmas: the write ordering along `step_to` -/

theorem Good.off (r : Rtc) (pin : Int) (c : Prop) [Decidable c] :
    Good r (if c then [Event.energize pin 99] else []) r := by
  split_ifs
  · exact Good.command r pin 99 (fun adr _ _ => rotor_follow_off _)
  · exact Good.nil r

theorem Good.hold (r : Rtc) (adr : Int) (hadr : adr = 0 ∨ adr = 1) (c : Prop) [Decidable c] :
    Good r (if c then [Event.energize (axis_pin adr) (and3 (rtcRead r adr))] else []) r := by
  split_ifs
  · refine Good.command r _ _ ?_
    intro a ha hp
    have e : a = adr := by
      rcases ha with rfl | rfl <;> rcases hadr with rfl | rfl <;>
        first
          | rfl
          | (simp [axis_pin, motor_pin_azimuth, motor_pin_altitude] at hp)
    subst e
    exact rotor_follow_same _
  · exact Good.nil r

theorem Good.axis (r : Rtc) (adr d : Int) (hadr : adr = 0 ∨ adr = 1) :
    Good r (if d = 0 then [] else step_events false (axis_pin adr) adr
        (next_position (rtcRead r adr) d))
      (if d = 0 ∨ false = true then r else rtcWrite r adr (next_position (rtcRead r adr) d)) := by
  by_cases h : d = 0
  · simp only [h, if_true, true_or]
    exact Good.nil r
  · simp only [h, if_false, false_or, Bool.false_eq_true]
    exact Good.step r adr d hadr h

theorem step_body_good (slop : Int) (s : Locals)
    (h : s.rtc = ⟨s.step_position_azimuth, s.step_position_altitude⟩) :
    Good s.rtc (step_body slop false s).2 (step_body slop false s).1.rtc := by
  have g1 := Good.axis s.rtc 0 s.step_delta_azimuth (Or.inl rfl)
  have e0 : rtcRead s.rtc 0 = s.step_position_azimuth := by rw [h]; rfl
  rw [e0] at g1
  have g2 := Good.axis (if s.step_delta_azimuth = 0 ∨ false = true then s.rtc
      else rtcWrite s.rtc 0 (next_position s.step_position_azimuth s.step_delta_azimuth))
    1 s.step_delta_altitude (Or.inr rfl)
  have e1 : rtcRead (if s.step_delta_azimuth = 0 ∨ false = true then s.rtc
      else rtcWrite s.rtc 0 (next_position s.step_position_azimuth s.step_delta_azimuth)) 1 =
      s.step_position_altitude := by
    rw [h]
    split_ifs <;> simp [rtcRead, rtcWrite]
  rw [e1] at g2
  have g := (g1.append g2).append ((Good.off _ motor_pin_azimuth
      (next_delta slop false s.step_delta_azimuth = 0)).append
    (Good.off _ motor_pin_altitude (next_delta slop false s.step_delta_altitude = 0)))
  simpa only [step_body, step_axis_eq, axis_pin, if_true, if_false, one_ne_zero] using g

theorem step_loop_good (slop : Int) :
    ∀ (fuel : Nat) (s s2 : Locals) (iters : List (List Event)),
      s.rtc = ⟨s.step_position_azimuth, s.step_position_altitude⟩ →
      step_loop slop false fuel s = some (s2, iters) →
      Good s.rtc iters.flatten s2.rtc := by
  intro fuel
  induction fuel with
  | zero =>
    intro s s2 iters hrtc h
    rw [step_loop] at h
    split_ifs at h
    simp only [Option.some.injEq, Prod.mk.injEq] at h
    obtain ⟨h1, h2⟩ := h
    subst h1 h2
    exact Good.nil _
  | succ n ih =>
    intro s s2 iters hrtc h
    by_cases hmore : s.step_delta_azimuth ≠ 0 ∨ s.step_delta_altitude ≠ 0
    · rw [step_loop_more slop false n s hmore] at h
      cases hrec : step_loop slop false n (step_body slop false s).1 with
      | none => simp [hrec] at h
      | some out =>
        obtain ⟨s3, iters3⟩ := out
        simp only [hrec, Option.map_some', Option.some.injEq, Prod.mk.injEq] at h
        obtain ⟨h1, h2⟩ := h
        subst h1 h2
        obtain ⟨b1, _, b3, _⟩ := step_body_locals slop false s
        have hrtc2 : (step_body slop false s).1.rtc =
            ⟨(step_body slop false s).1.step_position_azimuth,
             (step_body slop false s).1.step_position_altitude⟩ := by
          rw [step_body_rtc slop s hrtc, b1, b3]
        have g := ih _ _ _ hrtc2 hrec
        rw [List.flatten_cons]
        exact (step_body_good slop s hrtc).append g
    · have h1 : s.step_delta_azimuth = 0 := by
        by_contra hc
        exact hmore (Or.inl hc)
      have h2 : s.step_delta_altitude = 0 := by
        by_contra hc
        exact hmore (Or.inr hc)
      rw [step_loop_done slop false (n + 1) s h1 h2] at h
      simp only [Option.some.injEq, Prod.mk.injEq] at h
      obtain ⟨e1, e2⟩ := h
      subst e1 e2
      exact Good.nil _

theorem step_to_good (slop : Int) (fuel : Nat) (rtc : Rtc) (t_az t_al : Int) (out : Outcome)
    (h : step_to slop fuel rtc t_az t_al false = some out) :
    Good rtc out.trace out.rtc := by
  by_cases hz : start_delta slop false t_az (rtcRead rtc 0) = 0 ∧
      start_delta slop false t_al (rtcRead rtc 1) = 0
  · simp only [step_to, hz, and_self, if_true, Option.some.injEq] at h
    subst h
    exact Good.nil rtc
  · simp only [step_to, hz, if_false] at h
    cases hrec : step_loop slop false fuel
        { step_position_azimuth := rtcRead rtc 0
          step_delta_azimuth := start_delta slop false t_az (rtcRead rtc 0)
          step_position_altitude := rtcRead rtc 1
          step_delta_altitude := start_delta slop false t_al (rtcRead rtc 1)
          rtc := rtc } with
    | none => simp [hrec] at h
    | some res =>
      obtain ⟨s2, iters⟩ := res
      simp only [hrec, Option.map_some', Option.some.injEq] at h
      subst h
      have g := step_loop_good slop fuel _ s2 iters (by simp [rtcRead]) hrec
      have b1 := Good.hold rtc 0 (Or.inl rfl) (start_delta slop false t_az (rtcRead rtc 0) ≠ 0)
      have b2 := Good.hold rtc 1 (Or.inr rfl) (start_delta slop false t_al (rtcRead rtc 1) ≠ 0)
      have g2 := (b1.append b2).append g
      simpa only [Outcome.trace, axis_pin, if_true, if_false, one_ne_zero] using g2

/-! ## Lemmas: calibration mode issues no write -/

theorem step_body_calibrating_events (slop : Int) (s : Locals) :
    ∀ e ∈ (step_body slop true s).2, ∀ adr v, e ≠ Event.write adr v := by
  intro e he adr v
  simp only [step_body, step_axis_eq, step_events, List.mem_append] at he
  rcases he with (he | he) | he | he <;> split_ifs at he <;> simp at he <;> simp [he]

theorem step_loop_calibrating_events (slop : Int) :
    ∀ (fuel : Nat) (s s2 : Locals) (iters : List (List Event)),
      step_loop slop true fuel s = some (s2, iters) →
      ∀ e ∈ iters.flatten, ∀ adr v, e ≠ Event.write adr v := by
  intro fuel
  induction fuel with
  | zero =>
    intro s s2 iters h
    rw [step_loop] at h
    split_ifs at h
    simp only [Option.some.injEq, Prod.mk.injEq] at h
    obtain ⟨_, h2⟩ := h
    subst h2
    simp
  | succ n ih =>
    intro s s2 iters h
    by_cases hmore : s.step_delta_azimuth ≠ 0 ∨ s.step_delta_altitude ≠ 0
    · rw [step_loop_more slop true n s hmore] at h
      cases hrec : step_loop slop true n (step_body slop true s).1 with
      | none => simp [hrec] at h
      | some res =>
        obtain ⟨s3, iters3⟩ := res
        simp only [hrec, Option.map_some', Option.some.injEq, Prod.mk.injEq] at h
        obtain ⟨_, h2⟩ := h
        subst h2
        intro e he
        rw [List.flatten_cons, List.mem_append] at he
        rcases he with he | he
        · exact step_body_calibrating_events slop s e he
        · exact ih _ _ _ hrec e he
    · have h1 : s.step_delta_azimuth = 0 := by
        by_contra hc
        exact hmore (Or.inl hc)
      have h2 : s.step_delta_altitude = 0 := by
        by_contra hc
        exact hmore (Or.inr hc)
      rw [step_loop_done slop true (n + 1) s h1 h2] at h
      simp only [Option.some.injEq, Prod.mk.injEq] at h
      obtain ⟨_, e2⟩ := h
      subst e2
      simp

theorem calibrating_trace_no_write (slop : Int) (fuel : Nat) (rtc : Rtc) (t_az t_al : Int)
    (out : Outcome) (h : step_to slop fuel rtc t_az t_al true = some out) :
    ∀ e ∈ out.trace, ∀ adr v, e ≠ Event.write adr v := by
  by_cases hz : start_delta slop true t_az (rtcRead rtc 0) = 0 ∧
      start_delta slop true t_al (rtcRead rtc 1) = 0
  · simp only [step_to, hz, and_self, if_true, Option.some.injEq] at h
    subst h
    simp [Outcome.trace]
  · simp only [step_to, hz, if_false] at h
    cases hrec : step_loop slop true fuel
        { step_position_azimuth := rtcRead rtc 0
          step_delta_azimuth := start_delta slop true t_az (rtcRead rtc 0)
          step_position_altitude := rtcRead rtc 1
          step_delta_altitude := start_delta slop true t_al (rtcRead rtc 1)
          rtc := rtc } with
    | none => simp [hrec] at h
    | some res =>
      obtain ⟨s2, iters⟩ := res
      simp only [hrec, Option.map_some', Option.some.injEq] at h
      subst h
      intro e he
      simp only [Outcome.trace, List.mem_append] at he
      rcases he with (he | he) | he
      · split_ifs at he <;> simp at he <;> simp [he]
      · split_ifs at he <;> simp at he <;> simp [he]
      · exact step_loop_calibrating_events slop fuel _ _ _ hrec e he

/-! ## Stepper-motion controller: the claims -/

/-- C1: with `slop_steps` at its value 0 and `calibrating = false`, for every persisted
start position and every target, `step_to` returns once the loop has fuel for
`max |t_az - p_az| |t_al - p_al|` iterations; the loop issues exactly `|t - p|` phase
commands on each axis; the motion events of each axis are, for each position `q` on the
way from `p` to `t`, the coil command with the phase of `q` followed by the write of `q`
to the register of that axis; there are `|t - p|` writes per register; and on return the
registers hold the targets. -/
theorem step_to_exact_steps (rtc : Rtc) (t_az t_al : Int) (fuel : Nat)
    (hfuel : max (t_az - rtcRead rtc 0).natAbs (t_al - rtcRead rtc 1).natAbs ≤ fuel) :
    ∃ out, step_to slop_steps fuel rtc t_az t_al false = some out ∧
      (out.iterations.flatten.filter (Event.isPhase motor_pin_azimuth)).length =
        (t_az - rtcRead rtc 0).natAbs ∧
      (out.iterations.flatten.filter (Event.isPhase motor_pin_altitude)).length =
        (t_al - rtcRead rtc 1).natAbs ∧
      axisEvents motor_pin_azimuth 0 out.iterations.flatten =
        (path (rtcRead rtc 0) t_az).flatMap
          (fun q => [Event.energize motor_pin_azimuth (and3 q), Event.write 0 q]) ∧
      axisEvents motor_pin_altitude 1 out.iterations.flatten =
        (path (rtcRead rtc 1) t_al).flatMap
          (fun q => [Event.energize motor_pin_altitude (and3 q), Event.write 1 q]) ∧
      writes 0 out.trace = path (rtcRead rtc 0) t_az ∧
      writes 1 out.trace = path (rtcRead rtc 1) t_al ∧
      (writes 0 out.trace).length = (t_az - rtcRead rtc 0).natAbs ∧
      (writes 1 out.trace).length = (t_al - rtcRead rtc 1).natAbs ∧
      rtcRead out.rtc 0 = t_az ∧ rtcRead out.rtc 1 = t_al := by
  have hs : (0 : Int) ≤ slop_steps := by decide
  have hpos : ∀ t p : Int,
      positions_ahead slop_steps false p (start_delta slop_steps false t p) = path p t := by
    intro t p
    rw [positions_ahead_start slop_steps t p hs]
    split_ifs
    · rfl
    · simp [slop_steps, path_self]
  have hit : ∀ d : Int, loop_iterations slop_steps false d = d.natAbs := by
    intro d
    unfold loop_iterations
    split_ifs <;> simp [slop_steps]
  obtain ⟨out, h, _, hb, ev1, ev2, hr⟩ :=
    step_to_spec slop_steps false hs fuel rtc t_az t_al (by rw [hit, hit]; exact hfuel)
  rw [hpos] at ev1 ev2
  have w0 : writes 0 out.trace = path (rtcRead rtc 0) t_az := by
    rw [Outcome.trace, writes_append, hb,
      writes_before 0 _ _ _ _ (by simp) (by simp), List.nil_append,
      ← writes_axisEvents motor_pin_azimuth 0, ev1, writes_steps]
  have w1 : writes 1 out.trace = path (rtcRead rtc 1) t_al := by
    rw [Outcome.trace, writes_append, hb,
      writes_before 1 _ _ _ _ (by simp) (by simp), List.nil_append,
      ← writes_axisEvents motor_pin_altitude 1, ev2, writes_steps]
  have hr2 : out.rtc = ⟨t_az, t_al⟩ := by simpa using hr
  refine ⟨out, h, ?_, ?_, ev1, ev2, w0, w1, ?_, ?_, ?_, ?_⟩
  · rw [← filter_isPhase_axisEvents motor_pin_azimuth 0, ev1, filter_isPhase_steps, path_length]
  · rw [← filter_isPhase_axisEvents motor_pin_altitude 1, ev2, filter_isPhase_steps, path_length]
  · rw [w0, path_length]
  · rw [w1, path_length]
  · rw [hr2]; rfl
  · rw [hr2]; rfl

/-- C1, witness of the spec: start 0, target -5 gives 5 steps, 5 writes and the final
persisted value -5. -/
theorem step_to_exact_steps_witness :
    max ((-5 : Int) - rtcRead ⟨0, 0⟩ 0).natAbs ((0 : Int) - rtcRead ⟨0, 0⟩ 1).natAbs ≤ 5 ∧
    ∃ out, step_to slop_steps 5 ⟨0, 0⟩ (-5) 0 false = some out ∧
      (out.iterations.flatten.filter (Event.isPhase motor_pin_azimuth)).length = 5 ∧
      writes 0 out.trace = [-1, -2, -3, -4, -5] ∧
      rtcRead out.rtc 0 = -5 := by
  refine ⟨by decide, ?_⟩
  obtain ⟨out, h, h1, -, -, -, h5, -, -, -, h9, -⟩ :=
    step_to_exact_steps ⟨0, 0⟩ (-5) 0 5 (by decide)
  exact ⟨out, h, h1, h5, h9⟩

/-- C2: when both targets equal the persisted positions, `step_to` returns at once for
every slop, either value of `calibrating` and any fuel: no event is issued (no coil
command, no write) and the register store is unchanged. -/
theorem step_to_same_position (slop : Int) (fuel : Nat) (rtc : Rtc) (calibrating : Bool) :
    ∃ out, step_to slop fuel rtc (rtcRead rtc 0) (rtcRead rtc 1) calibrating = some out ∧
      out.trace = [] ∧ out.rtc = rtc := by
  refine ⟨{ rtc := rtc, before := [], iterations := [] }, ?_, rfl, rfl⟩
  simp [step_to, start_delta]

/-- C3: for `calibrating = false` and any slop `≥ 0`, in the event trace of a move every
write of a position `v` goes to register 0 or 1, comes directly after the coil command
of the same axis with phase `v & 3`, differs by exactly 1 from the value the register held
before (the value read at the start for the first write), and leaves the register equal
to the rotor position; and after every initial segment of the trace each register is
within one step of the rotor position of its axis. -/
theorem step_to_write_ordering (slop : Int) (hs : 0 ≤ slop) (fuel : Nat) (rtc : Rtc)
    (t_az t_al : Int)
    (hfuel : max (loop_iterations slop false (t_az - rtcRead rtc 0))
      (loop_iterations slop false (t_al - rtcRead rtc 1)) ≤ fuel) :
    ∃ out, step_to slop fuel rtc t_az t_al false = some out ∧
      (∀ pre post adr v, out.trace = pre ++ Event.write adr v :: post →
        (adr = 0 ∨ adr = 1) ∧
        (∃ pre2, pre = pre2 ++ [Event.energize (axis_pin adr) (and3 v)]) ∧
        (v - persisted adr (rtcRead rtc adr) pre).natAbs = 1 ∧
        persisted adr (rtcRead rtc adr) (pre ++ [Event.write adr v]) =
          rotor (axis_pin adr) (rtcRead rtc adr) (pre ++ [Event.write adr v])) ∧
      (∀ pre post adr, out.trace = pre ++ post → (adr = 0 ∨ adr = 1) →
        (persisted adr (rtcRead rtc adr) pre -
          rotor (axis_pin adr) (rtcRead rtc adr) pre).natAbs ≤ 1) := by
  obtain ⟨out, h, _⟩ := step_to_spec slop false hs fuel rtc t_az t_al hfuel
  obtain ⟨g1, g2, _⟩ := step_to_good slop fuel rtc t_az t_al out h
  exact ⟨out, h, g1, g2⟩

/-- C3, at start (10, 0), target (5, 2) and slop 3: the move returns and its trace keeps
the write ordering and the one-step bound. -/
theorem step_to_write_ordering_witness :
    ((0 : Int) ≤ 3 ∧
      max (loop_iterations 3 false (5 - rtcRead ⟨10, 0⟩ 0))
        (loop_iterations 3 false (2 - rtcRead ⟨10, 0⟩ 1)) ≤ 11) ∧
    ∃ out, step_to 3 11 ⟨10, 0⟩ 5 2 false = some out ∧
      (∀ pre post adr v, out.trace = pre ++ Event.write adr v :: post →
        (adr = 0 ∨ adr = 1) ∧
        (∃ pre2, pre = pre2 ++ [Event.energize (axis_pin adr) (and3 v)]) ∧
        (v - persisted adr (rtcRead ⟨10, 0⟩ adr) pre).natAbs = 1 ∧
        persisted adr (rtcRead ⟨10, 0⟩ adr) (pre ++ [Event.write adr v]) =
          rotor (axis_pin adr) (rtcRead ⟨10, 0⟩ adr) (pre ++ [Event.write adr v])) ∧
      (∀ pre post adr, out.trace = pre ++ post → (adr = 0 ∨ adr = 1) →
        (persisted adr (rtcRead ⟨10, 0⟩ adr) pre -
          rotor (axis_pin adr) (rtcRead ⟨10, 0⟩ adr) pre).natAbs ≤ 1) :=
  ⟨⟨by decide, by decide⟩, step_to_write_ordering 3 (by decide) 11 ⟨10, 0⟩ 5 2 (by decide)⟩

/-- C4: backlash accounting with the slop as a parameter `slop ≥ 0` and `calibrating = false`.
For an axis (register `adr`, target `t`) whose target is below its persisted position
`p`, the effective delta is `(t - p) - slop`; the values written to its register are the
positions from `p - 1` down to `t - slop` followed by the positions from `t - slop + 1`
up to `t`; so `t - slop` is written and is the lowest value written; and on return the
register holds `t`. -/
theorem step_to_backlash (slop : Int) (hs : 0 ≤ slop) (fuel : Nat) (rtc : Rtc)
    (t_az t_al : Int)
    (hfuel : max (loop_iterations slop false (t_az - rtcRead rtc 0))
      (loop_iterations slop false (t_al - rtcRead rtc 1)) ≤ fuel) :
    ∃ out, step_to slop fuel rtc t_az t_al false = some out ∧
      ∀ adr t, (adr = 0 ∧ t = t_az ∨ adr = 1 ∧ t = t_al) → t < rtcRead rtc adr →
        start_delta slop false t (rtcRead rtc adr) = (t - rtcRead rtc adr) - slop ∧
        writes adr out.trace = path (rtcRead rtc adr) (t - slop) ++ path (t - slop) t ∧
        (t - slop) ∈ writes adr out.trace ∧
        (∀ v ∈ writes adr out.trace, t - slop ≤ v) ∧
        rtcRead out.rtc adr = t := by
  obtain ⟨out, h, _, hb, ev1, ev2, hr⟩ := step_to_spec slop false hs fuel rtc t_az t_al hfuel
  have hr2 : out.rtc = ⟨t_az, t_al⟩ := by simpa using hr
  have w0 : writes 0 out.trace =
      positions_ahead slop false (rtcRead rtc 0) (start_delta slop false t_az (rtcRead rtc 0)) := by
    rw [Outcome.trace, writes_append, hb,
      writes_before 0 _ _ _ _ (by simp) (by simp), List.nil_append,
      ← writes_axisEvents motor_pin_azimuth 0, ev1, writes_steps]
  have w1 : writes 1 out.trace =
      positions_ahead slop false (rtcRead rtc 1) (start_delta slop false t_al (rtcRead rtc 1)) := by
    rw [Outcome.trace, writes_append, hb,
      writes_before 1 _ _ _ _ (by simp) (by simp), List.nil_append,
      ← writes_axisEvents motor_pin_altitude 1, ev2, writes_steps]
  refine ⟨out, h, ?_⟩
  intro adr t hadr hlt
  have hw : writes adr out.trace =
      path (rtcRead rtc adr) (t - slop) ++ path (t - slop) t := by
    rcases hadr with ⟨rfl, rfl⟩ | ⟨rfl, rfl⟩
    · rw [w0, positions_ahead_start slop _ _ hs, if_neg (by omega)]
    · rw [w1, positions_ahead_start slop _ _ hs, if_neg (by omega)]
  refine ⟨?_, hw, ?_, ?_, ?_⟩
  · unfold start_delta
    have : t - rtcRead rtc adr < 0 := by omega
    simp [this]
  · rw [hw, List.mem_append, mem_path]
    left; right
    omega
  · intro v hv
    rw [hw, List.mem_append, mem_path, mem_path] at hv
    omega
  · rcases hadr with ⟨rfl, rfl⟩ | ⟨rfl, rfl⟩ <;> rw [hr2] <;> rfl

/-- C4, witness of the spec: start 10, target 5, slop 3 gives the effective delta -8, the
register at 2 after the eight negative steps, and the final persisted value 5. -/
theorem step_to_backlash_witness :
    ((0 : Int) ≤ 3 ∧
      max (loop_iterations 3 false (5 - rtcRead ⟨10, 0⟩ 0))
        (loop_iterations 3 false (0 - rtcRead ⟨10, 0⟩ 1)) ≤ 11) ∧
    ∃ out, step_to 3 11 ⟨10, 0⟩ 5 0 false = some out ∧
      start_delta 3 false 5 10 = -8 ∧
      writes 0 out.trace = [9, 8, 7, 6, 5, 4, 3, 2] ++ [3, 4, 5] ∧
      rtcRead out.rtc 0 = 5 := by
  refine ⟨⟨by decide, by decide⟩, ?_⟩
  obtain ⟨out, h, hall⟩ := step_to_backlash 3 (by decide) 11 ⟨10, 0⟩ 5 0 (by decide)
  obtain ⟨h1, h2, -, -, h5⟩ := hall 0 5 (Or.inl ⟨rfl, rfl⟩) (by decide)
  exact ⟨out, h, h1, h2, h5⟩

/-- C5: calibration mode. For every start, target and slop `≥ 0`, with `calibrating = true`
the move returns with the register store unchanged and no write event in its trace, the
deltas are taken without slop, and the motion events of each axis are exactly the coil
commands for the positions `p ± 1, .., t` on the way from the persisted position to the
target, `|t - p|` of them, in the direction of the sign of `t - p`. -/
theorem step_to_calibrating (slop : Int) (hs : 0 ≤ slop) (fuel : Nat) (rtc : Rtc)
    (t_az t_al : Int)
    (hfuel : max (t_az - rtcRead rtc 0).natAbs (t_al - rtcRead rtc 1).natAbs ≤ fuel) :
    ∃ out, step_to slop fuel rtc t_az t_al true = some out ∧
      out.rtc = rtc ∧
      (∀ e ∈ out.trace, ∀ adr v, e ≠ Event.write adr v) ∧
      start_delta slop true t_az (rtcRead rtc 0) = t_az - rtcRead rtc 0 ∧
      start_delta slop true t_al (rtcRead rtc 1) = t_al - rtcRead rtc 1 ∧
      out.iterations.length = max (t_az - rtcRead rtc 0).natAbs (t_al - rtcRead rtc 1).natAbs ∧
      axisEvents motor_pin_azimuth 0 out.iterations.flatten =
        (path (rtcRead rtc 0) t_az).map (fun q => Event.energize motor_pin_azimuth (and3 q)) ∧
      axisEvents motor_pin_altitude 1 out.iterations.flatten =
        (path (rtcRead rtc 1) t_al).map (fun q => Event.energize motor_pin_altitude (and3 q)) ∧
      (path (rtcRead rtc 0) t_az).length = (t_az - rtcRead rtc 0).natAbs ∧
      (path (rtcRead rtc 1) t_al).length = (t_al - rtcRead rtc 1).natAbs := by
  have hit : ∀ d : Int, loop_iterations slop true d = d.natAbs := by
    intro d
    simp [loop_iterations]
  obtain ⟨out, h, hlen, _, ev1, ev2, hr⟩ :=
    step_to_spec slop true hs fuel rtc t_az t_al (by rw [hit, hit]; exact hfuel)
  rw [positions_ahead_start_calibrating] at ev1 ev2
  rw [hit, hit] at hlen
  have hmap : ∀ (pin adr : Int) (ps : List Int),
      ps.flatMap (step_events true pin adr) = ps.map (fun q => Event.energize pin (and3 q)) := by
    intro pin adr ps
    induction ps with
    | nil => rfl
    | cons q ps ih =>
      rw [List.flatMap_cons, ih]
      rfl
  rw [hmap] at ev1 ev2
  refine ⟨out, h, by simpa using hr, calibrating_trace_no_write slop fuel rtc t_az t_al out h,
    by simp [start_delta], by simp [start_delta], hlen, ev1, ev2, path_length _ _, path_length _ _⟩

/-- C5, at start (10, 0), target (5, 2) and slop 3: the calibrating move returns with the
registers unchanged, and takes five coil commands on the azimuth axis and two on the
altitude axis. -/
theorem step_to_calibrating_witness :
    ((0 : Int) ≤ 3 ∧
      max ((5 : Int) - rtcRead ⟨10, 0⟩ 0).natAbs ((2 : Int) - rtcRead ⟨10, 0⟩ 1).natAbs ≤ 5) ∧
    ∃ out, step_to 3 5 ⟨10, 0⟩ 5 2 true = some out ∧
      out.rtc = ⟨10, 0⟩ ∧
      axisEvents motor_pin_azimuth 0 out.iterations.flatten =
        [9, 8, 7, 6, 5].map (fun q => Event.energize motor_pin_azimuth (and3 q)) ∧
      axisEvents motor_pin_altitude 1 out.iterations.flatten =
        [1, 2].map (fun q => Event.energize motor_pin_altitude (and3 q)) := by
  refine ⟨⟨by decide, by decide⟩, ?_⟩
  obtain ⟨out, h, h1, -, -, -, -, h6, h7, -, -⟩ :=
    step_to_calibrating 3 (by decide) 5 ⟨10, 0⟩ 5 2 (by decide)
  exact ⟨out, h, h1, h6, h7⟩

theorem pi_pos {K : Type} [LinearOrderedField K] : (0 : K) < pi := by
  unfold pi
  norm_num

/-! ## Pointing orchestrator and sidereal clock: the claims -/

/-- C6: altitude clamp in `set_pointer`. For every computed altitude tick count `a` the
protected value is `max a altitude_limit` with `altitude_limit = -200`; so the altitude
target handed to `step_to` is the maximum of the truncated tick count and -200, it is never
below `altitude_limit`, tick counts at or above the limit pass unchanged, and the azimuth
target is the truncated tick count of the folded azimuth, without any clamp. -/
theorem set_pointer_altitude_clamp {K : Type} [LinearOrderedField K] [FloorRing K] (object_az_d object_al_d : K) :
    altitude_limit = -200 ∧
    (∀ a : Int, protect_pointer a = max a altitude_limit) ∧
    (set_pointer_targets object_az_d object_al_d).2 =
      max (trunc (object_al_d * (steps_per_revolution : K) / 360)) altitude_limit ∧
    altitude_limit ≤ (set_pointer_targets object_az_d object_al_d).2 ∧
    (altitude_limit ≤ trunc (object_al_d * (steps_per_revolution : K) / 360) →
      (set_pointer_targets object_az_d object_al_d).2 =
        trunc (object_al_d * (steps_per_revolution : K) / 360)) ∧
    (set_pointer_targets object_az_d object_al_d).1 =
      trunc (-(fold_azimuth object_az_d) * (steps_per_revolution : K) / 360) := by
  have hp : ∀ a : Int, protect_pointer a = max a altitude_limit := by
    intro a
    unfold protect_pointer
    split_ifs with h
    · rw [max_eq_right (le_of_lt h)]
    · rw [max_eq_left (not_lt.mp h)]
  refine ⟨rfl, hp, ?_, ?_, ?_, rfl⟩
  · simp only [set_pointer_targets, hp]
  · simp only [set_pointer_targets, hp]
    exact le_max_right _ _
  · intro h
    simp only [set_pointer_targets, hp]
    exact max_eq_left h

/-- C7: azimuth folding in `set_pointer`. For every raw azimuth `a` in `[0, 360]` degrees
the folded value is `a` when `a ≤ 180` and `a - 360` when `a > 180`; it lies in
`(-180, 180]` and differs from `a` by a multiple of 360. -/
theorem fold_azimuth_range {K : Type} [LinearOrderedField K] (a : K) (h0 : 0 ≤ a) (h1 : a ≤ 360) :
    fold_azimuth a = (if a ≤ 180 then a else a - 360) ∧
    -180 < fold_azimuth a ∧ fold_azimuth a ≤ 180 ∧
    ∃ k : Int, a - fold_azimuth a = 360 * (k : K) := by
  unfold fold_azimuth
  by_cases h : a > 180
  · have h2 : ¬ a ≤ 180 := not_le.mpr h
    rw [if_pos h, if_neg h2]
    exact ⟨rfl, by linarith, by linarith, 1, by push_cast; ring⟩
  · have h2 : a ≤ 180 := not_lt.mp h
    rw [if_neg h, if_pos h2]
    exact ⟨rfl, by linarith, h2, 0, by push_cast; ring⟩

/-- C7, witnesses of the spec: 270 degrees folds to -90 degrees, and 90 degrees stays. -/
theorem fold_azimuth_range_witness :
    ((0 : ℚ) ≤ 270 ∧ (270 : ℚ) ≤ 360) ∧
    (fold_azimuth (270 : ℚ) = (if (270 : ℚ) ≤ 180 then 270 else 270 - 360) ∧
      -180 < fold_azimuth (270 : ℚ) ∧ fold_azimuth (270 : ℚ) ≤ 180 ∧
      ∃ k : Int, (270 : ℚ) - fold_azimuth (270 : ℚ) = 360 * (k : ℚ)) ∧
    fold_azimuth (270 : ℚ) = -90 ∧ fold_azimuth (90 : ℚ) = 90 :=
  ⟨⟨by norm_num, by norm_num⟩, fold_azimuth_range (270 : ℚ) (by norm_num) (by norm_num),
    by norm_num [fold_azimuth], by norm_num [fold_azimuth]⟩

theorem sidereal_ms_range {K : Type} [LinearOrderedField K] [FloorRing K] (ms : Int) (loc_lng_d : K) :
    0 ≤ sidereal_ms ms loc_lng_d ∧ sidereal_ms ms loc_lng_d < 86164091 := by
  simp only [sidereal_ms, solar_ms_seconds_per_sidereal_day]
  omega

/-- C8: range of the sidereal angle. For every time `t` and every longitude, the
millisecond remainder computed by `getSiderealAngle` lies in `[0, 86164091)`, the returned
angle is `remainder * 2 * pi / 86164091`, and it lies in `[0, 2 * pi)`. -/
theorem getSiderealAngle_range {K : Type} [LinearOrderedField K] [FloorRing K] (t : Int) (loc_lng_d : K) :
    0 ≤ getSiderealAngle_ms t loc_lng_d ∧ getSiderealAngle_ms t loc_lng_d < 86164091 ∧
    getSiderealAngle t loc_lng_d =
      (getSiderealAngle_ms t loc_lng_d : K) * 2 * pi / 86164091 ∧
    0 ≤ getSiderealAngle t loc_lng_d ∧ getSiderealAngle t loc_lng_d < 2 * pi := by
  obtain ⟨h0, h1⟩ := sidereal_ms_range (uint64 (t * 1000)) loc_lng_d
  have e : getSiderealAngle t loc_lng_d =
      (getSiderealAngle_ms t loc_lng_d : K) * 2 * pi / 86164091 := by
    simp [getSiderealAngle, solar_ms_seconds_per_sidereal_day]
  have hpi : (0 : K) < pi := pi_pos
  have c0 : (0 : K) ≤ (getSiderealAngle_ms t loc_lng_d : K) := by
    exact_mod_cast h0
  have c1 : (getSiderealAngle_ms t loc_lng_d : K) < 86164091 := by
    exact_mod_cast h1
  refine ⟨h0, h1, e, ?_, ?_⟩
  · rw [e]
    positivity
  · rw [e, div_lt_iff₀ (by norm_num)]
    nlinarith

/-- C9: periodicity of the sidereal angle. When the value `ms - siderial_ms_offset + ln` is
not negative and stays below `2 ^ 64` after the advance (no wrap of the unsigned
arithmetic), advancing the millisecond time `ms` by one sidereal day, 86164091 ms, leaves
the remainder unchanged; and advancing the argument `t` by 86164091 seconds leaves
`getSiderealAngle (t, L)` unchanged. -/
theorem getSiderealAngle_periodic {K : Type} [LinearOrderedField K] [FloorRing K] (loc_lng_d : K) :
    (∀ ms : Int,
      0 ≤ ms - siderial_ms_offset + trunc (loc_lng_d * (86164091 : K) / 360) →
      ms + 86164091 - siderial_ms_offset + trunc (loc_lng_d * (86164091 : K) / 360) < 2 ^ 64 →
      sidereal_ms (ms + 86164091) loc_lng_d = sidereal_ms ms loc_lng_d) ∧
    (∀ t : Int,
      0 ≤ t →
      0 ≤ 1000 * t - siderial_ms_offset + trunc (loc_lng_d * (86164091 : K) / 360) →
      1000 * (t + 86164091) - siderial_ms_offset +
        trunc (loc_lng_d * (86164091 : K) / 360) < 2 ^ 64 →
      1000 * (t + 86164091) < 2 ^ 64 →
      getSiderealAngle (t + 86164091) loc_lng_d = getSiderealAngle t loc_lng_d) := by
  constructor
  · intro ms h0 h1
    simp only [sidereal_ms, solar_ms_seconds_per_sidereal_day, uint64, siderial_ms_offset,
      Int.cast_ofNat] at h0 h1 ⊢
    generalize trunc (loc_lng_d * (86164091 : K) / 360) = ln at h0 h1 ⊢
    norm_num at h0 h1 ⊢
    omega
  · intro t ht h0 h1 h2
    have e : getSiderealAngle_ms (t + 86164091) loc_lng_d = getSiderealAngle_ms t loc_lng_d := by
      simp only [getSiderealAngle_ms, sidereal_ms, solar_ms_seconds_per_sidereal_day, uint64,
        siderial_ms_offset, Int.cast_ofNat] at h0 h1 ⊢
      generalize trunc (loc_lng_d * (86164091 : K) / 360) = ln at h0 h1 ⊢
      norm_num at h0 h1 h2 ⊢
      omega
    simp only [getSiderealAngle, e]

/-- C9, at `t = 1546300800` (2019-01-01 00:00:00) and longitude 0: one thousand sidereal
days later the angle is the same. -/
theorem getSiderealAngle_periodic_witness :
    ((0 : Int) ≤ 1546300800 ∧
      0 ≤ 1000 * (1546300800 : Int) - siderial_ms_offset +
        trunc ((0 : ℚ) * (86164091 : ℚ) / 360) ∧
      1000 * ((1546300800 : Int) + 86164091) - siderial_ms_offset +
        trunc ((0 : ℚ) * (86164091 : ℚ) / 360) < 2 ^ 64 ∧
      1000 * ((1546300800 : Int) + 86164091) < 2 ^ 64) ∧
    getSiderealAngle (1546300800 + 86164091) (0 : ℚ) = getSiderealAngle 1546300800 (0 : ℚ) := by
  have h : trunc ((0 : ℚ) * (86164091 : ℚ) / 360) = 0 := by norm_num [trunc]
  have h0 : (0 : Int) ≤ 1546300800 := by decide
  have h1 : 0 ≤ 1000 * (1546300800 : Int) - siderial_ms_offset +
      trunc ((0 : ℚ) * (86164091 : ℚ) / 360) := by
    rw [h]; decide
  have h2 : 1000 * ((1546300800 : Int) + 86164091) - siderial_ms_offset +
      trunc ((0 : ℚ) * (86164091 : ℚ) / 360) < 2 ^ 64 := by
    rw [h]; decide
  have h3 : 1000 * ((1546300800 : Int) + 86164091) < 2 ^ 64 := by decide
  exact ⟨⟨h0, h1, h2, h3⟩,
    (getSiderealAngle_periodic (0 : ℚ)).2 1546300800 h0 h1 h2 h3⟩

/-! ## Lemmas: the conversion to right ascension and declination -/

theorem pi_macro_lt_pi : (pi : ℝ) < Real.pi := by
  have h := Real.pi_gt_d20
  unfold pi
  norm_num at h ⊢
  linarith

theorem pi_lt_two_pi_macro : Real.pi < 2 * (pi : ℝ) := by
  have h := Real.pi_lt_d20
  unfold pi
  norm_num at h ⊢
  linarith

theorem atan2_range (y x : ℝ) : -Real.pi < atan2 y x ∧ atan2 y x ≤ Real.pi := by
  have h1 := Real.neg_pi_div_two_lt_arctan (y / x)
  have h2 := Real.arctan_lt_pi_div_two (y / x)
  have hpi := Real.pi_pos
  unfold atan2
  split_ifs with hx hx2 hy hy2 hy3
  · constructor <;> linarith
  · have : y / x ≤ 0 := div_nonpos_of_nonneg_of_nonpos hy (le_of_lt hx2)
    have h3 : Real.arctan (y / x) ≤ 0 := by
      rw [← Real.arctan_zero]
      exact Real.arctan_strictMono.monotone this
    constructor <;> linarith
  · have : 0 < y / x := div_pos_of_neg_of_neg (not_le.mp hy) hx2
    have h3 : 0 < Real.arctan (y / x) := by
      rw [← Real.arctan_zero]
      exact Real.arctan_strictMono this
    constructor <;> linarith
  · constructor <;> linarith
  · constructor <;> linarith
  · constructor <;> linarith

theorem equatorial_ra_range (d : ℝ) (g : ℝ × ℝ × ℝ) :
    0 ≤ (equatorial d g).1 ∧ (equatorial d g).1 < 24 := by
  have hp : (0 : ℝ) < pi := pi_pos
  have h1 := pi_macro_lt_pi
  have h2 := pi_lt_two_pi_macro
  obtain ⟨a1, a2⟩ := atan2_range (g.2.1 * Real.cos (0.409092959362707 + 6.218608124856E-9 * d) -
    g.2.2 * Real.sin (0.409092959362707 + 6.218608124856E-9 * d)) g.1
  simp only [equatorial]
  generalize atan2 (g.2.1 * Real.cos (0.409092959362707 + 6.218608124856E-9 * d) -
    g.2.2 * Real.sin (0.409092959362707 + 6.218608124856E-9 * d)) g.1 = a at a1 a2 ⊢
  have e : a * 12.0 / pi = a * (12 / pi) := by ring
  have hq : (0 : ℝ) < 12 / pi := by positivity
  have hq2 : Real.pi * (12 / pi) < 24 := by
    rw [mul_div_assoc', div_lt_iff₀ hp]
    linarith
  rw [e]
  norm_num
  split_ifs with hneg
  · constructor
    · nlinarith
    · linarith
  · constructor
    · linarith
    · nlinarith

theorem arctan_le_pi_macro_div_two (u : ℝ) (h1 : -1 ≤ u) (h2 : u ≤ 1) :
    -(pi / 2 : ℝ) ≤ Real.arctan u ∧ Real.arctan u ≤ (pi / 2 : ℝ) := by
  have e1 : Real.arctan u ≤ Real.pi / 4 := by
    rw [← Real.arctan_one]
    exact Real.arctan_strictMono.monotone h2
  have e2 : -(Real.pi / 4) ≤ Real.arctan u := by
    rw [← Real.arctan_one, ← Real.arctan_neg]
    exact Real.arctan_strictMono.monotone h1
  have h3 := pi_lt_two_pi_macro
  have hpi := Real.pi_pos
  constructor <;> linarith

theorem equatorial_dc_range_of_sq (d : ℝ) (g : ℝ × ℝ × ℝ)
    (h : (g.2.1 * Real.sin (0.409092959362707 + 6.218608124856E-9 * d) +
        g.2.2 * Real.cos (0.409092959362707 + 6.218608124856E-9 * d)) ^ 2 ≤
      g.1 ^ 2 + (g.2.1 * Real.cos (0.409092959362707 + 6.218608124856E-9 * d) -
        g.2.2 * Real.sin (0.409092959362707 + 6.218608124856E-9 * d)) ^ 2) :
    -90 ≤ (equatorial d g).2 ∧ (equatorial d g).2 ≤ 90 := by
  have hp : (0 : ℝ) < pi := pi_pos
  simp only [equatorial]
  generalize (g.2.1 * Real.sin (0.409092959362707 + 6.218608124856E-9 * d) +
        g.2.2 * Real.cos (0.409092959362707 + 6.218608124856E-9 * d)) = ze at h ⊢
  generalize (g.2.1 * Real.cos (0.409092959362707 + 6.218608124856E-9 * d) -
        g.2.2 * Real.sin (0.409092959362707 + 6.218608124856E-9 * d)) = ye at h ⊢
  generalize g.1 = xe at h ⊢
  have hs : 0 ≤ Real.sqrt (xe * xe + ye * ye) := Real.sqrt_nonneg _
  have hss : Real.sqrt (xe * xe + ye * ye) ^ 2 = xe * xe + ye * ye :=
    Real.sq_sqrt (add_nonneg (mul_self_nonneg _) (mul_self_nonneg _))
  have hu : -1 ≤ ze / Real.sqrt (xe * xe + ye * ye) ∧ ze / Real.sqrt (xe * xe + ye * ye) ≤ 1 := by
    rcases eq_or_lt_of_le hs with h0 | hpos
    · rw [← h0]
      norm_num
    · rw [le_div_iff₀ hpos, div_le_iff₀ hpos]
      have habs : ze ^ 2 ≤ Real.sqrt (xe * xe + ye * ye) ^ 2 := by
        rw [hss]; nlinarith
      have := abs_le_of_sq_le_sq' habs hs
      constructor <;> linarith [this.1, this.2]
  obtain ⟨b1, b2⟩ := arctan_le_pi_macro_div_two _ hu.1 hu.2
  generalize Real.arctan (ze / Real.sqrt (xe * xe + ye * ye)) = t at b1 b2 ⊢
  constructor
  · rw [le_div_iff₀ hp]
    linarith
  · rw [div_le_iff₀ hp]
    linarith

theorem sq_rotation_bound (xg yg zg S C : ℝ) (hSC : S ^ 2 + C ^ 2 = 1)
    (hS : S ^ 2 ≤ 1681 / 10000)
    (hpos : 0 < xg ^ 2 + yg ^ 2) (hz : zg ^ 2 ≤ 2 / 25 * (xg ^ 2 + yg ^ 2)) :
    (yg * S + zg * C) ^ 2 ≤ xg ^ 2 + (yg * C - zg * S) ^ 2 ∧
    0 < xg ^ 2 + (yg * C - zg * S) ^ 2 := by
  have hC : C ^ 2 ≤ 1 := by linarith [sq_nonneg S]
  have key := sq_nonneg (7 * (yg * S) - 10 * (zg * C))
  have e : (yg * S + zg * C) ^ 2 + (yg * C - zg * S) ^ 2 = (yg ^ 2 + zg ^ 2) * (S ^ 2 + C ^ 2) := by
    ring
  rw [hSC, mul_one] at e
  have b1 : yg ^ 2 * S ^ 2 ≤ yg ^ 2 * (1681 / 10000) :=
    mul_le_mul_of_nonneg_left hS (sq_nonneg yg)
  have b2 : zg ^ 2 * C ^ 2 ≤ zg ^ 2 * 1 := mul_le_mul_of_nonneg_left hC (sq_nonneg zg)
  have hze : (yg * S + zg * C) ^ 2 ≤ 49 / 100 * (xg ^ 2 + yg ^ 2) := by
    linarith [sq_nonneg xg, sq_nonneg yg, sq_nonneg zg]
  constructor <;> linarith [sq_nonneg xg, sq_nonneg yg, sq_nonneg zg]

/-- The declination computed by the last statements of `getPlanet`. -/
theorem equatorial_dc (d : ℝ) (g : ℝ × ℝ × ℝ) :
    (equatorial d g).2 =
      Real.arctan ((g.2.1 * Real.sin (0.409092959362707 + 6.218608124856E-9 * d) +
          g.2.2 * Real.cos (0.409092959362707 + 6.218608124856E-9 * d)) /
        Real.sqrt (g.1 * g.1 +
          (g.2.1 * Real.cos (0.409092959362707 + 6.218608124856E-9 * d) -
            g.2.2 * Real.sin (0.409092959362707 + 6.218608124856E-9 * d)) *
          (g.2.1 * Real.cos (0.409092959362707 + 6.218608124856E-9 * d) -
            g.2.2 * Real.sin (0.409092959362707 + 6.218608124856E-9 * d)))) * 180 / pi := rfl

/-- The right ascension computed by the last statements of `getPlanet`. -/
theorem equatorial_ra (d : ℝ) (g : ℝ × ℝ × ℝ) :
    (equatorial d g).1 =
      if atan2 (g.2.1 * Real.cos (0.409092959362707 + 6.218608124856E-9 * d) -
          g.2.2 * Real.sin (0.409092959362707 + 6.218608124856E-9 * d)) g.1 * 12.0 / pi < 0.0
      then atan2 (g.2.1 * Real.cos (0.409092959362707 + 6.218608124856E-9 * d) -
          g.2.2 * Real.sin (0.409092959362707 + 6.218608124856E-9 * d)) g.1 * 12.0 / pi + 24.0
      else atan2 (g.2.1 * Real.cos (0.409092959362707 + 6.218608124856E-9 * d) -
          g.2.2 * Real.sin (0.409092959362707 + 6.218608124856E-9 * d)) g.1 * 12.0 / pi := rfl

theorem equatorial_dc_range (d : ℝ) (g : ℝ × ℝ × ℝ)
    (hecl : Real.sin (0.409092959362707 + 6.218608124856E-9 * d) ^ 2 ≤ 0.1681)
    (hg : NearEcliptic g) :
    (-90 ≤ (equatorial d g).2 ∧ (equatorial d g).2 ≤ 90) ∧
    0 < Real.sqrt (g.1 * g.1 +
      (g.2.1 * Real.cos (0.409092959362707 + 6.218608124856E-9 * d) -
        g.2.2 * Real.sin (0.409092959362707 + 6.218608124856E-9 * d)) *
      (g.2.1 * Real.cos (0.409092959362707 + 6.218608124856E-9 * d) -
        g.2.2 * Real.sin (0.409092959362707 + 6.218608124856E-9 * d))) := by
  have e1 : (0.1681 : ℝ) = 1681 / 10000 := by norm_num
  have e2 : (0.08 : ℝ) = 2 / 25 := by norm_num
  have hz := hg.2
  rw [e1] at hecl
  rw [e2] at hz
  obtain ⟨h1, h2⟩ := sq_rotation_bound g.1 g.2.1 g.2.2
    (Real.sin (0.409092959362707 + 6.218608124856E-9 * d))
    (Real.cos (0.409092959362707 + 6.218608124856E-9 * d)) (Real.sin_sq_add_cos_sq _)
    hecl hg.1 hz
  refine ⟨equatorial_dc_range_of_sq d g h1, Real.sqrt_pos.mpr ?_⟩
  nlinarith

/-! ## Lemmas: the Kepler iteration terminates -/

theorem abs_sin_sub_self_le (h : ℝ) (hh : |h| ≤ 1) : |Real.sin h - h| ≤ |h| ^ 3 / 4 := by
  rcases lt_trichotomy h 0 with hneg | hzero | hpos
  · have h1 : 0 < -h := by linarith
    have h2 : -h ≤ 1 := by
      have := neg_abs_le h
      linarith [abs_nonneg h, neg_le_abs h]
    have a := Real.sin_gt_sub_cube h1 h2
    have b := Real.sin_lt h1
    rw [Real.sin_neg] at a b
    have e : |h| = -h := abs_of_neg hneg
    rw [e, abs_le]
    constructor <;> nlinarith
  · subst hzero
    simp
  · have h2 : h ≤ 1 := le_trans (le_abs_self h) hh
    have a := Real.sin_gt_sub_cube hpos h2
    have b := Real.sin_lt hpos
    have e : |h| = h := abs_of_pos hpos
    rw [e, abs_le]
    constructor <;> nlinarith

theorem one_sub_cos_le (h : ℝ) : 0 ≤ 1 - Real.cos h ∧ 1 - Real.cos h ≤ h ^ 2 / 2 := by
  have a := Real.one_sub_sq_div_two_le_cos (x := h)
  have b := Real.cos_le_one h
  constructor <;> linarith

/-- Second-order remainder of the sine: `sin E - sin (E - h) - h cos E`. -/
theorem sin_remainder_bound (E h : ℝ) (hh : |h| ≤ 1) :
    |Real.sin E - Real.sin (E - h) - h * Real.cos E| ≤ h ^ 2 / 2 + |h| ^ 3 / 4 := by
  have e : Real.sin E - Real.sin (E - h) - h * Real.cos E =
      Real.sin E * (1 - Real.cos h) + Real.cos E * (Real.sin h - h) := by
    rw [Real.sin_sub]
    ring
  rw [e]
  obtain ⟨c0, c1⟩ := one_sub_cos_le h
  have s1 := abs_sin_sub_self_le h hh
  have a1 : |Real.sin E * (1 - Real.cos h)| ≤ h ^ 2 / 2 := by
    rw [abs_mul, abs_of_nonneg c0]
    have := Real.abs_sin_le_one E
    nlinarith [abs_nonneg (Real.sin E)]
  have a2 : |Real.cos E * (Real.sin h - h)| ≤ |h| ^ 3 / 4 := by
    rw [abs_mul]
    have := Real.abs_cos_le_one E
    nlinarith [abs_nonneg (Real.cos E), abs_nonneg (Real.sin h - h)]
  calc |Real.sin E * (1 - Real.cos h) + Real.cos E * (Real.sin h - h)|
      ≤ |Real.sin E * (1 - Real.cos h)| + |Real.cos E * (Real.sin h - h)| := abs_add _ _
    _ ≤ h ^ 2 / 2 + |h| ^ 3 / 4 := add_le_add a1 a2

theorem kepler_denominator (e E : ℝ) (h0 : 0 ≤ e) (h1 : e ≤ 0.21) :
    0.79 ≤ 1 - e * Real.cos E ∧ 1 - e * Real.cos E ≤ 1.21 := by
  have a := mul_le_mul_of_nonneg_left (Real.cos_le_one E) h0
  have b := mul_le_mul_of_nonneg_left (Real.neg_one_le_cos E) h0
  constructor <;> linarith

theorem kepler_loop_stop (e M : ℝ) (fuel : Nat) (E dE : ℝ)
    (h : ¬ (dE < -0.000872664 ∨ dE > 0.000872664)) :
    kepler_loop e M fuel E dE = some E := by
  cases fuel <;> simp only [kepler_loop, h, if_false]

theorem kepler_loop_next (e M : ℝ) (fuel : Nat) (E dE : ℝ)
    (h : dE < -0.000872664 ∨ dE > 0.000872664) :
    kepler_loop e M (fuel + 1) E dE =
      kepler_loop e M fuel (E - kepler_delta e M E) (kepler_delta e M E) := by
  rw [kepler_loop]
  simp only [h, if_true, kepler_delta, sub_sub_cancel]

theorem kepler_loop_mono (e M : ℝ) :
    ∀ (fuel : Nat) (E dE x : ℝ), kepler_loop e M fuel E dE = some x →
      ∀ fuel2, fuel ≤ fuel2 → kepler_loop e M fuel2 E dE = some x := by
  intro fuel
  induction fuel with
  | zero =>
    intro E dE x h fuel2 _
    by_cases hc : dE < -0.000872664 ∨ dE > 0.000872664
    · simp [kepler_loop, hc] at h
    · rw [kepler_loop_stop e M _ E dE hc] at h ⊢
      exact h
  | succ n ih =>
    intro E dE x h fuel2 hle
    by_cases hc : dE < -0.000872664 ∨ dE > 0.000872664
    · obtain ⟨m, rfl⟩ : ∃ m, fuel2 = m + 1 := ⟨fuel2 - 1, by omega⟩
      rw [kepler_loop_next e M _ E dE hc] at h ⊢
      exact ih _ _ _ h m (by omega)
    · rw [kepler_loop_stop e M _ E dE hc] at h ⊢
      exact h

/-- One Newton step squares the change: quadratic convergence of the Kepler iteration. -/
theorem kepler_delta_step (e M E r : ℝ) (h0 : 0 ≤ e) (h1 : e ≤ 0.21)
    (hr : |kepler_delta e M E| ≤ r) (hr2 : r ≤ 0.14) :
    |kepler_delta e M (E - kepler_delta e M E)| ≤ 0.15 * r ^ 2 := by
  obtain ⟨d1, _⟩ := kepler_denominator e E h0 h1
  obtain ⟨d2, _⟩ := kepler_denominator e (E - kepler_delta e M E) h0 h1
  set h := kepler_delta e M E with hdef
  have hD : h * (1 - e * Real.cos E) = E - e * Real.sin E - M := by
    rw [hdef, kepler_delta]
    field_simp
  have hnum : (E - h) - e * Real.sin (E - h) - M =
      e * (Real.sin E - Real.sin (E - h) - h * Real.cos E) := by
    linear_combination -hD
  have hr0 : 0 ≤ r := le_trans (abs_nonneg _) hr
  have hh1 : |h| ≤ 1 := by linarith
  have hrem := sin_remainder_bound E h hh1
  have habs : |h| ^ 2 = h ^ 2 := sq_abs h
  have b2 : h ^ 2 ≤ r ^ 2 := by
    rw [← habs]
    exact pow_le_pow_left₀ (abs_nonneg h) hr 2
  have b3 : |h| ^ 3 ≤ 0.14 * r ^ 2 := by
    have : |h| ^ 3 = |h| * |h| ^ 2 := by ring
    rw [this, habs]
    exact mul_le_mul (le_trans hr hr2) b2 (sq_nonneg h) (by norm_num)
  have hf : |(E - h) - e * Real.sin (E - h) - M| ≤ 0.21 * (0.535 * r ^ 2) := by
    rw [hnum, abs_mul, abs_of_nonneg h0]
    have : |Real.sin E - Real.sin (E - h) - h * Real.cos E| ≤ 0.535 * r ^ 2 := by linarith
    exact mul_le_mul h1 this (abs_nonneg _) (by norm_num)
  rw [kepler_delta, abs_div, abs_of_pos (by linarith : (0 : ℝ) < 1 - e * Real.cos (E - h)),
    div_le_iff₀ (by linarith)]
  have hfin : 0.15 * r ^ 2 * 0.79 ≤ 0.15 * r ^ 2 * (1 - e * Real.cos (E - h)) :=
    mul_le_mul_of_nonneg_left d2 (by positivity)
  linarith [sq_nonneg r]

/-- The first approximation is close: the first change of the Kepler iteration is small. -/
theorem kepler_delta_start (e M : ℝ) (h0 : 0 ≤ e) (h1 : e ≤ 0.21) :
    |kepler_delta e M (M + e * Real.sin M * (1.0 + e * Real.cos M))| ≤ 0.14 := by
  set δ := e * Real.sin M * (1.0 + e * Real.cos M) with hδ
  obtain ⟨d1, _⟩ := kepler_denominator e (M + δ) h0 h1
  have s1 := Real.abs_sin_le_one M
  have c1 := Real.abs_cos_le_one M
  have hδabs : |δ| ≤ 0.2541 := by
    rw [hδ, abs_mul, abs_mul, abs_of_nonneg h0]
    have : |1.0 + e * Real.cos M| ≤ 1.21 := by
      rw [abs_le]
      have a := mul_le_mul_of_nonneg_left (Real.cos_le_one M) h0
      have b := mul_le_mul_of_nonneg_left (Real.neg_one_le_cos M) h0
      constructor <;> linarith
    have t1 : e * |Real.sin M| ≤ 0.21 := by
      have := mul_le_mul h1 s1 (abs_nonneg _) (by norm_num : (0 : ℝ) ≤ 0.21)
      linarith
    have t2 : e * |Real.sin M| * |1.0 + e * Real.cos M| ≤ 0.21 * 1.21 :=
      mul_le_mul t1 this (abs_nonneg _) (by norm_num)
    norm_num at t2 ⊢
    linarith
  have hrem := sin_remainder_bound (M + δ) δ (by linarith)
  rw [add_sub_cancel_right] at hrem
  have hcosδ : |δ * Real.cos (M + δ)| ≤ |δ| := by
    rw [abs_mul]
    have := mul_le_mul_of_nonneg_left (Real.abs_cos_le_one (M + δ)) (abs_nonneg δ)
    linarith
  have hdiff : |Real.sin (M + δ) - Real.sin M| ≤ 0.2905 := by
    have e1 : Real.sin (M + δ) - Real.sin M =
        (Real.sin (M + δ) - Real.sin M - δ * Real.cos (M + δ)) + δ * Real.cos (M + δ) := by ring
    rw [e1]
    have hsq : δ ^ 2 ≤ 0.2541 ^ 2 := by
      rw [← sq_abs δ]
      exact pow_le_pow_left₀ (abs_nonneg δ) hδabs 2
    have hcube : |δ| ^ 3 ≤ 0.2541 ^ 3 := pow_le_pow_left₀ (abs_nonneg δ) hδabs 3
    calc |(Real.sin (M + δ) - Real.sin M - δ * Real.cos (M + δ)) + δ * Real.cos (M + δ)|
        ≤ |Real.sin (M + δ) - Real.sin M - δ * Real.cos (M + δ)| + |δ * Real.cos (M + δ)| :=
          abs_add _ _
      _ ≤ (δ ^ 2 / 2 + |δ| ^ 3 / 4) + |δ| := add_le_add hrem hcosδ
      _ ≤ 0.2905 := by norm_num at hsq hcube ⊢; linarith
  have hnum : (M + δ) - e * Real.sin (M + δ) - M =
      e * (Real.sin M - Real.sin (M + δ)) + e * e * (Real.sin M * Real.cos M) := by
    rw [hδ]
    ring
  have hsc : |Real.sin M * Real.cos M| ≤ 1 := by
    rw [abs_mul]
    have := mul_le_mul s1 c1 (abs_nonneg _) (by norm_num : (0 : ℝ) ≤ 1)
    linarith
  have hf : |(M + δ) - e * Real.sin (M + δ) - M| ≤ 0.1052 := by
    rw [hnum]
    have t1 : |e * (Real.sin M - Real.sin (M + δ))| ≤ 0.21 * 0.2905 := by
      rw [abs_mul, abs_of_nonneg h0, abs_sub_comm]
      exact mul_le_mul h1 hdiff (abs_nonneg _) (by norm_num)
    have t2 : |e * e * (Real.sin M * Real.cos M)| ≤ 0.21 * 0.21 := by
      rw [abs_mul, abs_of_nonneg (mul_nonneg h0 h0)]
      have hee : e * e ≤ 0.21 * 0.21 := mul_le_mul h1 h1 h0 (by norm_num)
      have := mul_le_mul hee hsc (abs_nonneg _) (by norm_num)
      linarith
    calc |e * (Real.sin M - Real.sin (M + δ)) + e * e * (Real.sin M * Real.cos M)|
        ≤ |e * (Real.sin M - Real.sin (M + δ))| + |e * e * (Real.sin M * Real.cos M)| :=
          abs_add _ _
      _ ≤ 0.21 * 0.2905 + 0.21 * 0.21 := add_le_add t1 t2
      _ ≤ 0.1052 := by norm_num
  rw [kepler_delta, abs_div, abs_of_pos (by linarith : (0 : ℝ) < 1 - e * Real.cos (M + δ)),
    div_le_iff₀ (by linarith)]
  linarith

/-- The Kepler iteration ends within three iterations for an eccentricity in `[0, 0.21]`. -/
theorem eccentric_anomaly_terminates (e M : ℝ) (h0 : 0 ≤ e) (h1 : e ≤ 0.21) (fuel : Nat)
    (hfuel : 3 ≤ fuel) : ∃ Eo, eccentric_anomaly fuel e M = some Eo := by
  suffices h3 : ∃ Eo, eccentric_anomaly 3 e M = some Eo by
    obtain ⟨Eo, h⟩ := h3
    exact ⟨Eo, kepler_loop_mono e M 3 _ _ Eo h fuel hfuel⟩
  unfold eccentric_anomaly
  simp only
  set E0 := M + e * Real.sin M * (1.0 + e * Real.cos M) with hE0
  have a0 := kepler_delta_start e M h0 h1
  rw [← hE0] at a0
  rw [kepler_loop_next e M 2 E0 1.0 (Or.inr (by norm_num))]
  by_cases c1 : kepler_delta e M E0 < -0.000872664 ∨ kepler_delta e M E0 > 0.000872664
  · rw [kepler_loop_next e M 1 _ _ c1]
    have a1 := kepler_delta_step e M E0 0.14 h0 h1 a0 (le_refl _)
    by_cases c2 : kepler_delta e M (E0 - kepler_delta e M E0) < -0.000872664 ∨
        kepler_delta e M (E0 - kepler_delta e M E0) > 0.000872664
    · rw [kepler_loop_next e M 0 _ _ c2]
      have a2 := kepler_delta_step e M (E0 - kepler_delta e M E0) (0.15 * 0.14 ^ 2) h0 h1 a1
        (by norm_num)
      have c3 : ¬ (kepler_delta e M (E0 - kepler_delta e M E0 -
            kepler_delta e M (E0 - kepler_delta e M E0)) < -0.000872664 ∨
          kepler_delta e M (E0 - kepler_delta e M E0 -
            kepler_delta e M (E0 - kepler_delta e M E0)) > 0.000872664) := by
        have := abs_le.mp a2
        norm_num at this ⊢
        constructor <;> linarith [this.1, this.2]
      exact ⟨_, kepler_loop_stop e M 0 _ _ c3⟩
    · exact ⟨_, kepler_loop_stop e M 1 _ _ c2⟩
  · exact ⟨_, kepler_loop_stop e M 2 _ _ c1⟩

/-! ## Lemmas: distance and latitude of an object -/

theorem atan2_sin_cos (y x r : ℝ) (hx : 0 ≤ x) (hr : 0 < r) (h : x ^ 2 + y ^ 2 = r ^ 2) :
    Real.sin (atan2 y x) = y / r ∧ Real.cos (atan2 y x) = x / r := by
  unfold atan2
  rcases eq_or_lt_of_le hx with h0 | hpos
  · have hx0 : x = 0 := h0.symm
    subst hx0
    have hy2 : y ^ 2 = r ^ 2 := by linarith
    simp only [lt_irrefl, if_false]
    rcases lt_trichotomy y 0 with hy | hy | hy
    · have e : y / r = -1 := by
        have : y = -r := by
          rcases abs_eq_abs.mp ((sq_eq_sq_iff_abs_eq_abs y r).mp hy2) with h | h
          · linarith
          · exact h
        rw [this]
        field_simp
      have hny : ¬ 0 < y := by linarith
      simp only [hny, hy, if_true, if_false, Real.sin_neg, Real.cos_neg, Real.sin_pi_div_two,
        Real.cos_pi_div_two]
      exact ⟨e.symm, by simp⟩
    · subst hy
      have : 0 < r ^ 2 := by positivity
      norm_num at hy2
      linarith
    · have e : y / r = 1 := by
        have : y = r := by
          rcases abs_eq_abs.mp ((sq_eq_sq_iff_abs_eq_abs y r).mp hy2) with h | h
          · exact h
          · linarith
        rw [this]
        field_simp
      simp only [hy, if_true, Real.sin_pi_div_two, Real.cos_pi_div_two]
      exact ⟨e.symm, by simp⟩
  · simp only [hpos, if_true]
    rw [Real.sin_arctan, Real.cos_arctan]
    have e : 1 + (y / x) ^ 2 = (r / x) ^ 2 := by
      field_simp
      linarith
    have hrx : 0 ≤ r / x := le_of_lt (div_pos hr hpos)
    rw [e, Real.sqrt_sq hrx]
    constructor <;> field_simp

theorem orbit_radius (ao e E : ℝ) (hao : 0 < ao) (h0 : 0 ≤ e) (h1 : e ≤ 0.21) :
    Real.sqrt (ao * (Real.cos E - e) * (ao * (Real.cos E - e)) +
      ao * (Real.sqrt (1.0 - e * e) * Real.sin E) *
        (ao * (Real.sqrt (1.0 - e * e) * Real.sin E))) = ao * (1 - e * Real.cos E) := by
  have hee : e * e ≤ 0.21 * 0.21 := mul_le_mul h1 h1 h0 (by norm_num)
  have hq : Real.sqrt (1.0 - e * e) ^ 2 = 1 - e * e := by
    rw [Real.sq_sqrt]
    · norm_num
    · norm_num at hee ⊢
      linarith
  have hsc := Real.sin_sq_add_cos_sq E
  have hpos : 0 ≤ ao * (1 - e * Real.cos E) := by
    have := (kepler_denominator e E h0 h1).1
    have : 0 ≤ 1 - e * Real.cos E := by linarith
    positivity
  rw [← Real.sqrt_sq hpos]
  congr 1
  have : ao * (Real.cos E - e) * (ao * (Real.cos E - e)) +
      ao * (Real.sqrt (1.0 - e * e) * Real.sin E) *
        (ao * (Real.sqrt (1.0 - e * e) * Real.sin E)) =
      ao ^ 2 * ((Real.cos E - e) ^ 2 + Real.sqrt (1.0 - e * e) ^ 2 * Real.sin E ^ 2) := by ring
  rw [this, hq]
  have hs : Real.sin E ^ 2 = 1 - Real.cos E ^ 2 := by linarith
  rw [hs]
  ring

theorem heliocentric_bounds (el : Elements) (Eo : ℝ) (hao : 0 < el.ao) (h0 : 0 ≤ el.eco)
    (h1 : el.eco ≤ 0.21) :
    el.ao * (1 - el.eco) ≤ (heliocentric el Eo).ro ∧
    (heliocentric el Eo).ro ≤ el.ao * (1 + el.eco) ∧
    |Real.sin (heliocentric el Eo).lat| ≤ |Real.sin el.io| ∧
    0 ≤ Real.cos (heliocentric el Eo).lat := by
  have hro := orbit_radius el.ao el.eco Eo hao h0 h1
  have c1 := Real.cos_le_one Eo
  have c2 := Real.neg_one_le_cos Eo
  have ha := mul_le_mul_of_nonneg_left c1 h0
  have hb := mul_le_mul_of_nonneg_left c2 h0
  have hf1 : 1 - el.eco ≤ 1 - el.eco * Real.cos Eo := by linarith
  have hf2 : 1 - el.eco * Real.cos Eo ≤ 1 + el.eco := by linarith
  have hpos : 0 < el.ao * (1 - el.eco * Real.cos Eo) := by
    have := (kepler_denominator el.eco Eo h0 h1).1
    have : 0 < 1 - el.eco * Real.cos Eo := by linarith
    positivity
  have b1 : el.ao * (1 - el.eco) ≤ el.ao * (1 - el.eco * Real.cos Eo) :=
    mul_le_mul_of_nonneg_left hf1 (le_of_lt hao)
  have b2 : el.ao * (1 - el.eco * Real.cos Eo) ≤ el.ao * (1 + el.eco) :=
    mul_le_mul_of_nonneg_left hf2 (le_of_lt hao)
  simp only [heliocentric]
  rw [hro]
  generalize el.ao * (1 - el.eco * Real.cos Eo) = ro at hpos b1 b2 ⊢
  generalize atan2 (el.ao * (Real.sqrt (1.0 - el.eco * el.eco) * Real.sin Eo))
      (el.ao * (Real.cos Eo - el.eco)) + el.wo = u
  have hN := Real.sin_sq_add_cos_sq el.No
  have hU := Real.sin_sq_add_cos_sq u
  have hI := Real.sin_sq_add_cos_sq el.io
  generalize hxh : ro * (Real.cos el.No * Real.cos u -
    Real.sin el.No * Real.sin u * Real.cos el.io) = xh
  generalize hyh : ro * (Real.sin el.No * Real.cos u +
    Real.cos el.No * Real.sin u * Real.cos el.io) = yh
  have hsum : Real.sqrt (xh * xh + yh * yh) ^ 2 + (ro * (Real.sin u * Real.sin el.io)) ^ 2 =
      ro ^ 2 := by
    rw [Real.sq_sqrt (add_nonneg (mul_self_nonneg _) (mul_self_nonneg _))]
    have : xh * xh + yh * yh + (ro * (Real.sin u * Real.sin el.io)) ^ 2 =
        ro ^ 2 * ((Real.sin el.No ^ 2 + Real.cos el.No ^ 2) *
          (Real.cos u ^ 2 + Real.sin u ^ 2 * Real.cos el.io ^ 2) +
          Real.sin u ^ 2 * Real.sin el.io ^ 2) := by
      rw [← hxh, ← hyh]
      ring
    rw [this, hN]
    have e1 : Real.cos u ^ 2 = 1 - Real.sin u ^ 2 := by linarith
    have e2 : Real.cos el.io ^ 2 = 1 - Real.sin el.io ^ 2 := by linarith
    rw [e1, e2]
    ring
  obtain ⟨hs, hc⟩ := atan2_sin_cos (ro * (Real.sin u * Real.sin el.io))
    (Real.sqrt (xh * xh + yh * yh)) ro (Real.sqrt_nonneg _) hpos hsum
  refine ⟨b1, b2, ?_, ?_⟩
  · have e3 : ro * (Real.sin u * Real.sin el.io) / ro = Real.sin u * Real.sin el.io := by
      field_simp
    rw [hs, e3, abs_mul]
    have := mul_le_mul_of_nonneg_right (Real.abs_sin_le_one u) (abs_nonneg (Real.sin el.io))
    linarith
  · rw [hc]
    exact div_nonneg (Real.sqrt_nonneg _) (le_of_lt hpos)

/-! ## Lemmas: the geocentric vector stays near the ecliptic -/

theorem shifted_latitude (lat δ ι δm : ℝ) (hs : |Real.sin lat| ≤ ι) (hc : 0 ≤ Real.cos lat)
    (hδ : |δ| ≤ δm) (hι : ι ≤ 1) (hδm : δm ≤ 1) :
    |Real.sin (lat + δ)| ≤ ι + δm ∧
    (1 - ι ^ 2) * (1 - δm ^ 2 / 2) - ι * δm ≤ Real.cos (lat + δ) := by
  have hι0 : 0 ≤ ι := le_trans (abs_nonneg _) hs
  have hδ0 : 0 ≤ δm := le_trans (abs_nonneg _) hδ
  have hsd : |Real.sin δ| ≤ δm := le_trans Real.abs_sin_le_abs hδ
  have hcd1 := Real.abs_cos_le_one δ
  have hcl1 := Real.cos_le_one lat
  have hsq := Real.sin_sq_add_cos_sq lat
  have hs2 : Real.sin lat ^ 2 ≤ ι ^ 2 := by
    rw [← sq_abs (Real.sin lat)]
    exact pow_le_pow_left₀ (abs_nonneg _) hs 2
  have hcl : 1 - ι ^ 2 ≤ Real.cos lat := by
    have := mul_nonneg hc (by linarith : 0 ≤ 1 - Real.cos lat)
    linarith
  have hδsq : δ ^ 2 ≤ δm ^ 2 := by
    rw [← sq_abs δ]
    exact pow_le_pow_left₀ (abs_nonneg _) hδ 2
  have hcd : 1 - δm ^ 2 / 2 ≤ Real.cos δ := by
    have := Real.one_sub_sq_div_two_le_cos (x := δ)
    linarith
  have hcd0 : 0 ≤ 1 - δm ^ 2 / 2 := by
    have := mul_le_mul hδm hδm hδ0 (by norm_num : (0 : ℝ) ≤ 1)
    linarith
  have hι2 : 0 ≤ 1 - ι ^ 2 := by
    have := mul_le_mul hι hι hι0 (by norm_num : (0 : ℝ) ≤ 1)
    linarith
  constructor
  · rw [Real.sin_add]
    have t1 : |Real.sin lat * Real.cos δ| ≤ ι := by
      rw [abs_mul]
      have := mul_le_mul hs hcd1 (abs_nonneg _) hι0
      linarith
    have t2 : |Real.cos lat * Real.sin δ| ≤ δm := by
      rw [abs_mul, abs_of_nonneg hc]
      have := mul_le_mul hcl1 hsd (abs_nonneg _) (by norm_num : (0 : ℝ) ≤ 1)
      linarith
    exact le_trans (abs_add _ _) (add_le_add t1 t2)
  · rw [Real.cos_add]
    have t1 : (1 - ι ^ 2) * (1 - δm ^ 2 / 2) ≤ Real.cos lat * Real.cos δ :=
      mul_le_mul hcl hcd hcd0 hc
    have t2 : Real.sin lat * Real.sin δ ≤ ι * δm := by
      have : |Real.sin lat * Real.sin δ| ≤ ι * δm := by
        rw [abs_mul]
        exact mul_le_mul hs hsd (abs_nonneg _) hι0
      exact le_trans (le_abs_self _) this
    linarith

theorem geocentric_flat_planet (ro lat lon L rmin rmax σ γ : ℝ) (hr1 : rmin ≤ ro)
    (hr2 : ro ≤ rmax) (hrmin : 0 < rmin) (hs : |Real.sin lat| ≤ σ) (hc : γ ≤ Real.cos lat)
    (hγ : 0 < γ)
    (hcond : (rmax < 1 ∧ (rmax * σ) ^ 2 ≤ 0.08 * (1 - rmax) ^ 2) ∨
      (1 < rmin * γ ∧ (rmax * σ) ^ 2 ≤ 0.08 * (rmin * γ - 1) ^ 2)) :
    NearEcliptic (ro * Real.cos lon * Real.cos lat + 1.0 * Real.cos L,
      ro * Real.sin lon * Real.cos lat + 1.0 * Real.sin L, ro * Real.sin lat) := by
  have hro : 0 < ro := lt_of_lt_of_le hrmin hr1
  have hσ0 : 0 ≤ σ := le_trans (abs_nonneg _) hs
  have hcl1 := Real.cos_le_one lat
  have hcl0 : 0 < Real.cos lat := lt_of_lt_of_le hγ hc
  have hA1 : rmin * γ ≤ ro * Real.cos lat := mul_le_mul hr1 hc (le_of_lt hγ) (le_of_lt hro)
  have hA2 : ro * Real.cos lat ≤ rmax := by
    have : ro * Real.cos lat ≤ ro * 1 := mul_le_mul_of_nonneg_left hcl1 (le_of_lt hro)
    linarith
  have hA0 : 0 < ro * Real.cos lat := mul_pos hro hcl0
  have hz : (ro * Real.sin lat) ^ 2 ≤ (rmax * σ) ^ 2 := by
    rw [← sq_abs (ro * Real.sin lat), abs_mul, abs_of_pos hro]
    apply pow_le_pow_left₀ (by positivity)
    exact mul_le_mul hr2 hs (abs_nonneg _) (le_trans (le_of_lt hro) hr2)
  have hcos : -1 ≤ Real.cos (lon - L) := Real.neg_one_le_cos _
  rw [Real.cos_sub] at hcos
  have h1 := Real.sin_sq_add_cos_sq lon
  have h2 := Real.sin_sq_add_cos_sq L
  have hρ : (ro * Real.cos lat - 1) ^ 2 ≤
      (ro * Real.cos lon * Real.cos lat + 1.0 * Real.cos L) ^ 2 +
        (ro * Real.sin lon * Real.cos lat + 1.0 * Real.sin L) ^ 2 := by
    have e : (ro * Real.cos lon * Real.cos lat + 1.0 * Real.cos L) ^ 2 +
        (ro * Real.sin lon * Real.cos lat + 1.0 * Real.sin L) ^ 2 =
        (ro * Real.cos lat) ^ 2 * (Real.sin lon ^ 2 + Real.cos lon ^ 2) +
          (Real.sin L ^ 2 + Real.cos L ^ 2) +
          2 * (ro * Real.cos lat) * (Real.cos lon * Real.cos L + Real.sin lon * Real.sin L) := by
      rw [show (1.0 : ℝ) = 1 by norm_num]
      ring
    rw [e, h1, h2]
    have : 0 ≤ 2 * (ro * Real.cos lat) *
        (1 + (Real.cos lon * Real.cos L + Real.sin lon * Real.sin L)) :=
      mul_nonneg (by linarith) (by linarith)
    linarith
  unfold NearEcliptic
  simp only
  rcases hcond with ⟨c1, c2⟩ | ⟨c1, c2⟩
  · have hd : 0 < 1 - rmax := by linarith
    have hd2 : 1 - rmax ≤ 1 - ro * Real.cos lat := by linarith
    have h3 : (1 - rmax) ^ 2 ≤ (1 - ro * Real.cos lat) ^ 2 :=
      pow_le_pow_left₀ (le_of_lt hd) hd2 2
    have h4 : (1 - ro * Real.cos lat) ^ 2 = (ro * Real.cos lat - 1) ^ 2 := by ring
    have h5 : 0 < (1 - rmax) ^ 2 := by positivity
    constructor <;> linarith
  · have hd : 0 < rmin * γ - 1 := by linarith
    have hd2 : rmin * γ - 1 ≤ ro * Real.cos lat - 1 := by linarith
    have h3 : (rmin * γ - 1) ^ 2 ≤ (ro * Real.cos lat - 1) ^ 2 :=
      pow_le_pow_left₀ (le_of_lt hd) hd2 2
    have h5 : 0 < (rmin * γ - 1) ^ 2 := by positivity
    constructor <;> linarith

theorem geocentric_flat_moon (ro lat lon σ γ : ℝ) (hro : 0 < ro) (hs : |Real.sin lat| ≤ σ)
    (hc : γ ≤ Real.cos lat) (hγ : 0 < γ) (hcond : σ ^ 2 ≤ 0.08 * γ ^ 2) :
    NearEcliptic (ro * Real.cos lon * Real.cos lat, ro * Real.sin lon * Real.cos lat,
      ro * Real.sin lat) := by
  have h1 := Real.sin_sq_add_cos_sq lon
  have e : (ro * Real.cos lon * Real.cos lat) ^ 2 + (ro * Real.sin lon * Real.cos lat) ^ 2 =
      ro ^ 2 * Real.cos lat ^ 2 * (Real.sin lon ^ 2 + Real.cos lon ^ 2) := by ring
  unfold NearEcliptic
  simp only
  rw [e, h1, mul_one]
  have hs2 : Real.sin lat ^ 2 ≤ σ ^ 2 := by
    rw [← sq_abs (Real.sin lat)]
    exact pow_le_pow_left₀ (abs_nonneg _) hs 2
  have hc2 : γ ^ 2 ≤ Real.cos lat ^ 2 := pow_le_pow_left₀ (le_of_lt hγ) hc 2
  have hcl0 : 0 < Real.cos lat := lt_of_lt_of_le hγ hc
  have e2 : (ro * Real.sin lat) ^ 2 = ro ^ 2 * Real.sin lat ^ 2 := by ring
  have hr2 : 0 < ro ^ 2 := by positivity
  constructor
  · positivity
  · rw [e2]
    have : Real.sin lat ^ 2 ≤ 0.08 * Real.cos lat ^ 2 := by linarith
    have := mul_le_mul_of_nonneg_left this (le_of_lt hr2)
    linarith

theorem perturb_planet_ro (object : Int) (d : ℝ) (p : Ecliptic) :
    (perturb_planet object d p).ro = p.ro := by
  unfold perturb_planet
  simp only
  split_ifs <;> rfl

theorem perturb_planet_lat (object : Int) (d : ℝ) (p : Ecliptic) :
    |(perturb_planet object d p).lat - p.lat| ≤ (if object = 6 then 0.038 else 0) := by
  unfold perturb_planet
  simp only
  by_cases h5 : object = 5
  · have h6 : ¬ object = 6 := by omega
    rw [if_pos h5, if_neg h6]
    simp
  · by_cases h6 : object = 6
    · rw [if_neg h5, if_pos h6, if_pos h6]
      have c := abs_le.mp (Real.abs_cos_le_one
        (2 * (0.347233254684272 + 1.450112046753E-3 * d) -
          4 * (5.53211777016887 + 5.837118978783E-4 * d) - 0.0349065850398866))
      have s := abs_le.mp (Real.abs_sin_le_one
        (2 * (0.347233254684272 + 1.450112046753E-3 * d) -
          6 * (5.53211777016887 + 5.837118978783E-4 * d) - 0.855211333477221))
      rw [abs_le]
      constructor <;> linarith [c.1, c.2, s.1, s.2]
    · by_cases h7 : object = 7
      · rw [if_neg h5, if_neg h6, if_pos h7, if_neg h6]
        simp
      · rw [if_neg h5, if_neg h6, if_neg h7, if_neg h6]
        simp

theorem perturb_moon_lat (s : SunState) (el : Elements) (p : Ecliptic) :
    |(perturb_moon s el p).lat - p.lat| ≤ 0.0057 := by
  unfold perturb_moon
  simp only
  generalize el.Mo + el.wo + el.No - el.No = F
  generalize el.Mo + el.wo + el.No - (s.Ms + s.ws) = ddo
  have s1 := abs_le.mp (Real.abs_sin_le_one (F - 2 * ddo))
  have s2 := abs_le.mp (Real.abs_sin_le_one (el.Mo - F - 2 * ddo))
  have s3 := abs_le.mp (Real.abs_sin_le_one (el.Mo + F - 2 * ddo))
  have s4 := abs_le.mp (Real.abs_sin_le_one (F + 2 * ddo))
  have s5 := abs_le.mp (Real.abs_sin_le_one (2 * el.Mo + F))
  rw [abs_le]
  constructor <;> linarith [s1.1, s1.2, s2.1, s2.2, s3.1, s3.2, s4.1, s4.2, s5.1, s5.2]

theorem perturb_moon_ro (s : SunState) (el : Elements) (p : Ecliptic) :
    p.ro - 1.04 ≤ (perturb_moon s el p).ro := by
  unfold perturb_moon
  simp only
  generalize el.Mo + el.wo + el.No - (s.Ms + s.ws) = ddo
  have c1 := Real.cos_le_one (el.Mo - 2 * ddo)
  have c2 := Real.cos_le_one (2 * ddo)
  linarith

/-! ## Lemmas: every object of `getPlanet` stays near the ecliptic -/

theorem day_number_range (now : Int) (h0 : 0 ≤ now) (h1 : now < 2 ^ 32) :
    -11000 ≤ day_number now ∧ day_number now ≤ 40000 := by
  have a0 : (0 : ℝ) ≤ (now : ℝ) := by exact_mod_cast h0
  have a1 : (now : ℝ) < 4294967296 := by exact_mod_cast h1
  have e : day_number now = ((now : ℝ) - 946684800) * (1 / 86400) + 1 := by
    unfold day_number
    norm_num
    ring
  rw [e]
  constructor <;> linarith

theorem obliquity_sin_sq (d : ℝ) (h0 : -11000 ≤ d) (h1 : d ≤ 40000) :
    Real.sin (0.409092959362707 + 6.218608124856E-9 * d) ^ 2 ≤ 0.1681 := by
  have h := Real.sin_sq_le_sq (x := 0.409092959362707 + 6.218608124856E-9 * d)
  have b1 : 0 ≤ 0.409092959362707 + 6.218608124856E-9 * d := by norm_num; linarith
  have b2 : 0.409092959362707 + 6.218608124856E-9 * d ≤ 0.41 := by norm_num; linarith
  have : (0.409092959362707 + 6.218608124856E-9 * d) ^ 2 ≤ 0.41 ^ 2 :=
    pow_le_pow_left₀ b1 b2 2
  norm_num at this ⊢
  linarith

theorem sun_as (d : ℝ) : (sun d).as = 1.0 := rfl

theorem sun_zg (d : ℝ) : (sun d).zg = 0 := rfl

theorem sun_flat (d : ℝ) (h0 : -11000 ≤ d) (h1 : d ≤ 40000) :
    NearEcliptic ((sun d).xg, (sun d).yg, (sun d).zg) := by
  have he0 : (0 : ℝ) ≤ 0.016709 - 1.151E-09 * d := by norm_num; linarith
  have he1 : (0.016709 : ℝ) - 1.151E-09 * d ≤ 0.21 := by norm_num; linarith
  have hro := orbit_radius 1.0 (0.016709 - 1.151E-09 * d)
    (6.21419244184825 + 1.720196961933E-2 * d +
      (0.016709 - 1.151E-09 * d) * Real.sin (6.21419244184825 + 1.720196961933E-2 * d) *
        (1.0 + (0.016709 - 1.151E-09 * d) *
          Real.cos (6.21419244184825 + 1.720196961933E-2 * d))) (by norm_num) he0 he1
  unfold NearEcliptic
  simp only [sun]
  rw [hro]
  generalize (6.21419244184825 + 1.720196961933E-2 * d +
      (0.016709 - 1.151E-09 * d) * Real.sin (6.21419244184825 + 1.720196961933E-2 * d) *
        (1.0 + (0.016709 - 1.151E-09 * d) *
          Real.cos (6.21419244184825 + 1.720196961933E-2 * d))) = E
  generalize atan2 _ _ + _ = lonsun
  have c1 := Real.cos_le_one E
  have c2 := Real.neg_one_le_cos E
  have hpos : 0 < 1.0 * (1 - (0.016709 - 1.151E-09 * d) * Real.cos E) := by
    have : 0 < 1 - (0.016709 - 1.151E-09 * d) * Real.cos E := by nlinarith
    norm_num
    linarith
  generalize 1.0 * (1 - (0.016709 - 1.151E-09 * d) * Real.cos E) = ro at hpos
  have hsc := Real.sin_sq_add_cos_sq lonsun
  have e : (ro * Real.cos lonsun) ^ 2 + (ro * Real.sin lonsun) ^ 2 =
      ro ^ 2 * (Real.sin lonsun ^ 2 + Real.cos lonsun ^ 2) := by ring
  rw [e, hsc, mul_one]
  have : 0 < ro ^ 2 := by positivity
  constructor
  · exact this
  · norm_num
    linarith

theorem planet_flat (object : Int) (h3 : object ≠ 3) (d : ℝ) (el : Elements) (Eo : ℝ)
    (rmin rmax ι δm : ℝ)
    (hao : 0 < el.ao) (he0 : 0 ≤ el.eco) (he1 : el.eco ≤ 0.21)
    (hrmin : rmin ≤ el.ao * (1 - el.eco)) (hrmax : el.ao * (1 + el.eco) ≤ rmax)
    (hrpos : 0 < rmin) (hio : |el.io| ≤ ι) (hι : ι ≤ 1)
    (hδ : (if object = 6 then (0.038 : ℝ) else 0) ≤ δm) (hδm : δm ≤ 1)
    (hγ : 0 < (1 - ι ^ 2) * (1 - δm ^ 2 / 2) - ι * δm)
    (hcond : (rmax < 1 ∧ (rmax * (ι + δm)) ^ 2 ≤ 0.08 * (1 - rmax) ^ 2) ∨
      (1 < rmin * ((1 - ι ^ 2) * (1 - δm ^ 2 / 2) - ι * δm) ∧
        (rmax * (ι + δm)) ^ 2 ≤
          0.08 * (rmin * ((1 - ι ^ 2) * (1 - δm ^ 2 / 2) - ι * δm) - 1) ^ 2)) :
    NearEcliptic (geocentric object (sun d) (perturb_planet object d (heliocentric el Eo))) := by
  obtain ⟨r1, r2, hs, hc⟩ := heliocentric_bounds el Eo hao he0 he1
  have hro := perturb_planet_ro object d (heliocentric el Eo)
  have hlat := perturb_planet_lat object d (heliocentric el Eo)
  have hsin : |Real.sin (heliocentric el Eo).lat| ≤ ι :=
    le_trans hs (le_trans Real.abs_sin_le_abs hio)
  have hshift := shifted_latitude (heliocentric el Eo).lat
    ((perturb_planet object d (heliocentric el Eo)).lat - (heliocentric el Eo).lat) ι δm hsin hc
    (le_trans hlat hδ) hι hδm
  rw [add_sub_cancel] at hshift
  obtain ⟨hs2, hc2⟩ := hshift
  simp only [geocentric, if_neg h3, sun_as, hro]
  exact geocentric_flat_planet _ _ _ _ rmin rmax (ι + δm) _ (le_trans hrmin r1)
    (le_trans r2 hrmax) hrpos hs2 hc2 hγ hcond

theorem moon_flat (d : ℝ) (el : Elements) (Eo : ℝ)
    (hao : 0 < el.ao) (he0 : 0 ≤ el.eco) (he1 : el.eco ≤ 0.21) (hio : |el.io| ≤ 0.0899)
    (hr : 1.04 < el.ao * (1 - el.eco)) :
    NearEcliptic (geocentric 3 (sun d) (perturb_planet 3 d
      (perturb_moon (sun d) el (heliocentric el Eo)))) := by
  obtain ⟨r1, _, hs, hc⟩ := heliocentric_bounds el Eo hao he0 he1
  have hp : ∀ p, perturb_planet 3 d p = p := by
    intro p
    unfold perturb_planet
    norm_num
  have hlat := perturb_moon_lat (sun d) el (heliocentric el Eo)
  have hro := perturb_moon_ro (sun d) el (heliocentric el Eo)
  have hsin : |Real.sin (heliocentric el Eo).lat| ≤ 0.0899 :=
    le_trans hs (le_trans Real.abs_sin_le_abs hio)
  have hshift := shifted_latitude (heliocentric el Eo).lat
    ((perturb_moon (sun d) el (heliocentric el Eo)).lat - (heliocentric el Eo).lat)
    0.0899 0.0057 hsin hc hlat (by norm_num) (by norm_num)
  rw [add_sub_cancel] at hshift
  obtain ⟨hs2, hc2⟩ := hshift
  rw [hp]
  simp only [geocentric, if_true]
  exact geocentric_flat_moon _ _ _ (0.0899 + 0.0057) _ (by linarith) hs2 hc2 (by norm_num)
    (by norm_num)

theorem getPlanet_sun (fuel : Nat) (now : Int) :
    getPlanet fuel 0 now = some (equatorial (day_number now)
      ((sun (day_number now)).xg, (sun (day_number now)).yg, (sun (day_number now)).zg)) := by
  simp [getPlanet]

theorem getPlanet_object (fuel : Nat) (object now : Int) (el : Elements) (Eo : ℝ)
    (h0 : object ≠ 0) (hel : elements object (day_number now) = some el)
    (hE : eccentric_anomaly fuel el.eco el.Mo = some Eo) :
    getPlanet fuel object now = some (equatorial (day_number now)
      (geocentric object (sun (day_number now)) (perturb_planet object (day_number now)
        (if object = 3 then perturb_moon (sun (day_number now)) el (heliocentric el Eo)
          else heliocentric el Eo)))) := by
  simp only [getPlanet, if_neg h0, hel, Option.some_bind, hE]

theorem mercury_flat (d : ℝ) (h0 : -11000 ≤ d) (h1 : d ≤ 40000) (Eo : ℝ) (el : Elements)
    (hel : elements 1 d = some el) :
    0 ≤ el.eco ∧ el.eco ≤ 0.21 ∧
    NearEcliptic (geocentric 1 (sun d) (perturb_planet 1 d (heliocentric el Eo))) := by
  rw [elements, if_pos rfl] at hel
  simp only [Option.some.injEq] at hel
  subst hel
  have he0 : (0 : ℝ) ≤ 0.205635 + 5.59E-10 * d := by norm_num; linarith
  have he1 : (0.205635 + 5.59E-10 * d : ℝ) ≤ 0.21 := by norm_num; linarith
  refine ⟨he0, he1, ?_⟩
  refine planet_flat 1 (by decide) d _ Eo 0.3 0.467 0.1223 0 ?_ he0 he1 ?_ ?_ ?_ ?_ ?_ ?_ ?_
    ?_ ?_
  · norm_num
    try linarith
  · norm_num
    nlinarith
  · norm_num
    nlinarith
  · norm_num
  · rw [abs_le]
    constructor <;> norm_num <;> linarith
  · norm_num
  · norm_num
  · norm_num
  · norm_num
  · norm_num

theorem venus_flat (d : ℝ) (h0 : -11000 ≤ d) (h1 : d ≤ 40000) (Eo : ℝ) (el : Elements)
    (hel : elements 2 d = some el) :
    0 ≤ el.eco ∧ el.eco ≤ 0.21 ∧
    NearEcliptic (geocentric 2 (sun d) (perturb_planet 2 d (heliocentric el Eo))) := by
  rw [elements, if_neg (by decide), if_pos rfl] at hel
  simp only [Option.some.injEq] at hel
  subst hel
  have he0 : (0 : ℝ) ≤ 0.006773 - 1.302E-9 * d := by norm_num; linarith
  have he1 : (0.006773 - 1.302E-9 * d : ℝ) ≤ 0.21 := by norm_num; linarith
  refine ⟨he0, he1, ?_⟩
  refine planet_flat 2 (by decide) d _ Eo 0.7 0.7283 0.0593 0 ?_ he0 he1 ?_ ?_ ?_ ?_ ?_ ?_ ?_
    ?_ ?_
  · norm_num
    try linarith
  · norm_num
    nlinarith
  · norm_num
    nlinarith
  · norm_num
  · rw [abs_le]
    constructor <;> norm_num <;> linarith
  · norm_num
  · norm_num
  · norm_num
  · norm_num
  · norm_num

theorem mars_flat (d : ℝ) (h0 : -11000 ≤ d) (h1 : d ≤ 40000) (Eo : ℝ) (el : Elements)
    (hel : elements 4 d = some el) :
    0 ≤ el.eco ∧ el.eco ≤ 0.21 ∧
    NearEcliptic (geocentric 4 (sun d) (perturb_planet 4 d (heliocentric el Eo))) := by
  rw [elements, if_neg (by decide), if_neg (by decide), if_neg (by decide), if_pos rfl] at hel
  simp only [Option.some.injEq] at hel
  subst hel
  have he0 : (0 : ℝ) ≤ 0.093405 + 2.516E-9 * d := by norm_num; linarith
  have he1 : (0.093405 + 2.516E-9 * d : ℝ) ≤ 0.21 := by norm_num; linarith
  refine ⟨he0, he1, ?_⟩
  refine planet_flat 4 (by decide) d _ Eo 1.381 1.6662 0.0323 0 ?_ he0 he1 ?_ ?_ ?_ ?_ ?_ ?_ ?_
    ?_ ?_
  · norm_num
    try linarith
  · norm_num
    nlinarith
  · norm_num
    nlinarith
  · norm_num
  · rw [abs_le]
    constructor <;> norm_num <;> linarith
  · norm_num
  · norm_num
  · norm_num
  · norm_num
  · norm_num

theorem jupiter_flat (d : ℝ) (h0 : -11000 ≤ d) (h1 : d ≤ 40000) (Eo : ℝ) (el : Elements)
    (hel : elements 5 d = some el) :
    0 ≤ el.eco ∧ el.eco ≤ 0.21 ∧
    NearEcliptic (geocentric 5 (sun d) (perturb_planet 5 d (heliocentric el Eo))) := by
  rw [elements, if_neg (by decide), if_neg (by decide), if_neg (by decide), if_neg (by decide), if_pos rfl] at hel
  simp only [Option.some.injEq] at hel
  subst hel
  have he0 : (0 : ℝ) ≤ 0.048498 + 4.469E-9 * d := by norm_num; linarith
  have he1 : (0.048498 + 4.469E-9 * d : ℝ) ≤ 0.21 := by norm_num; linarith
  refine ⟨he0, he1, ?_⟩
  refine planet_flat 5 (by decide) d _ Eo 4.9 5.5 0.023 0 ?_ he0 he1 ?_ ?_ ?_ ?_ ?_ ?_ ?_
    ?_ ?_
  · norm_num
    try linarith
  · norm_num
    nlinarith
  · norm_num
    nlinarith
  · norm_num
  · rw [abs_le]
    constructor <;> norm_num <;> linarith
  · norm_num
  · norm_num
  · norm_num
  · norm_num
  · norm_num

theorem saturn_flat (d : ℝ) (h0 : -11000 ≤ d) (h1 : d ≤ 40000) (Eo : ℝ) (el : Elements)
    (hel : elements 6 d = some el) :
    0 ≤ el.eco ∧ el.eco ≤ 0.21 ∧
    NearEcliptic (geocentric 6 (sun d) (perturb_planet 6 d (heliocentric el Eo))) := by
  rw [elements, if_neg (by decide), if_neg (by decide), if_neg (by decide), if_neg (by decide), if_neg (by decide), if_pos rfl] at hel
  simp only [Option.some.injEq] at hel
  subst hel
  have he0 : (0 : ℝ) ≤ 0.055546 - 9.499E-9 * d := by norm_num; linarith
  have he1 : (0.055546 - 9.499E-9 * d : ℝ) ≤ 0.21 := by norm_num; linarith
  refine ⟨he0, he1, ?_⟩
  refine planet_flat 6 (by decide) d _ Eo 9.0 10.1 0.0435 0.038 ?_ he0 he1 ?_ ?_ ?_ ?_ ?_ ?_ ?_
    ?_ ?_
  · norm_num
    try linarith
  · norm_num
    nlinarith
  · norm_num
    nlinarith
  · norm_num
  · rw [abs_le]
    constructor <;> norm_num <;> linarith
  · norm_num
  · norm_num
  · norm_num
  · norm_num
  · norm_num

theorem uranus_flat (d : ℝ) (h0 : -11000 ≤ d) (h1 : d ≤ 40000) (Eo : ℝ) (el : Elements)
    (hel : elements 7 d = some el) :
    0 ≤ el.eco ∧ el.eco ≤ 0.21 ∧
    NearEcliptic (geocentric 7 (sun d) (perturb_planet 7 d (heliocentric el Eo))) := by
  rw [elements, if_neg (by decide), if_neg (by decide), if_neg (by decide), if_neg (by decide), if_neg (by decide), if_neg (by decide), if_pos rfl] at hel
  simp only [Option.some.injEq] at hel
  subst hel
  have he0 : (0 : ℝ) ≤ 0.047318 + 7.45E-9 * d := by norm_num; linarith
  have he1 : (0.047318 + 7.45E-9 * d : ℝ) ≤ 0.21 := by norm_num; linarith
  refine ⟨he0, he1, ?_⟩
  refine planet_flat 7 (by decide) d _ Eo 18 20.2 0.0136 0 ?_ he0 he1 ?_ ?_ ?_ ?_ ?_ ?_ ?_
    ?_ ?_
  · norm_num
    try linarith
  · norm_num
    nlinarith
  · norm_num
    nlinarith
  · norm_num
  · rw [abs_le]
    constructor <;> norm_num <;> linarith
  · norm_num
  · norm_num
  · norm_num
  · norm_num
  · norm_num

theorem neptune_flat (d : ℝ) (h0 : -11000 ≤ d) (h1 : d ≤ 40000) (Eo : ℝ) (el : Elements)
    (hel : elements 8 d = some el) :
    0 ≤ el.eco ∧ el.eco ≤ 0.21 ∧
    NearEcliptic (geocentric 8 (sun d) (perturb_planet 8 d (heliocentric el Eo))) := by
  rw [elements, if_neg (by decide), if_neg (by decide), if_neg (by decide), if_neg (by decide), if_neg (by decide), if_neg (by decide), if_neg (by decide), if_pos rfl] at hel
  simp only [Option.some.injEq] at hel
  subst hel
  have he0 : (0 : ℝ) ≤ 0.008606 + 2.15E-9 * d := by norm_num; linarith
  have he1 : (0.008606 + 2.15E-9 * d : ℝ) ≤ 0.21 := by norm_num; linarith
  refine ⟨he0, he1, ?_⟩
  refine planet_flat 8 (by decide) d _ Eo 29 30.4 0.031 0 ?_ he0 he1 ?_ ?_ ?_ ?_ ?_ ?_ ?_
    ?_ ?_
  · norm_num
    try linarith
  · norm_num
    nlinarith
  · norm_num
    nlinarith
  · norm_num
  · rw [abs_le]
    constructor <;> norm_num <;> linarith
  · norm_num
  · norm_num
  · norm_num
  · norm_num
  · norm_num


theorem moon_elements_flat (d : ℝ) (Eo : ℝ) (el : Elements) (hel : elements 3 d = some el) :
    0 ≤ el.eco ∧ el.eco ≤ 0.21 ∧
    NearEcliptic (geocentric 3 (sun d) (perturb_planet 3 d
      (perturb_moon (sun d) el (heliocentric el Eo)))) := by
  rw [elements, if_neg (by decide), if_neg (by decide), if_pos rfl] at hel
  simp only [Option.some.injEq] at hel
  subst hel
  have he0 : (0 : ℝ) ≤ 0.0549 := by norm_num
  have he1 : (0.0549 : ℝ) ≤ 0.21 := by norm_num
  refine ⟨he0, he1, ?_⟩
  refine moon_flat d _ Eo ?_ he0 he1 ?_ ?_
  · norm_num
  · rw [abs_le]
    constructor <;> norm_num
  · norm_num

theorem elements_some (object : Int) (h1 : 1 ≤ object) (h8 : object ≤ 8) (d : ℝ) :
    ∃ el, elements object d = some el := by
  unfold elements
  split_ifs
  all_goals first
    | exact ⟨_, rfl⟩
    | (exfalso; omega)

/-- For every object `1 .. 8` and every 32-bit time, `getPlanet` returns the conversion of
a geocentric vector that stays near the ecliptic. -/
theorem getPlanet_object_flat (object : Int) (h1 : 1 ≤ object) (h8 : object ≤ 8) (now : Int)
    (hn0 : 0 ≤ now) (hn1 : now < 2 ^ 32) (fuel : Nat) (hfuel : 3 ≤ fuel) :
    ∃ g : ℝ × ℝ × ℝ, getPlanet fuel object now = some (equatorial (day_number now) g) ∧
      NearEcliptic g := by
  obtain ⟨d0, d1⟩ := day_number_range now hn0 hn1
  obtain ⟨el, hel⟩ := elements_some object h1 h8 (day_number now)
  have hne : object ≠ 0 := by omega
  have hbounds : 0 ≤ el.eco ∧ el.eco ≤ 0.21 := by
    interval_cases object
    · exact ⟨(mercury_flat _ d0 d1 0 el hel).1, (mercury_flat _ d0 d1 0 el hel).2.1⟩
    · exact ⟨(venus_flat _ d0 d1 0 el hel).1, (venus_flat _ d0 d1 0 el hel).2.1⟩
    · exact ⟨(moon_elements_flat _ 0 el hel).1, (moon_elements_flat _ 0 el hel).2.1⟩
    · exact ⟨(mars_flat _ d0 d1 0 el hel).1, (mars_flat _ d0 d1 0 el hel).2.1⟩
    · exact ⟨(jupiter_flat _ d0 d1 0 el hel).1, (jupiter_flat _ d0 d1 0 el hel).2.1⟩
    · exact ⟨(saturn_flat _ d0 d1 0 el hel).1, (saturn_flat _ d0 d1 0 el hel).2.1⟩
    · exact ⟨(uranus_flat _ d0 d1 0 el hel).1, (uranus_flat _ d0 d1 0 el hel).2.1⟩
    · exact ⟨(neptune_flat _ d0 d1 0 el hel).1, (neptune_flat _ d0 d1 0 el hel).2.1⟩
  obtain ⟨Eo, hE⟩ := eccentric_anomaly_terminates el.eco el.Mo hbounds.1 hbounds.2 fuel hfuel
  refine ⟨_, getPlanet_object fuel object now el Eo hne hel hE, ?_⟩
  interval_cases object
  · rw [if_neg (by decide)]
    exact (mercury_flat _ d0 d1 Eo el hel).2.2
  · rw [if_neg (by decide)]
    exact (venus_flat _ d0 d1 Eo el hel).2.2
  · rw [if_pos rfl]
    exact (moon_elements_flat _ Eo el hel).2.2
  · rw [if_neg (by decide)]
    exact (mars_flat _ d0 d1 Eo el hel).2.2
  · rw [if_neg (by decide)]
    exact (jupiter_flat _ d0 d1 Eo el hel).2.2
  · rw [if_neg (by decide)]
    exact (saturn_flat _ d0 d1 Eo el hel).2.2
  · rw [if_neg (by decide)]
    exact (uranus_flat _ d0 d1 Eo el hel).2.2
  · rw [if_neg (by decide)]
    exact (neptune_flat _ d0 d1 Eo el hel).2.2


theorem getObject_planet (fuel : Nat) (index now : Int) (h : index ≤ 8) :
    getObject fuel index now = getPlanet fuel index now := by
  unfold getObject
  rw [if_neg (by omega), if_neg (by omega), if_neg (by omega), if_neg (by omega),
    if_neg (by omega), if_neg (by omega)]

/-- C10: range of the equatorial coordinates. For every valid object index `0 .. 14` and
every time of the 32-bit clock, `getObject` returns (the Kepler loop ends within three
iterations) a right ascension in `[0, 24)` hours and a declination in `[-90, 90]` degrees.
For the star indices `9 .. 14` these are the fixed table values; for the indices `0 .. 8`
they are the conversion of an equatorial vector `(xe, ye, ze)` with `sqrt (xe² + ye²) > 0`:
the right ascension is `atan2 (ye, xe) * 12 / pi` with 24 added when negative, and the
declination is `atan (ze / sqrt (xe² + ye²)) * 180 / pi`. Real arithmetic, `pi` the macro. -/
theorem getObject_range (index : Int) (h0 : 0 ≤ index) (h14 : index ≤ 14) (now : Int)
    (hn0 : 0 ≤ now) (hn1 : now < 2 ^ 32) (fuel : Nat) (hfuel : 3 ≤ fuel) :
    ∃ ra dc, getObject fuel index now = some (ra, dc) ∧
      0 ≤ ra ∧ ra < 24 ∧ -90 ≤ dc ∧ dc ≤ 90 ∧
      (index = 9 → ra = 14.261 ∧ dc = 19.182) ∧
      (index = 10 → ra = 18.616 ∧ dc = 38.784) ∧
      (index = 11 → ra = 11.062 ∧ dc = 61.751) ∧
      (index = 12 → ra = 5.278 ∧ dc = 45.998) ∧
      (index = 13 → ra = 7.577 ∧ dc = 31.888) ∧
      (index = 14 → ra = 3.7914 ∧ dc = 24.105) ∧
      (index ≤ 8 → ∃ xe ye ze : ℝ, 0 < Real.sqrt (xe * xe + ye * ye) ∧
        ra = (if atan2 ye xe * 12.0 / pi < 0.0 then atan2 ye xe * 12.0 / pi + 24.0
          else atan2 ye xe * 12.0 / pi) ∧
        dc = Real.arctan (ze / Real.sqrt (xe * xe + ye * ye)) * 180 / pi) := by
  by_cases h8 : index ≤ 8
  · obtain ⟨d0, d1⟩ := day_number_range now hn0 hn1
    have hg : ∃ g : ℝ × ℝ × ℝ, getPlanet fuel index now = some (equatorial (day_number now) g) ∧
        NearEcliptic g := by
      by_cases hz : index = 0
      · subst hz
        exact ⟨_, getPlanet_sun fuel now, sun_flat _ d0 d1⟩
      · exact getPlanet_object_flat index (by omega) h8 now hn0 hn1 fuel hfuel
    obtain ⟨g, hget, hflat⟩ := hg
    obtain ⟨r1, r2⟩ := equatorial_ra_range (day_number now) g
    obtain ⟨⟨c1, c2⟩, hpos⟩ := equatorial_dc_range (day_number now) g
      (obliquity_sin_sq _ d0 d1) hflat
    refine ⟨(equatorial (day_number now) g).1, (equatorial (day_number now) g).2, ?_, r1, r2,
      c1, c2, ?_, ?_, ?_, ?_, ?_, ?_, ?_⟩
    · rw [getObject_planet fuel index now h8, hget]
    · intro h; omega
    · intro h; omega
    · intro h; omega
    · intro h; omega
    · intro h; omega
    · intro h; omega
    · intro _
      exact ⟨_, _, _, hpos, equatorial_ra (day_number now) g, equatorial_dc (day_number now) g⟩
  · have h9 : 9 ≤ index := by omega
    unfold getObject
    interval_cases index
    · exact ⟨14.261, 19.182, by rw [if_pos rfl], by norm_num⟩
    · exact ⟨18.616, 38.784, by rw [if_neg (by decide), if_pos rfl], by norm_num⟩
    · exact ⟨11.062, 61.751, by rw [if_neg (by decide), if_neg (by decide), if_pos rfl],
        by norm_num⟩
    · exact ⟨5.278, 45.998,
        by rw [if_neg (by decide), if_neg (by decide), if_neg (by decide), if_pos rfl],
        by norm_num⟩
    · exact ⟨7.577, 31.888,
        by rw [if_neg (by decide), if_neg (by decide), if_neg (by decide), if_neg (by decide),
          if_pos rfl],
        by norm_num⟩
    · exact ⟨3.7914, 24.105,
        by rw [if_neg (by decide), if_neg (by decide), if_neg (by decide), if_neg (by decide),
          if_neg (by decide), if_pos rfl],
        by norm_num⟩

/-- C10, at the Moon (index 3) and at Vega (index 10) on 2019-01-01 00:00:00: `getObject`
returns coordinates in range, and for Vega the table values. -/
theorem getObject_range_witness :
    ((0 : Int) ≤ 3 ∧ (3 : Int) ≤ 14 ∧ (0 : Int) ≤ 1546300800 ∧ (1546300800 : Int) < 2 ^ 32 ∧
      3 ≤ 3) ∧
    (∃ ra dc, getObject 3 3 1546300800 = some (ra, dc) ∧
      0 ≤ ra ∧ ra < 24 ∧ -90 ≤ dc ∧ dc ≤ 90) ∧
    (∃ ra dc, getObject 3 10 1546300800 = some (ra, dc) ∧
      0 ≤ ra ∧ ra < 24 ∧ -90 ≤ dc ∧ dc ≤ 90 ∧ ra = 18.616 ∧ dc = 38.784) := by
  refine ⟨⟨by decide, by decide, by decide, by decide, le_refl 3⟩, ?_, ?_⟩
  · obtain ⟨ra, dc, h, a, b, c, d, -⟩ :=
      getObject_range 3 (by decide) (by decide) 1546300800 (by decide) (by decide) 3 (le_refl 3)
    exact ⟨ra, dc, h, a, b, c, d⟩
  · obtain ⟨ra, dc, h, a, b, c, d, -, h10, -⟩ :=
      getObject_range 10 (by decide) (by decide) 1546300800 (by decide) (by decide) 3 (le_refl 3)
    exact ⟨ra, dc, h, a, b, c, d, (h10 rfl).1, (h10 rfl).2⟩

/-! ## ds3231.cpp: the register round trip -/

namespace Ds3231

theorem int_of_eq (w : Nat) (hw : 1 ≤ w) (x : Int) (h0 : -2 ^ (w - 1) ≤ x) (h1 : x < 2 ^ (w - 1)) :
    int_of w x = x := by
  have e : (2 : Int) ^ w = 2 * 2 ^ (w - 1) := by
    rw [← pow_succ']; congr 1; omega
  unfold int_of
  rw [Int.emod_eq_of_lt (by omega) (by omega)]
  omega

theorem uint16_int_of (w : Nat) (hw : 16 ≤ w) (x : Int) : uint16 (int_of w x) = uint16 x := by
  have hd : (2 : Int) ^ 16 ∣ 2 ^ w := pow_dvd_pow 2 hw
  have hd2 : (2 : Int) ^ 16 ∣ 2 ^ (w - 1) + 2 ^ (w - 1) := by
    have e : (2 : Int) ^ w = 2 * 2 ^ (w - 1) := by
      rw [← pow_succ']; congr 1; omega
    rw [← two_mul, ← e]; exact hd
  unfold uint16 int_of
  have h := Int.emod_emod_of_dvd (x + 2 ^ (w - 1)) hd
  rw [Int.sub_emod, h, ← Int.sub_emod]
  simp

theorem half_range (w : Nat) (hw : 16 ≤ w) : (2 : Int) ^ 15 ≤ 2 ^ (w - 1) :=
  pow_le_pow_right₀ (by norm_num) (by omega)

end Ds3231

namespace Ds3231

theorem rtcWrite_alarm (w : Nat) (s : Nvram) (adr v : Int) :
    (rtcWrite w s adr v).alarm adr =
      { minute := uint8 (uint16 (int_of w (v + 2000)) % 60)
        hour := uint8 ((uint16 (int_of w (v + 2000)) / 60) % 24)
        day := uint8 (1 + uint16 (int_of w (v + 2000)) / (60 * 24)) } := by
  by_cases h : adr = 0 <;> simp [rtcWrite, Nvram.alarm, h]

theorem rtcRead_value (w : Nat) (s : Nvram) (adr : Int) :
    (rtcRead w s adr).1 =
      int_of w (uint16 (int_of w (((s.alarm adr).day - 1) * (60 * 24) + (s.alarm adr).hour * 60
        + (s.alarm adr).minute)) - 2000) := by
  by_cases h : adr = 0 <;> simp [rtcRead, Nvram.alarm, h]

theorem rtcRead_after_rtcWrite (w : Nat) (hw : 16 ≤ w) (s : Nvram) (adr v : Int)
    (h0 : -2000 ≤ v) (h1 : v ≤ 42639) (hv : v < 2 ^ (w - 1)) :
    (rtcRead w (rtcWrite w s adr v) adr).1 = v := by
  have hh := half_range w hw
  have key : ∀ x : Int, uint16 (int_of w x) = x % 65536 := by
    intro x; rw [uint16_int_of w hw]; rfl
  rw [rtcRead_value, rtcWrite_alarm, key, key]
  simp only [uint8]
  have hu : (v + 2000) % 65536 = v + 2000 := Int.emod_eq_of_lt (by omega) (by omega)
  rw [hu]
  have hm : (v + 2000) % 60 % 2 ^ 8 = (v + 2000) % 60 :=
    Int.emod_eq_of_lt (by omega) (by omega)
  have hh : (v + 2000) / 60 % 24 % 2 ^ 8 = (v + 2000) / 60 % 24 :=
    Int.emod_eq_of_lt (by omega) (by omega)
  have hd : (1 + (v + 2000) / (60 * 24)) % 2 ^ 8 = 1 + (v + 2000) / (60 * 24) :=
    Int.emod_eq_of_lt (by omega) (by omega)
  have hq : (v + 2000) / (60 * 24) = (v + 2000) / 60 / 24 := by omega
  have e : (1 + (v + 2000) / (60 * 24) - 1) * (60 * 24) + (v + 2000) / 60 % 24 * 60
      + (v + 2000) % 60 = v + 2000 := by omega
  rw [hm, hh, hd, e, hu, show v + 2000 - 2000 = v by omega]
  exact int_of_eq w (by omega) v (by omega) hv

theorem rtcRead_other (w : Nat) (s : Nvram) (adr adr2 v : Int) (h : ¬ (adr = 0 ↔ adr2 = 0)) :
    (rtcRead w (rtcWrite w s adr v) adr2).1 = (rtcRead w s adr2).1 := by
  by_cases h1 : adr = 0 <;> by_cases h2 : adr2 = 0 <;> simp [h1, h2] at h <;>
    simp [rtcRead, rtcWrite, h1, h2]

/-- On values in the allowed range the byte level refines the register store of `step_to`:
a write changes the integer of the addressed register set to the written value and leaves
the other one as it was. -/
theorem toRtc_rtcWrite (w : Nat) (hw : 16 ≤ w) (s : Nvram) (adr v : Int)
    (h0 : -2000 ≤ v) (h1 : v ≤ 42639) (hv : v < 2 ^ (w - 1)) :
    (rtcWrite w s adr v).toRtc w = StarTracker.rtcWrite (s.toRtc w) adr v := by
  have hr := rtcRead_after_rtcWrite w hw s adr v h0 h1 hv
  by_cases ha : adr = 0
  · subst ha
    have ho := rtcRead_other w s 0 1 v (by decide)
    simp only [Nvram.toRtc, StarTracker.rtcWrite, if_true, hr, ho]
  · have ho := rtcRead_other w s adr 0 v (by simp [ha])
    have hr1 : (rtcRead w (rtcWrite w s adr v) 1).1 = v := by
      have e : ∀ t : Nvram, (rtcRead w t 1).1 = (rtcRead w t adr).1 := by
        intro t; simp [rtcRead, ha]
      rw [e, hr]
    simp only [Nvram.toRtc, StarTracker.rtcWrite, ha, if_false, hr1, ho]

/-- C11. Persisted-register round trip. For an `int` of `w ≥ 16` bits, every `int` value `v`
in `[-2000, 42639]` and every register address: `rtcRead` returns `v` after `rtcWrite` of
`v`, and the three stored bytes are valid alarm-register values (minute `0..59`, hour
`0..23`, day of month `1..31`). The range is tight: writing `42640` stores day of month 32,
and writing `-2001` stores day of month 46. -/
theorem rtcRead_rtcWrite_round_trip (w : Nat) (hw : 16 ≤ w) (s : Nvram) (adr v : Int)
    (h0 : -2000 ≤ v) (h1 : v ≤ 42639) (hv : v < 2 ^ (w - 1)) :
    (rtcRead w (rtcWrite w s adr v) adr).1 = v ∧
    ((rtcWrite w s adr v).alarm adr).valid ∧
    ((rtcWrite w s adr 42640).alarm adr).day = 32 ∧
    ((rtcWrite w s adr (-2001)).alarm adr).day = 46 := by
  have hh := half_range w hw
  have key : ∀ x : Int, uint16 (int_of w x) = x % 65536 := by
    intro x; rw [uint16_int_of w hw]; rfl
  refine ⟨rtcRead_after_rtcWrite w hw s adr v h0 h1 hv, ?_, ?_, ?_⟩
  · rw [rtcWrite_alarm, key]
    simp only [Mhd.valid, uint8]
    omega
  · rw [rtcWrite_alarm, key]; simp only [uint8]; norm_num
  · rw [rtcWrite_alarm, key]; simp only [uint8]; norm_num

/-- C11, at the lower end of the range: `v = -2000` on register set 1, with an `int` of
16 bits. -/
theorem rtcRead_rtcWrite_round_trip_witness :
    (16 ≤ 16 ∧ (-2000 : Int) ≤ -2000 ∧ (-2000 : Int) ≤ 42639 ∧ (-2000 : Int) < 2 ^ (16 - 1)) ∧
    (rtcRead 16 (rtcWrite 16 ⟨⟨0, 0, 0⟩, ⟨0, 0, 1⟩, ⟨0, 0, 1⟩⟩ 1 (-2000)) 1).1 = -2000 ∧
    ((rtcWrite 16 ⟨⟨0, 0, 0⟩, ⟨0, 0, 1⟩, ⟨0, 0, 1⟩⟩ 1 (-2000)).alarm 1).valid ∧
    ((rtcWrite 16 ⟨⟨0, 0, 0⟩, ⟨0, 0, 1⟩, ⟨0, 0, 1⟩⟩ 1 42640).alarm 1).day = 32 ∧
    ((rtcWrite 16 ⟨⟨0, 0, 0⟩, ⟨0, 0, 1⟩, ⟨0, 0, 1⟩⟩ 1 (-2001)).alarm 1).day = 46 :=
  ⟨⟨by decide, by decide, by decide, by decide⟩,
    rtcRead_rtcWrite_round_trip 16 (by decide) ⟨⟨0, 0, 0⟩, ⟨0, 0, 1⟩, ⟨0, 0, 1⟩⟩ 1 (-2000)
      (by decide) (by decide) (by decide)⟩

end Ds3231

/-! ## stepper.cpp: the coil table -/

/-- C12. Coil-energization table of `step_energize`. For mode 0, 1, 2, 3 the pins
`first .. first + 3` are driven to (H,H,L,L), (H,L,L,H), (L,L,H,H), (L,H,H,L); each of
the four patterns has exactly two high pins, which are cyclically adjacent; the four
patterns are pairwise distinct; the patterns of cyclically consecutive modes share
exactly one high pin; for every other mode all four pins are driven low; and the pins
written are `first, first + 1, first + 2, first + 3` and no other. -/
theorem step_energize_table (motor_pin_first mode : Int) :
    step_energize motor_pin_first 0 =
      [(motor_pin_first, true), (motor_pin_first + 1, true),
       (motor_pin_first + 2, false), (motor_pin_first + 3, false)] ∧
    step_energize motor_pin_first 1 =
      [(motor_pin_first, true), (motor_pin_first + 1, false),
       (motor_pin_first + 2, false), (motor_pin_first + 3, true)] ∧
    step_energize motor_pin_first 2 =
      [(motor_pin_first, false), (motor_pin_first + 1, false),
       (motor_pin_first + 2, true), (motor_pin_first + 3, true)] ∧
    step_energize motor_pin_first 3 =
      [(motor_pin_first, false), (motor_pin_first + 1, true),
       (motor_pin_first + 2, true), (motor_pin_first + 3, false)] ∧
    (mode < 0 ∨ 3 < mode → step_energize motor_pin_first mode =
      [(motor_pin_first, false), (motor_pin_first + 1, false),
       (motor_pin_first + 2, false), (motor_pin_first + 3, false)]) ∧
    written_pins motor_pin_first mode =
      [motor_pin_first, motor_pin_first + 1, motor_pin_first + 2, motor_pin_first + 3] ∧
    (0 ≤ mode ∧ mode ≤ 3 → ∃ a b, high_pins motor_pin_first mode = [a, b] ∧ a ≠ b ∧
      cyclically_adjacent a b) ∧
    (∀ other : Int, 0 ≤ mode ∧ mode ≤ 3 → 0 ≤ other ∧ other ≤ 3 → mode ≠ other →
      (step_energize motor_pin_first mode).map (fun c => c.2) ≠
        (step_energize motor_pin_first other).map (fun c => c.2)) ∧
    (0 ≤ mode ∧ mode ≤ 3 → ∃ shared,
      (high_pins motor_pin_first mode).filter
        (fun q => decide (q ∈ high_pins motor_pin_first ((mode + 1) % 4))) = [shared]) := by
  refine ⟨by simp [step_energize], by simp [step_energize], by simp [step_energize],
    by simp [step_energize], ?_, ?_, ?_, ?_, ?_⟩
  · intro h
    have h0 : mode ≠ 0 := by omega
    have h1 : mode ≠ 1 := by omega
    have h2 : mode ≠ 2 := by omega
    have h3 : mode ≠ 3 := by omega
    simp [step_energize, h0, h1, h2, h3]
  · unfold written_pins step_energize
    split_ifs <;> rfl
  · rintro ⟨h0, h3⟩
    have hm : mode = 0 ∨ mode = 1 ∨ mode = 2 ∨ mode = 3 := by omega
    rcases hm with h | h | h | h <;> subst h
    · exact ⟨motor_pin_first, motor_pin_first + 1, by simp [high_pins, step_energize],
        by omega, Or.inl (by omega)⟩
    · exact ⟨motor_pin_first, motor_pin_first + 3, by simp [high_pins, step_energize],
        by omega, Or.inr (by omega)⟩
    · exact ⟨motor_pin_first + 2, motor_pin_first + 3, by simp [high_pins, step_energize],
        by omega, Or.inl (by omega)⟩
    · exact ⟨motor_pin_first + 1, motor_pin_first + 2, by simp [high_pins, step_energize],
        by omega, Or.inl (by omega)⟩
  · rintro other ⟨h0, h3⟩ ⟨g0, g3⟩ hne
    have hm : mode = 0 ∨ mode = 1 ∨ mode = 2 ∨ mode = 3 := by omega
    have ho : other = 0 ∨ other = 1 ∨ other = 2 ∨ other = 3 := by omega
    rcases hm with h | h | h | h <;> rcases ho with g | g | g | g <;> subst h <;> subst g <;>
      first
        | exact absurd rfl hne
        | simp [step_energize]
  · rintro ⟨h0, h3⟩
    have hm : mode = 0 ∨ mode = 1 ∨ mode = 2 ∨ mode = 3 := by omega
    rcases hm with h | h | h | h <;> subst h
    · exact ⟨motor_pin_first, by simp [high_pins, step_energize]⟩
    · exact ⟨motor_pin_first + 3, by simp [high_pins, step_energize]⟩
    · exact ⟨motor_pin_first + 2, by simp [high_pins, step_energize]⟩
    · exact ⟨motor_pin_first + 1, by simp [high_pins, step_energize]⟩

/-! ## The sidereal clock without wrap-around -/

theorem atan2_zero_neg (x : ℝ) (hx : x < 0) : atan2 0 x = Real.pi := by
  unfold atan2
  rw [if_neg (not_lt.mpr hx.le), if_pos hx, if_pos le_rfl]
  simp

/-- C14, the input at which the azimuth leaves `[0, 360)`: an object on the meridian
(hour angle 0) at declination 45 degrees, seen from latitude 0. There `tmp_y = 0` and
`tmp_x < 0`, `atan2` returns its largest value, and the azimuth returned by `transform`
is `(atan2 (0, tmp_x) + pi) / pi * 180`, which is not below 360. -/
theorem transform_azimuth_meridian :
    (transform 0 45 0 0).1 = (Real.pi + pi) / pi * 180 ∧ 360 ≤ (transform 0 45 0 0).1 ∧
    ¬ (0 ≤ (transform 0 45 0 0).1 ∧ (transform 0 45 0 0).1 < 360) := by
  have hpi : (0 : ℝ) < pi := pi_pos
  have hs : 0 < Real.sin (45 / 180.0 * pi) := by
    apply Real.sin_pos_of_pos_of_lt_pi
    · positivity
    · have := Real.pi_gt_three
      have : (pi : ℝ) < 4 := by unfold pi; norm_num
      linarith
  have e : (transform 0 45 0 0).1 = (Real.pi + pi) / pi * 180 := by
    simp only [transform]
    have hx : Real.cos (0 - 0 / 12.00 * pi) * Real.cos (45 / 180.0 * pi) * Real.sin (0 / 180.0 * pi)
        - Real.sin (45 / 180.0 * pi) * Real.cos (0 / 180.0 * pi) < 0 := by
      simp
      exact hs
    have hy : Real.sin (0 - 0 / 12.00 * pi) * Real.cos (45 / 180.0 * pi) = 0 := by simp
    rw [hy, atan2_zero_neg _ hx]
  have h360 : 360 ≤ (Real.pi + pi) / pi * 180 := by
    rw [div_mul_eq_mul_div, le_div_iff₀ hpi]
    have := pi_macro_lt_pi
    linarith
  refine ⟨e, e ▸ h360, ?_⟩
  rintro ⟨-, h⟩
  rw [e] at h
  linarith

/-! ## The loop after the slop is re-added -/

theorem filter_isPhase_step_events (cal : Bool) (pin adr : Int) (ps : List Int) :
    (ps.flatMap (step_events cal pin adr)).filter (Event.isPhase pin) =
      ps.map (fun q => Event.energize pin (and3 q)) := by
  induction ps with
  | nil => rfl
  | cons q ps ih =>
    have h := and3_range q
    rw [List.flatMap_cons, List.filter_append, ih]
    cases cal <;> simp [step_events, Event.isPhase, List.filter_cons, h.1, h.2]

/-- C15, the input at which the claim fails: slop 3, azimuth at position 3 with
remaining delta -1 (the state that `step_to (5, 0, false)` reaches from the persisted
position 10 after seven iterations). The iteration steps to 2, the delta returns to zero
and the slop is re-added, so the delta is 3; the loop then issues three further steps on
the azimuth axis, to the positions 3, 4 and 5. -/
theorem backlash_takeup_further_steps :
    start_delta 3 false 5 10 = -8 ∧
    Nat.iterate (fun s => (step_body 3 false s).1) 7 ⟨10, -8, 0, 0, ⟨10, 0⟩⟩ =
      ⟨3, -1, 0, 0, ⟨3, 0⟩⟩ ∧
    (step_body 3 false ⟨3, -1, 0, 0, ⟨3, 0⟩⟩).1.step_delta_azimuth = 3 ∧
    steps_after 3 3 motor_pin_azimuth ⟨3, -1, 0, 0, ⟨3, 0⟩⟩ =
      some [Event.energize 2 3, Event.energize 2 0, Event.energize 2 1] ∧
    steps_after 3 3 motor_pin_azimuth ⟨3, -1, 0, 0, ⟨3, 0⟩⟩ ≠ some [] := by
  refine ⟨by decide, by decide, by decide, by decide, by decide⟩

theorem path_length_up (q slop : Int) (hs : 0 ≤ slop) : (path q (q + slop)).length = slop.toNat := by
  rw [path_length]
  omega

/-- C15, amended. In the loop of `step_to` with `calibrating = false` and slop `s > 0`:
when the negative delta of an axis returns to zero (it is -1 before the iteration), the
iteration steps the axis to `position - 1` and re-adds the slop, so the remaining delta is
`s`; the loop then issues exactly `s` further steps on that axis, all in the positive
direction, to the positions `position, .., position - 1 + s`, where the axis comes to
rest. -/
theorem backlash_takeup_steps (slop : Int) (hs : 0 < slop) (st : Locals) (fuel : Nat)
    (hfuel : max (iterations_left slop false (next_delta slop false st.step_delta_azimuth))
      (iterations_left slop false (next_delta slop false st.step_delta_altitude)) ≤ fuel) :
    (st.step_delta_azimuth = -1 →
      (step_body slop false st).1.step_delta_azimuth = slop ∧
      (step_body slop false st).1.step_position_azimuth = st.step_position_azimuth - 1 ∧
      steps_after slop fuel motor_pin_azimuth st =
        some ((path (st.step_position_azimuth - 1) (st.step_position_azimuth - 1 + slop)).map
          (fun q => Event.energize motor_pin_azimuth (and3 q))) ∧
      (path (st.step_position_azimuth - 1) (st.step_position_azimuth - 1 + slop)).length
        = slop.toNat ∧
      ∃ s2 iters, step_loop slop false fuel (step_body slop false st).1 = some (s2, iters) ∧
        s2.step_position_azimuth = st.step_position_azimuth - 1 + slop) ∧
    (st.step_delta_altitude = -1 →
      (step_body slop false st).1.step_delta_altitude = slop ∧
      (step_body slop false st).1.step_position_altitude = st.step_position_altitude - 1 ∧
      steps_after slop fuel motor_pin_altitude st =
        some ((path (st.step_position_altitude - 1) (st.step_position_altitude - 1 + slop)).map
          (fun q => Event.energize motor_pin_altitude (and3 q))) ∧
      (path (st.step_position_altitude - 1) (st.step_position_altitude - 1 + slop)).length
        = slop.toNat ∧
      ∃ s2 iters, step_loop slop false fuel (step_body slop false st).1 = some (s2, iters) ∧
        s2.step_position_altitude = st.step_position_altitude - 1 + slop) := by
  obtain ⟨b1, b2, b3, b4⟩ := step_body_locals slop false st
  rw [← b2, ← b4] at hfuel
  obtain ⟨s2, iters, h, -, -, -, p1, p2, e1, e2, -, -⟩ :=
    step_loop_spec slop false hs.le fuel (step_body slop false st).1 hfuel
  constructor
  · intro hd
    have d1 : (step_body slop false st).1.step_delta_azimuth = slop := by
      rw [b2, hd]; simp [next_delta]
    have q1 : (step_body slop false st).1.step_position_azimuth = st.step_position_azimuth - 1 := by
      rw [b1, hd]; simp [next_position]
    refine ⟨d1, q1, ?_, path_length_up _ _ hs.le, s2, iters, h, ?_⟩
    · rw [steps_after, h, Option.map_some', ← filter_isPhase_axisEvents motor_pin_azimuth 0, e1,
        filter_isPhase_step_events, d1, q1, positions_ahead, if_pos (Or.inl hs.le)]
    · rw [p1, d1, q1, rest_position, if_pos (Or.inl hs.le)]
  · intro hd
    have d1 : (step_body slop false st).1.step_delta_altitude = slop := by
      rw [b4, hd]; simp [next_delta]
    have q1 : (step_body slop false st).1.step_position_altitude = st.step_position_altitude - 1 := by
      rw [b3, hd]; simp [next_position]
    refine ⟨d1, q1, ?_, path_length_up _ _ hs.le, s2, iters, h, ?_⟩
    · rw [steps_after, h, Option.map_some', ← filter_isPhase_axisEvents motor_pin_altitude 1, e2,
        filter_isPhase_step_events, d1, q1, positions_ahead, if_pos (Or.inl hs.le)]
    · rw [p2, d1, q1, rest_position, if_pos (Or.inl hs.le)]

/-- C15, amended, at slop 3 with the azimuth at position 3 and remaining delta -1: the
delta becomes 3 and three further steps follow, to the positions 3, 4 and 5. -/
theorem backlash_takeup_steps_witness :
    ((0 : Int) < 3 ∧
      max (iterations_left 3 false (next_delta 3 false (-1)))
        (iterations_left 3 false (next_delta 3 false 0)) ≤ 3) ∧
    (step_body 3 false ⟨3, -1, 0, 0, ⟨3, 0⟩⟩).1.step_delta_azimuth = 3 ∧
    steps_after 3 3 motor_pin_azimuth ⟨3, -1, 0, 0, ⟨3, 0⟩⟩ =
      some ((path 2 5).map (fun q => Event.energize motor_pin_azimuth (and3 q))) := by
  have h := (backlash_takeup_steps 3 (by decide) ⟨3, -1, 0, 0, ⟨3, 0⟩⟩ 3 (by decide)).1 rfl
  exact ⟨⟨by decide, by decide⟩, h.1, h.2.2.1⟩

/-! ## Termination of the loop -/

theorem iterations_left_ne_zero (slop : Int) (cal : Bool) (delta : Int)
    (h : 0 < iterations_left slop cal delta) : delta ≠ 0 := by
  intro h0
  rw [h0, iterations_left_zero] at h
  omega

theorem step_loop_short (slop : Int) (cal : Bool) (hs : 0 ≤ slop) :
    ∀ (fuel : Nat) (s : Locals),
      fuel < max (iterations_left slop cal s.step_delta_azimuth)
        (iterations_left slop cal s.step_delta_altitude) →
      step_loop slop cal fuel s = none := by
  intro fuel
  induction fuel with
  | zero =>
    intro s h
    have hne : s.step_delta_azimuth ≠ 0 ∨ s.step_delta_altitude ≠ 0 := by
      rcases lt_max_iff.mp h with h1 | h1
      · exact Or.inl (iterations_left_ne_zero slop cal _ h1)
      · exact Or.inr (iterations_left_ne_zero slop cal _ h1)
    rw [step_loop]
    simp only [hne, if_true]
  | succ fuel ih =>
    intro s h
    obtain ⟨-, b2, -, b4⟩ := step_body_locals slop cal s
    have hne : s.step_delta_azimuth ≠ 0 ∨ s.step_delta_altitude ≠ 0 := by
      rcases lt_max_iff.mp h with h1 | h1
      · exact Or.inl (iterations_left_ne_zero slop cal _ (by omega))
      · exact Or.inr (iterations_left_ne_zero slop cal _ (by omega))
    have hlt : fuel < max (iterations_left slop cal (step_body slop cal s).1.step_delta_azimuth)
        (iterations_left slop cal (step_body slop cal s).1.step_delta_altitude) := by
      rw [b2, b4]
      rcases lt_max_iff.mp h with h1 | h1
      · have := iterations_left_next slop cal s.step_delta_azimuth hs
          (iterations_left_ne_zero slop cal _ (by omega))
        refine lt_max_iff.mpr (Or.inl ?_)
        omega
      · have := iterations_left_next slop cal s.step_delta_altitude hs
          (iterations_left_ne_zero slop cal _ (by omega))
        refine lt_max_iff.mpr (Or.inr ?_)
        omega
    rw [step_loop_more slop cal fuel s hne, ih _ hlt]
    rfl

/-- C16. Termination of the step loop. For every pair of persisted positions, every pair
of targets, every slop `s ≥ 0` and either value of `calibrating`: with `d = target -
persisted` and, for each axis, `n = |d|` if `d ≥ 0` or calibrating and `n = |d| + 2 * s`
otherwise, the loop of `step_to`, run from the deltas that `step_to` computes, ends after
exactly `max (n_az, n_al)` iterations with both deltas zero. Any fuel of at least that many
iterations gives this result, a smaller one does not let the loop finish, and `step_to`
itself returns after that many iterations. -/
theorem step_loop_terminates (slop : Int) (hs : 0 ≤ slop) (calibrating : Bool) (rtc : Rtc)
    (t_az t_al : Int) (fuel : Nat) :
    ((loop_iterations slop calibrating (t_az - rtcRead rtc 0) : Int) =
      if 0 ≤ t_az - rtcRead rtc 0 ∨ calibrating = true then |t_az - rtcRead rtc 0|
      else |t_az - rtcRead rtc 0| + 2 * slop) ∧
    ((loop_iterations slop calibrating (t_al - rtcRead rtc 1) : Int) =
      if 0 ≤ t_al - rtcRead rtc 1 ∨ calibrating = true then |t_al - rtcRead rtc 1|
      else |t_al - rtcRead rtc 1| + 2 * slop) ∧
    (max (loop_iterations slop calibrating (t_az - rtcRead rtc 0))
        (loop_iterations slop calibrating (t_al - rtcRead rtc 1)) ≤ fuel →
      (∃ s2 iters, step_loop slop calibrating fuel
          { step_position_azimuth := rtcRead rtc 0
            step_delta_azimuth := start_delta slop calibrating t_az (rtcRead rtc 0)
            step_position_altitude := rtcRead rtc 1
            step_delta_altitude := start_delta slop calibrating t_al (rtcRead rtc 1)
            rtc := rtc } = some (s2, iters) ∧
        s2.step_delta_azimuth = 0 ∧ s2.step_delta_altitude = 0 ∧
        iters.length = max (loop_iterations slop calibrating (t_az - rtcRead rtc 0))
          (loop_iterations slop calibrating (t_al - rtcRead rtc 1))) ∧
      ∃ out, step_to slop fuel rtc t_az t_al calibrating = some out ∧
        out.iterations.length = max (loop_iterations slop calibrating (t_az - rtcRead rtc 0))
          (loop_iterations slop calibrating (t_al - rtcRead rtc 1))) ∧
    (fuel < max (loop_iterations slop calibrating (t_az - rtcRead rtc 0))
        (loop_iterations slop calibrating (t_al - rtcRead rtc 1)) →
      step_loop slop calibrating fuel
          { step_position_azimuth := rtcRead rtc 0
            step_delta_azimuth := start_delta slop calibrating t_az (rtcRead rtc 0)
            step_position_altitude := rtcRead rtc 1
            step_delta_altitude := start_delta slop calibrating t_al (rtcRead rtc 1)
            rtc := rtc } = none) := by
  have f : ∀ d : Int, (loop_iterations slop calibrating d : Int) =
      if 0 ≤ d ∨ calibrating = true then |d| else |d| + 2 * slop := by
    intro d
    unfold loop_iterations
    split_ifs
    · simp
    · push_cast
      rw [Int.toNat_of_nonneg hs]
  refine ⟨f _, f _, ?_, ?_⟩
  · intro hfuel
    constructor
    · have hfuel2 := hfuel
      rw [← iterations_left_start slop calibrating _ _ hs,
        ← iterations_left_start slop calibrating _ _ hs] at hfuel2
      obtain ⟨s2, iters, h, hl, z1, z2, -⟩ := step_loop_spec slop calibrating hs fuel
        { step_position_azimuth := rtcRead rtc 0
          step_delta_azimuth := start_delta slop calibrating t_az (rtcRead rtc 0)
          step_position_altitude := rtcRead rtc 1
          step_delta_altitude := start_delta slop calibrating t_al (rtcRead rtc 1)
          rtc := rtc } hfuel2
      refine ⟨s2, iters, h, z1, z2, ?_⟩
      rw [hl, iterations_left_start slop calibrating _ _ hs,
        iterations_left_start slop calibrating _ _ hs]
    · obtain ⟨out, h, hl, -⟩ := step_to_spec slop calibrating hs fuel rtc t_az t_al hfuel
      exact ⟨out, h, hl⟩
  · intro hlt
    apply step_loop_short slop calibrating hs
    rw [iterations_left_start slop calibrating _ _ hs,
      iterations_left_start slop calibrating _ _ hs]
    exact hlt

/-- C16, at slop 3 from the persisted positions (10, 0) to the targets (5, 2), not
calibrating: `max (5 + 2 * 3, 2) = 11` iterations. -/
theorem step_loop_terminates_witness :
    (0 : Int) ≤ 3 ∧
    max (loop_iterations 3 false (5 - rtcRead ⟨10, 0⟩ 0))
      (loop_iterations 3 false (2 - rtcRead ⟨10, 0⟩ 1)) = 11 ∧
    (∃ s2 iters, step_loop 3 false 11 ⟨10, start_delta 3 false 5 10, 0, start_delta 3 false 2 0,
        ⟨10, 0⟩⟩ = some (s2, iters) ∧
      s2.step_delta_azimuth = 0 ∧ s2.step_delta_altitude = 0 ∧ iters.length = 11) ∧
    step_loop 3 false 10 ⟨10, start_delta 3 false 5 10, 0, start_delta 3 false 2 0, ⟨10, 0⟩⟩
      = none := by
  have h := step_loop_terminates 3 (by decide) false ⟨10, 0⟩ 5 2
  obtain ⟨s2, iters, h1, h2, h3, h4⟩ := ((h 11).2.2.1 (by decide)).1
  exact ⟨by decide, by decide, ⟨s2, iters, h1, h2, h3, h4⟩, (h 10).2.2.2 (by decide)⟩

/-! ## The off commands -/

theorem off_not_mem_step_events (cal : Bool) (p pin adr q : Int) :
    Event.energize p 99 ∉ step_events cal pin adr q := by
  have h := and3_range q
  have h99 : (99 : Int) ≠ and3 q := by omega
  cases cal <;> simp [step_events, h99]

theorem step_body_events (slop : Int) (cal : Bool) (s : Locals) :
    (step_body slop cal s).2 =
      ((if s.step_delta_azimuth = 0 then [] else step_events cal motor_pin_azimuth 0
          (next_position s.step_position_azimuth s.step_delta_azimuth)) ++
        (if s.step_delta_altitude = 0 then [] else step_events cal motor_pin_altitude 1
          (next_position s.step_position_altitude s.step_delta_altitude))) ++
      ((if next_delta slop cal s.step_delta_azimuth = 0
          then [Event.energize motor_pin_azimuth 99] else []) ++
        (if next_delta slop cal s.step_delta_altitude = 0
          then [Event.energize motor_pin_altitude 99] else [])) := by
  simp [step_body, step_axis_eq]

theorem step_body_off (slop : Int) (cal : Bool) (s : Locals) :
    (Event.energize motor_pin_azimuth 99 ∈ (step_body slop cal s).2 ↔
      next_delta slop cal s.step_delta_azimuth = 0) ∧
    (Event.energize motor_pin_altitude 99 ∈ (step_body slop cal s).2 ↔
      next_delta slop cal s.step_delta_altitude = 0) := by
  rw [step_body_events]
  have n1 := off_not_mem_step_events cal motor_pin_azimuth motor_pin_azimuth 0
  have n2 := off_not_mem_step_events cal motor_pin_azimuth motor_pin_altitude 1
  have n3 := off_not_mem_step_events cal motor_pin_altitude motor_pin_azimuth 0
  have n4 := off_not_mem_step_events cal motor_pin_altitude motor_pin_altitude 1
  have hp : motor_pin_azimuth ≠ motor_pin_altitude := by decide
  constructor
  · by_cases h1 : s.step_delta_azimuth = 0 <;> by_cases h2 : s.step_delta_altitude = 0 <;>
      by_cases h3 : next_delta slop cal s.step_delta_azimuth = 0 <;>
      by_cases h4 : next_delta slop cal s.step_delta_altitude = 0 <;>
      simp [h1, h2, h3, h4, n1, n2, hp]
  · by_cases h1 : s.step_delta_azimuth = 0 <;> by_cases h2 : s.step_delta_altitude = 0 <;>
      by_cases h3 : next_delta slop cal s.step_delta_azimuth = 0 <;>
      by_cases h4 : next_delta slop cal s.step_delta_altitude = 0 <;>
      simp [h1, h2, h3, h4, n3, n4, hp.symm]

theorem step_body_ends (slop : Int) (cal : Bool) (s : Locals)
    (h1 : next_delta slop cal s.step_delta_azimuth = 0)
    (h2 : next_delta slop cal s.step_delta_altitude = 0) :
    ∃ pre, (step_body slop cal s).2 =
      pre ++ [Event.energize motor_pin_azimuth 99, Event.energize motor_pin_altitude 99] := by
  rw [step_body_events, h1, h2]
  exact ⟨_, rfl⟩

theorem step_loop_off (slop : Int) (cal : Bool) :
    ∀ (fuel : Nat) (s s2 : Locals) (iters : List (List Event)),
      step_loop slop cal fuel s = some (s2, iters) →
      (∀ pre evs post, iters = pre ++ evs :: post →
        (Event.energize motor_pin_azimuth 99 ∈ evs ↔
          Nat.iterate (next_delta slop cal) (pre.length + 1) s.step_delta_azimuth = 0) ∧
        (Event.energize motor_pin_altitude 99 ∈ evs ↔
          Nat.iterate (next_delta slop cal) (pre.length + 1) s.step_delta_altitude = 0)) ∧
      ((s.step_delta_azimuth ≠ 0 ∨ s.step_delta_altitude ≠ 0) →
        ∃ pre, iters.flatten =
          pre ++ [Event.energize motor_pin_azimuth 99, Event.energize motor_pin_altitude 99]) := by
  intro fuel
  induction fuel with
  | zero =>
    intro s s2 iters h
    by_cases hne : s.step_delta_azimuth ≠ 0 ∨ s.step_delta_altitude ≠ 0
    · rw [step_loop] at h
      simp only [hne, if_true] at h
      exact absurd h (by simp)
    · push_neg at hne
      rw [step_loop_done slop cal 0 s hne.1 hne.2] at h
      simp only [Option.some.injEq, Prod.mk.injEq] at h
      obtain ⟨-, rfl⟩ := h
      refine ⟨?_, ?_⟩
      · intro pre evs post hp
        exact absurd hp (by simp)
      · intro hc
        rcases hc with hc | hc
        · exact absurd hne.1 hc
        · exact absurd hne.2 hc
  | succ fuel ih =>
    intro s s2 iters h
    by_cases hne : s.step_delta_azimuth ≠ 0 ∨ s.step_delta_altitude ≠ 0
    · rw [step_loop_more slop cal fuel s hne] at h
      obtain ⟨b1, b2, b3, b4⟩ := step_body_locals slop cal s
      cases hrec : step_loop slop cal fuel (step_body slop cal s).1 with
      | none => rw [hrec] at h; exact absurd h (by simp)
      | some r =>
        obtain ⟨s3, iters3⟩ := r
        rw [hrec] at h
        simp only [Option.map_some', Option.some.injEq, Prod.mk.injEq] at h
        obtain ⟨-, rfl⟩ := h
        obtain ⟨ih1, ih2⟩ := ih _ _ _ hrec
        refine ⟨?_, ?_⟩
        · intro pre evs post hp
          cases pre with
          | nil =>
            simp only [List.nil_append, List.cons.injEq] at hp
            obtain ⟨rfl, -⟩ := hp
            simpa using step_body_off slop cal s
          | cons e pre =>
            simp only [List.cons_append, List.cons.injEq] at hp
            obtain ⟨-, hp⟩ := hp
            have := ih1 pre evs post hp
            rw [b2, b4] at this
            simpa [Function.iterate_succ_apply] using this
        · intro _
          by_cases hne3 : (step_body slop cal s).1.step_delta_azimuth ≠ 0 ∨
              (step_body slop cal s).1.step_delta_altitude ≠ 0
          · obtain ⟨pre, hpre⟩ := ih2 hne3
            exact ⟨(step_body slop cal s).2 ++ pre, by
              rw [List.flatten_cons, hpre, List.append_assoc]⟩
          · push_neg at hne3
            rw [step_loop_done slop cal fuel _ hne3.1 hne3.2] at hrec
            simp only [Option.some.injEq, Prod.mk.injEq] at hrec
            obtain ⟨-, rfl⟩ := hrec
            rw [b2] at hne3
            rw [b4] at hne3
            obtain ⟨pre, hpre⟩ := step_body_ends slop cal s hne3.1 hne3.2
            exact ⟨pre, by simp [hpre]⟩
    · push_neg at hne
      rw [step_loop_done slop cal _ s hne.1 hne.2] at h
      simp only [Option.some.injEq, Prod.mk.injEq] at h
      obtain ⟨-, rfl⟩ := h
      refine ⟨?_, ?_⟩
      · intro pre evs post hp
        exact absurd hp (by simp)
      · intro hc
        rcases hc with hc | hc
        · exact absurd hne.1 hc
        · exact absurd hne.2 hc

theorem coils_append (a b : List Event) : ∀ pins : Int → Bool,
    coils pins (a ++ b) = coils (coils pins a) b := by
  induction a with
  | nil => intro pins; rfl
  | cons e a ih =>
    intro pins
    cases e with
    | energize p m => exact ih _
    | write c v => exact ih _

theorem coils_off_off (pins : Int → Bool) (q : Int) (h2 : 2 ≤ q) (h9 : q ≤ 9) :
    coils pins [Event.energize motor_pin_azimuth 99, Event.energize motor_pin_altitude 99] q
      = false := by
  have hq : q = 2 ∨ q = 3 ∨ q = 4 ∨ q = 5 ∨ q = 6 ∨ q = 7 ∨ q = 8 ∨ q = 9 := by omega
  rcases hq with h | h | h | h | h | h | h | h <;> subst h <;>
    simp [coils, drive, step_energize, motor_pin_azimuth, motor_pin_altitude]

theorem start_delta_eq_zero (slop : Int) (hs : 0 ≤ slop) (cal : Bool) (t p : Int) :
    start_delta slop cal t p = 0 ↔ t = p := by
  unfold start_delta
  cases cal <;> simp <;> (try split_ifs) <;> omega

/-- C17. De-energizing on completion. For every move of `step_to` that is not a no-op
(a target differs from the persisted position), with slop `≥ 0`: no off command is sent
before the loop; in each loop iteration an axis is sent the off pattern (mode 99) exactly
when its remaining delta after the iteration is zero; the last two events of the call are
the off commands to the azimuth and to the altitude axis, so the last coil command to
each axis is the off pattern; and whatever the pin levels were before the call, the eight
coil outputs, pins 2 to 9, are low when `step_to` returns. -/
theorem step_to_de_energizes (slop : Int) (hs : 0 ≤ slop) (calibrating : Bool) (rtc : Rtc)
    (t_az t_al : Int) (fuel : Nat)
    (hfuel : max (loop_iterations slop calibrating (t_az - rtcRead rtc 0))
      (loop_iterations slop calibrating (t_al - rtcRead rtc 1)) ≤ fuel)
    (hmove : t_az ≠ rtcRead rtc 0 ∨ t_al ≠ rtcRead rtc 1) :
    ∃ out, step_to slop fuel rtc t_az t_al calibrating = some out ∧
      (∀ p, Event.energize p 99 ∉ out.before) ∧
      (∀ pre evs post, out.iterations = pre ++ evs :: post →
        (Event.energize motor_pin_azimuth 99 ∈ evs ↔
          Nat.iterate (next_delta slop calibrating) (pre.length + 1)
            (start_delta slop calibrating t_az (rtcRead rtc 0)) = 0) ∧
        (Event.energize motor_pin_altitude 99 ∈ evs ↔
          Nat.iterate (next_delta slop calibrating) (pre.length + 1)
            (start_delta slop calibrating t_al (rtcRead rtc 1)) = 0)) ∧
      (∃ pre, out.trace =
        pre ++ [Event.energize motor_pin_azimuth 99, Event.energize motor_pin_altitude 99]) ∧
      (∀ (pins : Int → Bool) (q : Int), 2 ≤ q → q ≤ 9 → coils pins out.trace q = false) := by
  obtain ⟨out, h, -, hb, -⟩ := step_to_spec slop calibrating hs fuel rtc t_az t_al hfuel
  have hne : start_delta slop calibrating t_az (rtcRead rtc 0) ≠ 0 ∨
      start_delta slop calibrating t_al (rtcRead rtc 1) ≠ 0 := by
    rcases hmove with hm | hm
    · exact Or.inl (fun hz => hm ((start_delta_eq_zero slop hs calibrating _ _).mp hz))
    · exact Or.inr (fun hz => hm ((start_delta_eq_zero slop hs calibrating _ _).mp hz))
  have hloop : ∃ s2, step_loop slop calibrating fuel
      { step_position_azimuth := rtcRead rtc 0
        step_delta_azimuth := start_delta slop calibrating t_az (rtcRead rtc 0)
        step_position_altitude := rtcRead rtc 1
        step_delta_altitude := start_delta slop calibrating t_al (rtcRead rtc 1)
        rtc := rtc } = some (s2, out.iterations) := by
    have hz : ¬ (start_delta slop calibrating t_az (rtcRead rtc 0) = 0 ∧
        start_delta slop calibrating t_al (rtcRead rtc 1) = 0) := by
      rintro ⟨z1, z2⟩
      rcases hne with hc | hc
      · exact hc z1
      · exact hc z2
    simp only [step_to, hz, if_false] at h
    cases hrec : step_loop slop calibrating fuel
      { step_position_azimuth := rtcRead rtc 0
        step_delta_azimuth := start_delta slop calibrating t_az (rtcRead rtc 0)
        step_position_altitude := rtcRead rtc 1
        step_delta_altitude := start_delta slop calibrating t_al (rtcRead rtc 1)
        rtc := rtc } with
    | none => rw [hrec] at h; exact absurd h (by simp)
    | some r =>
      rw [hrec] at h
      simp only [Option.map_some', Option.some.injEq] at h
      subst h
      exact ⟨r.1, rfl⟩
  obtain ⟨s2, hs2⟩ := hloop
  obtain ⟨l1, l2⟩ := step_loop_off slop calibrating fuel _ s2 out.iterations hs2
  obtain ⟨pre, hpre⟩ := l2 hne
  have htrace : out.trace = (out.before ++ pre) ++
      [Event.energize motor_pin_azimuth 99, Event.energize motor_pin_altitude 99] := by
    rw [Outcome.trace, hpre, List.append_assoc]
  refine ⟨out, h, ?_, l1, ⟨_, htrace⟩, ?_⟩
  · intro p
    have r0 := and3_range (rtcRead rtc 0)
    have r1 := and3_range (rtcRead rtc 1)
    have e0 : (99 : Int) ≠ and3 (rtcRead rtc 0) := by omega
    have e1 : (99 : Int) ≠ and3 (rtcRead rtc 1) := by omega
    rw [hb]
    split_ifs <;> simp [e0, e1]
  · intro pins q h2 h9
    rw [htrace, coils_append]
    exact coils_off_off _ q h2 h9

/-- C17, at slop 3 from the persisted positions (10, 0) to the targets (5, 2), not
calibrating: the call ends with the two off commands and leaves pins 2 to 9 low. -/
theorem step_to_de_energizes_witness :
    ((0 : Int) ≤ 3 ∧ ((5 : Int) ≠ rtcRead ⟨10, 0⟩ 0 ∨ (2 : Int) ≠ rtcRead ⟨10, 0⟩ 1)) ∧
    ∃ out, step_to 3 11 ⟨10, 0⟩ 5 2 false = some out ∧
      (∃ pre, out.trace =
        pre ++ [Event.energize motor_pin_azimuth 99, Event.energize motor_pin_altitude 99]) ∧
      (∀ q : Int, 2 ≤ q → q ≤ 9 → coils (fun _ => true) out.trace q = false) := by
  obtain ⟨out, h, -, -, h3, h4⟩ :=
    step_to_de_energizes 3 (by decide) false ⟨10, 0⟩ 5 2 11 (by decide) (Or.inl (by decide))
  exact ⟨⟨by decide, Or.inl (by decide)⟩, out, h, h3, h4 _⟩

/-! ## Phases -/

/-- C18. Motor phase continuity. Every step of an axis in the loop of `step_to` (remaining
delta not zero) issues, as its first event, the one coil command of the step, on the pins
of the axis and with the phase `new position & 3`. For every integer position `x`,
negative ones included, `x & 3` lies in `0 .. 3` and equals `x mod 4` (Euclidean); a `+1`
step advances the phase cyclically by one, a `-1` step moves it back by one, also across
position 0: the positions -5 .. 4 have the phases 3, 0, 1, 2, 3, 0, 1, 2, 3, 0. -/
theorem step_phase_continuity (slop : Int) (calibrating : Bool)
    (motor_pin adr step_position step_delta : Int) (rtc : Rtc) (x : Int) :
    (step_delta ≠ 0 →
      (step_axis slop calibrating motor_pin adr step_position step_delta rtc).events.head? =
        some (Event.energize motor_pin
          (and3 (step_axis slop calibrating motor_pin adr step_position step_delta rtc).step_position)) ∧
      (∀ p m, Event.energize p m ∈
          (step_axis slop calibrating motor_pin adr step_position step_delta rtc).events →
        p = motor_pin ∧ m = and3
          (step_axis slop calibrating motor_pin adr step_position step_delta rtc).step_position) ∧
      ((step_axis slop calibrating motor_pin adr step_position step_delta rtc).step_position =
          step_position + 1 ∨
        (step_axis slop calibrating motor_pin adr step_position step_delta rtc).step_position =
          step_position - 1)) ∧
    0 ≤ and3 x ∧ and3 x ≤ 3 ∧ and3 x = x % 4 ∧
    and3 (x + 1) = (and3 x + 1) % 4 ∧
    and3 (x - 1) = (and3 x - 1) % 4 ∧
    and3 (-1) = 3 ∧ and3 0 = 0 ∧
    List.map and3 [-5, -4, -3, -2, -1, 0, 1, 2, 3, 4] = [3, 0, 1, 2, 3, 0, 1, 2, 3, 0] := by
  have hr := and3_range x
  refine ⟨?_, hr.1, hr.2, and3_eq_emod x, ?_, ?_, ?_, ?_, ?_⟩
  · intro hd
    rw [step_axis_eq]
    simp only [hd, if_false]
    refine ⟨?_, ?_, ?_⟩
    · simp [step_events]
    · intro p m hm
      cases calibrating <;> simpa [step_events] using hm
    · unfold next_position
      split_ifs
      · exact Or.inl rfl
      · exact Or.inr rfl
      · omega
  · rw [and3_eq_emod, and3_eq_emod]; omega
  · rw [and3_eq_emod, and3_eq_emod]; omega
  · rw [and3_eq_emod]; decide
  · rw [and3_eq_emod]; decide
  · simp only [List.map, and3_eq_emod]; decide

/-! ## The coil commands before the loop -/

/-- C19, the input at which the claim fails: from the persisted positions (0, 0) to the
targets (1, 0) with the slop of the source. Only the azimuth axis moves; before the
loop `step_to` energizes the azimuth axis alone, and the altitude axis receives no coil
command other than the off command during the whole call. -/
theorem pre_energize_skips_idle_axis :
    ∃ out, step_to slop_steps 1 ⟨0, 0⟩ 1 0 false = some out ∧
      out.before = [Event.energize motor_pin_azimuth (and3 0)] ∧
      Event.energize motor_pin_altitude (and3 0) ∉ out.before ∧
      (∀ m, Event.energize motor_pin_altitude m ∈ out.trace → m = 99) := by
  refine ⟨{ rtc := ⟨1, 0⟩, before := [Event.energize 2 0],
            iterations := [[Event.energize 2 1, Event.write 0 1, Event.energize 2 99,
              Event.energize 6 99]] }, by decide, by decide, by decide, ?_⟩
  intro m hm
  simp [Outcome.trace, motor_pin_altitude] at hm
  exact hm

/-- C19, amended. In every move of `step_to` that is not a no-op, with slop `≥ 0`: the
events before the loop, and so before the first step, are the coil command with the
pattern `persisted position & 3` for each axis whose delta is not zero (its target
differs from its persisted position), the azimuth axis first; an axis whose delta is zero
is not energized before the loop; at least one axis is. -/
theorem step_to_pre_energize (slop : Int) (hs : 0 ≤ slop) (calibrating : Bool) (rtc : Rtc)
    (t_az t_al : Int) (fuel : Nat)
    (hfuel : max (loop_iterations slop calibrating (t_az - rtcRead rtc 0))
      (loop_iterations slop calibrating (t_al - rtcRead rtc 1)) ≤ fuel)
    (hmove : t_az ≠ rtcRead rtc 0 ∨ t_al ≠ rtcRead rtc 1) :
    ∃ out, step_to slop fuel rtc t_az t_al calibrating = some out ∧
      out.trace = out.before ++ out.iterations.flatten ∧
      out.before =
        (if t_az ≠ rtcRead rtc 0 then
          [Event.energize motor_pin_azimuth (and3 (rtcRead rtc 0))] else []) ++
        (if t_al ≠ rtcRead rtc 1 then
          [Event.energize motor_pin_altitude (and3 (rtcRead rtc 1))] else []) ∧
      (t_az ≠ rtcRead rtc 0 →
        Event.energize motor_pin_azimuth (and3 (rtcRead rtc 0)) ∈ out.before) ∧
      (t_al ≠ rtcRead rtc 1 →
        Event.energize motor_pin_altitude (and3 (rtcRead rtc 1)) ∈ out.before) ∧
      (t_az = rtcRead rtc 0 → ∀ m, Event.energize motor_pin_azimuth m ∉ out.before) ∧
      (t_al = rtcRead rtc 1 → ∀ m, Event.energize motor_pin_altitude m ∉ out.before) ∧
      out.before ≠ [] := by
  obtain ⟨out, h, -, hb, -⟩ := step_to_spec slop calibrating hs fuel rtc t_az t_al hfuel
  have z0 := start_delta_eq_zero slop hs calibrating t_az (rtcRead rtc 0)
  have z1 := start_delta_eq_zero slop hs calibrating t_al (rtcRead rtc 1)
  have hp : motor_pin_azimuth ≠ motor_pin_altitude := by decide
  have hb2 : out.before =
      (if t_az ≠ rtcRead rtc 0 then
        [Event.energize motor_pin_azimuth (and3 (rtcRead rtc 0))] else []) ++
      (if t_al ≠ rtcRead rtc 1 then
        [Event.energize motor_pin_altitude (and3 (rtcRead rtc 1))] else []) := by
    rw [hb]
    simp only [ne_eq, z0, z1]
  refine ⟨out, h, rfl, hb2, ?_, ?_, ?_, ?_, ?_⟩
  · intro h0; rw [hb2]; simp [h0]
  · intro h1; rw [hb2]; simp [h1]
  · intro h0 m; rw [hb2]; by_cases h1 : t_al = rtcRead rtc 1 <;> simp [h0, h1, hp]
  · intro h1 m; rw [hb2]; by_cases h0 : t_az = rtcRead rtc 0 <;> simp [h0, h1, hp.symm]
  · rw [hb2]
    rcases hmove with h0 | h1
    · simp [h0]
    · simp [h1]

/-- C19, amended, from the persisted positions (0, 0) to the targets (1, 0): the
azimuth axis is energized with the pattern of position 0 and the altitude axis is not
energized before the loop. -/
theorem step_to_pre_energize_witness :
    ((0 : Int) ≤ slop_steps ∧ ((1 : Int) ≠ rtcRead ⟨0, 0⟩ 0 ∨ (0 : Int) ≠ rtcRead ⟨0, 0⟩ 1)) ∧
    ∃ out, step_to slop_steps 1 ⟨0, 0⟩ 1 0 false = some out ∧
      Event.energize motor_pin_azimuth (and3 0) ∈ out.before ∧
      (∀ m, Event.energize motor_pin_altitude m ∉ out.before) := by
  obtain ⟨out, h, -, -, h1, -, -, h4, -⟩ :=
    step_to_pre_energize slop_steps (by decide) false ⟨0, 0⟩ 1 0 1 (by decide) (Or.inl (by decide))
  exact ⟨⟨by decide, Or.inl (by decide)⟩, out, h, h1 (by decide), h4 rfl⟩

/-! ## Lemmas: degrees and radians -/

theorem prebaked_pos (code deg : ℝ) (hd : 0 < deg)
    (h1 : deg * pi / 180 * (1 - 1e-12) ≤ code) (h2 : code ≤ deg * pi / 180 * (1 + 1e-12)) :
    Prebaked code deg := by
  have hpi : (0 : ℝ) < pi := pi_pos
  have hlt := pi_macro_lt_pi
  have hgap : Real.pi - pi ≤ 1e-15 := by
    have h := Real.pi_lt_d20
    unfold pi
    norm_num at h ⊢
    linarith
  have hk : 0 < deg / 180 := by positivity
  have ea : deg * pi / 180 = deg / 180 * pi := by ring
  have eA : deg * Real.pi / 180 = deg / 180 * Real.pi := by ring
  rw [ea] at h1 h2
  have ha : 0 < deg / 180 * pi := mul_pos hk hpi
  have hA : 0 < deg / 180 * Real.pi := mul_pos hk Real.pi_pos
  have hle : deg / 180 * pi ≤ deg / 180 * Real.pi := mul_le_mul_of_nonneg_left hlt.le hk.le
  have hgap2 : deg / 180 * (Real.pi - pi) ≤ deg / 180 * 1e-15 :=
    mul_le_mul_of_nonneg_left hgap hk.le
  have hp3 : (3 : ℝ) < pi := by unfold pi; norm_num
  have hk3 : deg / 180 * 3 ≤ deg / 180 * pi := mul_le_mul_of_nonneg_left hp3.le hk.le
  have hc : 0 < code := by nlinarith
  refine ⟨?_, ?_, ⟨fun _ => hd, fun _ => hc⟩, ⟨fun h => absurd h (not_lt.mpr hc.le),
    fun h => absurd h (not_lt.mpr hd.le)⟩⟩
  · rw [ea, abs_of_pos ha, abs_le]
    constructor <;> nlinarith
  · rw [eA, abs_of_pos hA, abs_le]
    constructor <;> nlinarith

theorem prebaked_neg (code deg : ℝ) (hd : deg < 0)
    (h1 : deg * pi / 180 * (1 + 1e-12) ≤ code) (h2 : code ≤ deg * pi / 180 * (1 - 1e-12)) :
    Prebaked code deg := by
  have h := prebaked_pos (-code) (-deg) (by linarith) (by linarith) (by linarith)
  obtain ⟨p1, p2, p3, p4⟩ := h
  refine ⟨?_, ?_, ?_, ?_⟩
  · have e : code - deg * pi / 180 = -(-code - -deg * pi / 180) := by ring
    have e2 : deg * pi / 180 = -(-deg * pi / 180) := by ring
    rw [e, e2, abs_neg, abs_neg]
    exact p1
  · have e : code - deg * Real.pi / 180 = -(-code - -deg * Real.pi / 180) := by ring
    have e2 : deg * Real.pi / 180 = -(-deg * Real.pi / 180) := by ring
    rw [e, e2, abs_neg, abs_neg]
    exact p2
  · constructor
    · intro hc; exact absurd (p3.mpr (by linarith)) (by linarith)
    · intro hc; exact absurd hc (not_lt.mpr hd.le)
  · constructor
    · intro _; exact hd
    · intro _; have := p3.mpr (by linarith); linarith

theorem prebaked_zero (code deg : ℝ) (hc : code = 0) (hd : deg = 0) : Prebaked code deg := by
  subst hc; subst hd
  simp [Prebaked]

/-! ## Lemmas: the elements against their documented degree values -/

theorem mercury_prebaked (d : ℝ) :
    (∃ el0 el1 el deg, elements 1 0 = some el0 ∧ elements 1 1 = some el1 ∧
      elements 1 d = some el ∧ documented 1 = some deg ∧
      el.No = el0.No + (el1.No - el0.No) * d ∧
      el.io = el0.io + (el1.io - el0.io) * d ∧
      el.wo = el0.wo + (el1.wo - el0.wo) * d ∧
      el.Mo = el0.Mo + (el1.Mo - el0.Mo) * d ∧
      Prebaked el0.No deg.N0 ∧ Prebaked (el1.No - el0.No) deg.N1 ∧
      Prebaked el0.io deg.i0 ∧ Prebaked (el1.io - el0.io) deg.i1 ∧
      Prebaked el0.wo deg.w0 ∧ Prebaked (el1.wo - el0.wo) deg.w1 ∧
      Prebaked el0.Mo deg.M0 ∧ Prebaked (el1.Mo - el0.Mo) deg.M1) := by
  refine ⟨_, _, _, _, by rw [elements, if_pos rfl], by rw [elements, if_pos rfl],
    by rw [elements, if_pos rfl], by rw [documented, if_pos rfl],
    ?_, ?_, ?_, ?_, ?_, ?_, ?_, ?_, ?_, ?_, ?_, ?_⟩
  · norm_num
  · norm_num
  · norm_num
  · norm_num
  · exact prebaked_pos _ _ (by norm_num) (by norm_num [pi]) (by norm_num [pi])
  · exact prebaked_pos _ _ (by norm_num) (by norm_num [pi]) (by norm_num [pi])
  · exact prebaked_pos _ _ (by norm_num) (by norm_num [pi]) (by norm_num [pi])
  · exact prebaked_pos _ _ (by norm_num) (by norm_num [pi]) (by norm_num [pi])
  · exact prebaked_pos _ _ (by norm_num) (by norm_num [pi]) (by norm_num [pi])
  · exact prebaked_pos _ _ (by norm_num) (by norm_num [pi]) (by norm_num [pi])
  · exact prebaked_pos _ _ (by norm_num) (by norm_num [pi]) (by norm_num [pi])
  · exact prebaked_pos _ _ (by norm_num) (by norm_num [pi]) (by norm_num [pi])

theorem venus_prebaked (d : ℝ) :
    (∃ el0 el1 el deg, elements 2 0 = some el0 ∧ elements 2 1 = some el1 ∧
      elements 2 d = some el ∧ documented 2 = some deg ∧
      el.No = el0.No + (el1.No - el0.No) * d ∧
      el.io = el0.io + (el1.io - el0.io) * d ∧
      el.wo = el0.wo + (el1.wo - el0.wo) * d ∧
      el.Mo = el0.Mo + (el1.Mo - el0.Mo) * d ∧
      Prebaked el0.No deg.N0 ∧ Prebaked (el1.No - el0.No) deg.N1 ∧
      Prebaked el0.io deg.i0 ∧ Prebaked (el1.io - el0.io) deg.i1 ∧
      Prebaked el0.wo deg.w0 ∧ Prebaked (el1.wo - el0.wo) deg.w1 ∧
      Prebaked el0.Mo deg.M0 ∧ Prebaked (el1.Mo - el0.Mo) deg.M1) := by
  refine ⟨_, _, _, _, by rw [elements, if_neg (by decide), if_pos rfl], by rw [elements, if_neg (by decide), if_pos rfl],
    by rw [elements, if_neg (by decide), if_pos rfl], by rw [documented, if_neg (by decide), if_pos rfl],
    ?_, ?_, ?_, ?_, ?_, ?_, ?_, ?_, ?_, ?_, ?_, ?_⟩
  · norm_num
  · norm_num
  · norm_num
  · norm_num
  · exact prebaked_pos _ _ (by norm_num) (by norm_num [pi]) (by norm_num [pi])
  · exact prebaked_pos _ _ (by norm_num) (by norm_num [pi]) (by norm_num [pi])
  · exact prebaked_pos _ _ (by norm_num) (by norm_num [pi]) (by norm_num [pi])
  · exact prebaked_pos _ _ (by norm_num) (by norm_num [pi]) (by norm_num [pi])
  · exact prebaked_pos _ _ (by norm_num) (by norm_num [pi]) (by norm_num [pi])
  · exact prebaked_pos _ _ (by norm_num) (by norm_num [pi]) (by norm_num [pi])
  · exact prebaked_pos _ _ (by norm_num) (by norm_num [pi]) (by norm_num [pi])
  · exact prebaked_pos _ _ (by norm_num) (by norm_num [pi]) (by norm_num [pi])

theorem moon_prebaked (d : ℝ) :
    (∃ el0 el1 el deg, elements 3 0 = some el0 ∧ elements 3 1 = some el1 ∧
      elements 3 d = some el ∧ documented 3 = some deg ∧
      el.No = el0.No + (el1.No - el0.No) * d ∧
      el.io = el0.io + (el1.io - el0.io) * d ∧
      el.wo = el0.wo + (el1.wo - el0.wo) * d ∧
      el.Mo = el0.Mo + (el1.Mo - el0.Mo) * d ∧
      Prebaked el0.No deg.N0 ∧ Prebaked (el1.No - el0.No) deg.N1 ∧
      Prebaked el0.io deg.i0 ∧ Prebaked (el1.io - el0.io) deg.i1 ∧
      Prebaked el0.wo deg.w0 ∧ Prebaked (el1.wo - el0.wo) deg.w1 ∧
      Prebaked el0.Mo deg.M0 ∧ Prebaked (el1.Mo - el0.Mo) deg.M1) := by
  refine ⟨_, _, _, _, by rw [elements, if_neg (by decide), if_neg (by decide), if_pos rfl], by rw [elements, if_neg (by decide), if_neg (by decide), if_pos rfl],
    by rw [elements, if_neg (by decide), if_neg (by decide), if_pos rfl], by rw [documented, if_neg (by decide), if_neg (by decide), if_pos rfl],
    ?_, ?_, ?_, ?_, ?_, ?_, ?_, ?_, ?_, ?_, ?_, ?_⟩
  · norm_num; ring
  · norm_num
  · norm_num
  · norm_num
  · exact prebaked_pos _ _ (by norm_num) (by norm_num [pi]) (by norm_num [pi])
  · exact prebaked_neg _ _ (by norm_num) (by norm_num [pi]) (by norm_num [pi])
  · exact prebaked_pos _ _ (by norm_num) (by norm_num [pi]) (by norm_num [pi])
  · exact prebaked_zero _ _ (by norm_num) (by norm_num)
  · exact prebaked_pos _ _ (by norm_num) (by norm_num [pi]) (by norm_num [pi])
  · exact prebaked_pos _ _ (by norm_num) (by norm_num [pi]) (by norm_num [pi])
  · exact prebaked_pos _ _ (by norm_num) (by norm_num [pi]) (by norm_num [pi])
  · exact prebaked_pos _ _ (by norm_num) (by norm_num [pi]) (by norm_num [pi])

theorem mars_prebaked (d : ℝ) :
    (∃ el0 el1 el deg, elements 4 0 = some el0 ∧ elements 4 1 = some el1 ∧
      elements 4 d = some el ∧ documented 4 = some deg ∧
      el.No = el0.No + (el1.No - el0.No) * d ∧
      el.io = el0.io + (el1.io - el0.io) * d ∧
      el.wo = el0.wo + (el1.wo - el0.wo) * d ∧
      el.Mo = el0.Mo + (el1.Mo - el0.Mo) * d ∧
      Prebaked el0.No deg.N0 ∧ Prebaked (el1.No - el0.No) deg.N1 ∧
      Prebaked el0.io deg.i0 ∧ Prebaked (el1.io - el0.io) deg.i1 ∧
      Prebaked el0.wo deg.w0 ∧ Prebaked (el1.wo - el0.wo) deg.w1 ∧
      Prebaked el0.Mo deg.M0 ∧ Prebaked (el1.Mo - el0.Mo) deg.M1) := by
  refine ⟨_, _, _, _, by rw [elements, if_neg (by decide), if_neg (by decide), if_neg (by decide), if_pos rfl], by rw [elements, if_neg (by decide), if_neg (by decide), if_neg (by decide), if_pos rfl],
    by rw [elements, if_neg (by decide), if_neg (by decide), if_neg (by decide), if_pos rfl], by rw [documented, if_neg (by decide), if_neg (by decide), if_neg (by decide), if_pos rfl],
    ?_, ?_, ?_, ?_, ?_, ?_, ?_, ?_, ?_, ?_, ?_, ?_⟩
  · norm_num
  · norm_num; ring
  · norm_num
  · norm_num
  · exact prebaked_pos _ _ (by norm_num) (by norm_num [pi]) (by norm_num [pi])
  · exact prebaked_pos _ _ (by norm_num) (by norm_num [pi]) (by norm_num [pi])
  · exact prebaked_pos _ _ (by norm_num) (by norm_num [pi]) (by norm_num [pi])
  · exact prebaked_neg _ _ (by norm_num) (by norm_num [pi]) (by norm_num [pi])
  · exact prebaked_pos _ _ (by norm_num) (by norm_num [pi]) (by norm_num [pi])
  · exact prebaked_pos _ _ (by norm_num) (by norm_num [pi]) (by norm_num [pi])
  · exact prebaked_pos _ _ (by norm_num) (by norm_num [pi]) (by norm_num [pi])
  · exact prebaked_pos _ _ (by norm_num) (by norm_num [pi]) (by norm_num [pi])

theorem jupiter_prebaked (d : ℝ) :
    (∃ el0 el1 el deg, elements 5 0 = some el0 ∧ elements 5 1 = some el1 ∧
      elements 5 d = some el ∧ documented 5 = some deg ∧
      el.No = el0.No + (el1.No - el0.No) * d ∧
      el.io = el0.io + (el1.io - el0.io) * d ∧
      el.wo = el0.wo + (el1.wo - el0.wo) * d ∧
      el.Mo = el0.Mo + (el1.Mo - el0.Mo) * d ∧
      Prebaked el0.No deg.N0 ∧ Prebaked (el1.No - el0.No) deg.N1 ∧
      Prebaked el0.io deg.i0 ∧ Prebaked (el1.io - el0.io) deg.i1 ∧
      Prebaked el0.wo deg.w0 ∧ Prebaked (el1.wo - el0.wo) deg.w1 ∧
      Prebaked el0.Mo deg.M0 ∧ Prebaked (el1.Mo - el0.Mo) deg.M1) := by
  refine ⟨_, _, _, _, by rw [elements, if_neg (by decide), if_neg (by decide), if_neg (by decide), if_neg (by decide), if_pos rfl], by rw [elements, if_neg (by decide), if_neg (by decide), if_neg (by decide), if_neg (by decide), if_pos rfl],
    by rw [elements, if_neg (by decide), if_neg (by decide), if_neg (by decide), if_neg (by decide), if_pos rfl], by rw [documented, if_neg (by decide), if_neg (by decide), if_neg (by decide), if_neg (by decide), if_pos rfl],
    ?_, ?_, ?_, ?_, ?_, ?_, ?_, ?_, ?_, ?_, ?_, ?_⟩
  · norm_num
  · norm_num; ring
  · norm_num
  · norm_num
  · exact prebaked_pos _ _ (by norm_num) (by norm_num [pi]) (by norm_num [pi])
  · exact prebaked_pos _ _ (by norm_num) (by norm_num [pi]) (by norm_num [pi])
  · exact prebaked_pos _ _ (by norm_num) (by norm_num [pi]) (by norm_num [pi])
  · exact prebaked_neg _ _ (by norm_num) (by norm_num [pi]) (by norm_num [pi])
  · exact prebaked_pos _ _ (by norm_num) (by norm_num [pi]) (by norm_num [pi])
  · exact prebaked_pos _ _ (by norm_num) (by norm_num [pi]) (by norm_num [pi])
  · exact prebaked_pos _ _ (by norm_num) (by norm_num [pi]) (by norm_num [pi])
  · exact prebaked_pos _ _ (by norm_num) (by norm_num [pi]) (by norm_num [pi])

theorem saturn_prebaked (d : ℝ) :
    (∃ el0 el1 el deg, elements 6 0 = some el0 ∧ elements 6 1 = some el1 ∧
      elements 6 d = some el ∧ documented 6 = some deg ∧
      el.No = el0.No + (el1.No - el0.No) * d ∧
      el.io = el0.io + (el1.io - el0.io) * d ∧
      el.wo = el0.wo + (el1.wo - el0.wo) * d ∧
      el.Mo = el0.Mo + (el1.Mo - el0.Mo) * d ∧
      Prebaked el0.No deg.N0 ∧ Prebaked (el1.No - el0.No) deg.N1 ∧
      Prebaked el0.io deg.i0 ∧ Prebaked (el1.io - el0.io) deg.i1 ∧
      Prebaked el0.wo deg.w0 ∧ Prebaked (el1.wo - el0.wo) deg.w1 ∧
      Prebaked el0.Mo deg.M0 ∧ Prebaked (el1.Mo - el0.Mo) deg.M1) := by
  refine ⟨_, _, _, _, by rw [elements, if_neg (by decide), if_neg (by decide), if_neg (by decide), if_neg (by decide), if_neg (by decide), if_pos rfl], by rw [elements, if_neg (by decide), if_neg (by decide), if_neg (by decide), if_neg (by decide), if_neg (by decide), if_pos rfl],
    by rw [elements, if_neg (by decide), if_neg (by decide), if_neg (by decide), if_neg (by decide), if_neg (by decide), if_pos rfl], by rw [documented, if_neg (by decide), if_neg (by decide), if_neg (by decide), if_neg (by decide), if_neg (by decide), if_pos rfl],
    ?_, ?_, ?_, ?_, ?_, ?_, ?_, ?_, ?_, ?_, ?_, ?_⟩
  · norm_num
  · norm_num; ring
  · norm_num
  · norm_num
  · exact prebaked_pos _ _ (by norm_num) (by norm_num [pi]) (by norm_num [pi])
  · exact prebaked_pos _ _ (by norm_num) (by norm_num [pi]) (by norm_num [pi])
  · exact prebaked_pos _ _ (by norm_num) (by norm_num [pi]) (by norm_num [pi])
  · exact prebaked_neg _ _ (by norm_num) (by norm_num [pi]) (by norm_num [pi])
  · exact prebaked_pos _ _ (by norm_num) (by norm_num [pi]) (by norm_num [pi])
  · exact prebaked_pos _ _ (by norm_num) (by norm_num [pi]) (by norm_num [pi])
  · exact prebaked_pos _ _ (by norm_num) (by norm_num [pi]) (by norm_num [pi])
  · exact prebaked_pos _ _ (by norm_num) (by norm_num [pi]) (by norm_num [pi])

theorem uranus_prebaked (d : ℝ) :
    (∃ el0 el1 el deg, elements 7 0 = some el0 ∧ elements 7 1 = some el1 ∧
      elements 7 d = some el ∧ documented 7 = some deg ∧
      el.No = el0.No + (el1.No - el0.No) * d ∧
      el.io = el0.io + (el1.io - el0.io) * d ∧
      el.wo = el0.wo + (el1.wo - el0.wo) * d ∧
      el.Mo = el0.Mo + (el1.Mo - el0.Mo) * d ∧
      Prebaked el0.No deg.N0 ∧ Prebaked (el1.No - el0.No) deg.N1 ∧
      Prebaked el0.io deg.i0 ∧ Prebaked (el1.io - el0.io) deg.i1 ∧
      Prebaked el0.wo deg.w0 ∧ Prebaked (el1.wo - el0.wo) deg.w1 ∧
      Prebaked el0.Mo deg.M0 ∧ Prebaked (el1.Mo - el0.Mo) deg.M1) := by
  refine ⟨_, _, _, _, by rw [elements, if_neg (by decide), if_neg (by decide), if_neg (by decide), if_neg (by decide), if_neg (by decide), if_neg (by decide), if_pos rfl], by rw [elements, if_neg (by decide), if_neg (by decide), if_neg (by decide), if_neg (by decide), if_neg (by decide), if_neg (by decide), if_pos rfl],
    by rw [elements, if_neg (by decide), if_neg (by decide), if_neg (by decide), if_neg (by decide), if_neg (by decide), if_neg (by decide), if_pos rfl], by rw [documented, if_neg (by decide), if_neg (by decide), if_neg (by decide), if_neg (by decide), if_neg (by decide), if_neg (by decide), if_pos rfl],
    ?_, ?_, ?_, ?_, ?_, ?_, ?_, ?_, ?_, ?_, ?_, ?_⟩
  · norm_num
  · norm_num
  · norm_num
  · norm_num
  · exact prebaked_pos _ _ (by norm_num) (by norm_num [pi]) (by norm_num [pi])
  · exact prebaked_pos _ _ (by norm_num) (by norm_num [pi]) (by norm_num [pi])
  · exact prebaked_pos _ _ (by norm_num) (by norm_num [pi]) (by norm_num [pi])
  · exact prebaked_pos _ _ (by norm_num) (by norm_num [pi]) (by norm_num [pi])
  · exact prebaked_pos _ _ (by norm_num) (by norm_num [pi]) (by norm_num [pi])
  · exact prebaked_pos _ _ (by norm_num) (by norm_num [pi]) (by norm_num [pi])
  · exact prebaked_pos _ _ (by norm_num) (by norm_num [pi]) (by norm_num [pi])
  · exact prebaked_pos _ _ (by norm_num) (by norm_num [pi]) (by norm_num [pi])

theorem neptune_prebaked (d : ℝ) :
    (∃ el0 el1 el deg, elements 8 0 = some el0 ∧ elements 8 1 = some el1 ∧
      elements 8 d = some el ∧ documented 8 = some deg ∧
      el.No = el0.No + (el1.No - el0.No) * d ∧
      el.io = el0.io + (el1.io - el0.io) * d ∧
      el.wo = el0.wo + (el1.wo - el0.wo) * d ∧
      el.Mo = el0.Mo + (el1.Mo - el0.Mo) * d ∧
      Prebaked el0.No deg.N0 ∧ Prebaked (el1.No - el0.No) deg.N1 ∧
      Prebaked el0.io deg.i0 ∧ Prebaked (el1.io - el0.io) deg.i1 ∧
      Prebaked el0.wo deg.w0 ∧ Prebaked (el1.wo - el0.wo) deg.w1 ∧
      Prebaked el0.Mo deg.M0 ∧ Prebaked (el1.Mo - el0.Mo) deg.M1) := by
  refine ⟨_, _, _, _, by rw [elements, if_neg (by decide), if_neg (by decide), if_neg (by decide), if_neg (by decide), if_neg (by decide), if_neg (by decide), if_neg (by decide), if_pos rfl], by rw [elements, if_neg (by decide), if_neg (by decide), if_neg (by decide), if_neg (by decide), if_neg (by decide), if_neg (by decide), if_neg (by decide), if_pos rfl],
    by rw [elements, if_neg (by decide), if_neg (by decide), if_neg (by decide), if_neg (by decide), if_neg (by decide), if_neg (by decide), if_neg (by decide), if_pos rfl], by rw [documented, if_neg (by decide), if_neg (by decide), if_neg (by decide), if_neg (by decide), if_neg (by decide), if_neg (by decide), if_neg (by decide), if_pos rfl],
    ?_, ?_, ?_, ?_, ?_, ?_, ?_, ?_, ?_, ?_, ?_, ?_⟩
  · norm_num
  · norm_num; ring
  · norm_num; ring
  · norm_num
  · exact prebaked_pos _ _ (by norm_num) (by norm_num [pi]) (by norm_num [pi])
  · exact prebaked_pos _ _ (by norm_num) (by norm_num [pi]) (by norm_num [pi])
  · exact prebaked_pos _ _ (by norm_num) (by norm_num [pi]) (by norm_num [pi])
  · exact prebaked_neg _ _ (by norm_num) (by norm_num [pi]) (by norm_num [pi])
  · exact prebaked_pos _ _ (by norm_num) (by norm_num [pi]) (by norm_num [pi])
  · exact prebaked_neg _ _ (by norm_num) (by norm_num [pi]) (by norm_num [pi])
  · exact prebaked_pos _ _ (by norm_num) (by norm_num [pi]) (by norm_num [pi])
  · exact prebaked_pos _ _ (by norm_num) (by norm_num [pi]) (by norm_num [pi])

theorem sun_prebaked (d : ℝ) :
    (sun d).ws = (sun 0).ws + ((sun 1).ws - (sun 0).ws) * d ∧
    (sun d).Ms = (sun 0).Ms + ((sun 1).Ms - (sun 0).Ms) * d ∧
    Prebaked (sun 0).ws documented_sun.w0 ∧
    Prebaked ((sun 1).ws - (sun 0).ws) documented_sun.w1 ∧
    Prebaked (sun 0).Ms documented_sun.M0 ∧
    Prebaked ((sun 1).Ms - (sun 0).Ms) documented_sun.M1 := by
  refine ⟨?_, ?_, ?_, ?_, ?_, ?_⟩
  · simp only [sun]; norm_num
  · simp only [sun]; norm_num
  · simp only [sun, documented_sun]
    exact prebaked_pos _ _ (by norm_num) (by norm_num [pi]) (by norm_num [pi])
  · simp only [sun, documented_sun]
    exact prebaked_pos _ _ (by norm_num) (by norm_num [pi]) (by norm_num [pi])
  · simp only [sun, documented_sun]
    exact prebaked_pos _ _ (by norm_num) (by norm_num [pi]) (by norm_num [pi])
  · simp only [sun, documented_sun]
    exact prebaked_pos _ _ (by norm_num) (by norm_num [pi]) (by norm_num [pi])

/-- C20. Radian pre-baking of the orbital elements. For each of the eight bodies (indices
1 .. 8) every angular element `No`, `io`, `wo`, `Mo` used by `getPlanet` is the function
`constant + coefficient * d` of the day number, and for the Sun so are `ws` and `Ms`; each
constant term and each coefficient of `d` has the sign of the degree value documented in
the comment on its line and is within a relative error of `1e-9` of that value multiplied
by `pi / 180` (for the macro `pi` and for the number π). The line of `io` of the Moon has
no term in `d`, in the code and in the comment. -/
theorem elements_prebaked (object : Int) (h1 : 1 ≤ object) (h8 : object ≤ 8) (d : ℝ) :
    (∃ el0 el1 el deg, elements object 0 = some el0 ∧ elements object 1 = some el1 ∧
      elements object d = some el ∧ documented object = some deg ∧
      el.No = el0.No + (el1.No - el0.No) * d ∧
      el.io = el0.io + (el1.io - el0.io) * d ∧
      el.wo = el0.wo + (el1.wo - el0.wo) * d ∧
      el.Mo = el0.Mo + (el1.Mo - el0.Mo) * d ∧
      Prebaked el0.No deg.N0 ∧ Prebaked (el1.No - el0.No) deg.N1 ∧
      Prebaked el0.io deg.i0 ∧ Prebaked (el1.io - el0.io) deg.i1 ∧
      Prebaked el0.wo deg.w0 ∧ Prebaked (el1.wo - el0.wo) deg.w1 ∧
      Prebaked el0.Mo deg.M0 ∧ Prebaked (el1.Mo - el0.Mo) deg.M1) ∧
    ((sun d).ws = (sun 0).ws + ((sun 1).ws - (sun 0).ws) * d ∧
      (sun d).Ms = (sun 0).Ms + ((sun 1).Ms - (sun 0).Ms) * d ∧
      Prebaked (sun 0).ws documented_sun.w0 ∧
      Prebaked ((sun 1).ws - (sun 0).ws) documented_sun.w1 ∧
      Prebaked (sun 0).Ms documented_sun.M0 ∧
      Prebaked ((sun 1).Ms - (sun 0).Ms) documented_sun.M1) := by
  refine ⟨?_, sun_prebaked d⟩
  have hobj : object = 1 ∨ object = 2 ∨ object = 3 ∨ object = 4 ∨ object = 5 ∨ object = 6 ∨
      object = 7 ∨ object = 8 := by omega
  rcases hobj with h | h | h | h | h | h | h | h <;> subst h
  · exact mercury_prebaked d
  · exact venus_prebaked d
  · exact moon_prebaked d
  · exact mars_prebaked d
  · exact jupiter_prebaked d
  · exact saturn_prebaked d
  · exact uranus_prebaked d
  · exact neptune_prebaked d

/-- C20, for the Moon (index 3): the constant of `No` against the documented 125.1228
degrees and its coefficient of `d` against the documented -0.0529538083 degrees per day. -/
theorem elements_prebaked_witness :
    ((1 : Int) ≤ 3 ∧ (3 : Int) ≤ 8) ∧
    ∃ el0 el1 : Elements, elements 3 0 = some el0 ∧ elements 3 1 = some el1 ∧
      Prebaked el0.No 125.1228 ∧ Prebaked (el1.No - el0.No) (-0.0529538083) := by
  obtain ⟨el0, el1, el, deg, e0, e1, -, hdeg, -, -, -, -, p0, p1, -⟩ :=
    (elements_prebaked 3 (by decide) (by decide) 0).1
  rw [documented, if_neg (by decide), if_neg (by decide), if_pos rfl] at hdeg
  simp only [Option.some.injEq] at hdeg
  subst hdeg
  exact ⟨⟨by decide, by decide⟩, el0, el1, e0, e1, p0, p1⟩

/-! ## astronomy.cpp: the obliquity of the ecliptic -/

/-- C21, the code against its comment `23.4393 - 0.0000003563 * d`. The obliquity `ecl`
that the rotation to equatorial coordinates uses is `constant + coefficient * d`; the
constant is 23.4393 degrees in radians, but the coefficient of `d` is `+0.0000003563`
degrees in radians where the comment has `-0.0000003563`: `ecl` increases with `d`. At
`now = 1546300800` (2019-01-01, day number 6941) the documented obliquity
`(23.4393 - 0.0000003563 * 6941)` degrees is smaller than the obliquity used by more than
`0.00008` rad. -/
theorem ecl_increases_with_day_number :
    (∀ (d : ℝ) (g : ℝ × ℝ × ℝ), (equatorial d g).2 =
      Real.arctan ((g.2.1 * Real.sin (ecl d) + g.2.2 * Real.cos (ecl d)) /
        Real.sqrt (g.1 * g.1 + (g.2.1 * Real.cos (ecl d) - g.2.2 * Real.sin (ecl d)) *
          (g.2.1 * Real.cos (ecl d) - g.2.2 * Real.sin (ecl d)))) * 180 / pi) ∧
    (∀ d, ecl d = ecl 0 + (ecl 1 - ecl 0) * d) ∧
    Prebaked (ecl 0) 23.4393 ∧
    Prebaked (ecl 1 - ecl 0) 0.0000003563 ∧
    ¬ Prebaked (ecl 1 - ecl 0) (-0.0000003563) ∧
    (∀ d1 d2, d1 < d2 → ecl d1 < ecl d2) ∧
    day_number 1546300800 = 6941 ∧
    (23.4393 - 0.0000003563 * 6941) * pi / 180 + 0.00008 < ecl (day_number 1546300800) := by
  have hd : day_number 1546300800 = 6941 := by
    unfold day_number; norm_num
  refine ⟨fun d g => rfl, ?_, ?_, ?_, ?_, ?_, hd, ?_⟩
  · intro d; unfold ecl; ring
  · unfold ecl
    exact prebaked_pos _ _ (by norm_num) (by norm_num [pi]) (by norm_num [pi])
  · unfold ecl
    exact prebaked_pos _ _ (by norm_num) (by norm_num [pi]) (by norm_num [pi])
  · rintro ⟨-, -, h, -⟩
    have hpos : (0 : ℝ) < ecl 1 - ecl 0 := by unfold ecl; norm_num
    have := h.mp hpos
    norm_num at this
  · intro d1 d2 h
    unfold ecl
    linarith
  · rw [hd]
    unfold ecl pi
    norm_num

/-! ## astronomy.cpp: the size of the perturbation terms -/

theorem sin_ge_near_peak (x : ℝ) (k : ℤ) (δ : ℝ)
    (h : |x - Real.pi / 2 - k * (2 * Real.pi)| ≤ δ) : 1 - δ ^ 2 / 2 ≤ Real.sin x := by
  have e : Real.sin x = Real.cos (x - Real.pi / 2 - k * (2 * Real.pi)) := by
    rw [Real.cos_sub_int_mul_two_pi, Real.cos_sub_pi_div_two]
  have h2 := Real.one_sub_sq_div_two_le_cos (x := x - Real.pi / 2 - k * (2 * Real.pi))
  have h3 : (x - Real.pi / 2 - k * (2 * Real.pi)) ^ 2 ≤ δ ^ 2 := by
    rw [← sq_abs]
    exact pow_le_pow_left₀ (abs_nonneg _) h 2
  rw [e]
  linarith

theorem sin_le_near_trough (x : ℝ) (k : ℤ) (δ : ℝ)
    (h : |x + Real.pi / 2 - k * (2 * Real.pi)| ≤ δ) : Real.sin x ≤ -(1 - δ ^ 2 / 2) := by
  have e : Real.sin x = -Real.cos (x + Real.pi / 2 - k * (2 * Real.pi)) := by
    rw [Real.cos_sub_int_mul_two_pi, Real.cos_add_pi_div_two, neg_neg]
  have h2 := Real.one_sub_sq_div_two_le_cos (x := x + Real.pi / 2 - k * (2 * Real.pi))
  have h3 : (x + Real.pi / 2 - k * (2 * Real.pi)) ^ 2 ≤ δ ^ 2 := by
    rw [← sq_abs]
    exact pow_le_pow_left₀ (abs_nonneg _) h 2
  rw [e]
  linarith

theorem cos_le_near_trough (x : ℝ) (k : ℤ) (δ : ℝ)
    (h : |x - Real.pi - k * (2 * Real.pi)| ≤ δ) : Real.cos x ≤ -(1 - δ ^ 2 / 2) := by
  have e : Real.cos x = -Real.cos (x - Real.pi - k * (2 * Real.pi)) := by
    rw [Real.cos_sub_int_mul_two_pi, Real.cos_sub_pi, neg_neg]
  have h2 := Real.one_sub_sq_div_two_le_cos (x := x - Real.pi - k * (2 * Real.pi))
  have h3 : (x - Real.pi - k * (2 * Real.pi)) ^ 2 ≤ δ ^ 2 := by
    rw [← sq_abs]
    exact pow_le_pow_left₀ (abs_nonneg _) h 2
  rw [e]
  linarith

theorem jupiter_terms (d : ℝ) (hd : d = 38752) :
    0.51 ≤ Real.sin (2 * (0.347233254684272 + 1.450112046753E-3 * d) -
      5 * (5.53211777016887 + 5.837118978783E-4 * d) - 1.17984257434817) ∧
    Real.sin (3 * (0.347233254684272 + 1.450112046753E-3 * d) -
      5 * (5.53211777016887 + 5.837118978783E-4 * d) + 0.366519142918809) ≤ -0.81 ∧
    Real.cos ((0.347233254684272 + 1.450112046753E-3 * d) -
      (5.53211777016887 + 5.837118978783E-4 * d)) ≤ -0.99 ∧
    Real.sin (2 * (0.347233254684272 + 1.450112046753E-3 * d) -
      3 * (5.53211777016887 + 5.837118978783E-4 * d) + 0.907571211037051) ≤ -0.95 := by
  have h1 := Real.pi_gt_d20
  have h2 := Real.pi_lt_d20
  subst hd
  refine ⟨?_, ?_, ?_, ?_⟩
  · have h := sin_ge_near_peak (2 * (0.347233254684272 + 1.450112046753E-3 * 38752) -
      5 * (5.53211777016887 + 5.837118978783E-4 * 38752) - 1.17984257434817) (-5) 0.9887
      (by rw [abs_le]; push_cast; constructor <;> norm_num at h1 h2 ⊢ <;> linarith)
    norm_num at h ⊢
    linarith
  · have h := sin_le_near_trough (3 * (0.347233254684272 + 1.450112046753E-3 * 38752) -
      5 * (5.53211777016887 + 5.837118978783E-4 * 38752) + 0.366519142918809) 5 0.6134
      (by rw [abs_le]; push_cast; constructor <;> norm_num at h1 h2 ⊢ <;> linarith)
    norm_num at h ⊢
    linarith
  · have h := cos_le_near_trough ((0.347233254684272 + 1.450112046753E-3 * 38752) -
      (5.53211777016887 + 5.837118978783E-4 * 38752)) 4 0.1156
      (by rw [abs_le]; push_cast; constructor <;> norm_num at h1 h2 ⊢ <;> linarith)
    norm_num at h ⊢
    linarith
  · have h := sin_le_near_trough (2 * (0.347233254684272 + 1.450112046753E-3 * 38752) -
      3 * (5.53211777016887 + 5.837118978783E-4 * 38752) + 0.907571211037051) 5 0.31
      (by rw [abs_le]; push_cast; constructor <;> norm_num at h1 h2 ⊢ <;> linarith)
    norm_num at h ⊢
    linarith

/-- C22, the code against the claim. The correction that `getPlanet` adds to the
radian-valued longitude of Jupiter has the degree amplitudes of the method as they are:
its leading term is `0.332 * sin (..)`, where 0.332 degrees is less than 0.0058 rad, while
the Moon's leading term has the amplitude 0.022235495, which is 1.274 degrees in radians.
At `now = 4294771200` (day number 38752) the correction shifts the longitude of Jupiter by
less than -0.138 rad, which is more than 7 degrees: it is neither below one degree nor
below 0.0092 rad in magnitude. -/
theorem jupiter_perturbation_in_degrees (p : Ecliptic) :
    (∀ d : ℝ, (perturb_planet 5 d p).lon =
      p.lon
        - 0.332 * Real.sin (2 * (0.347233254684272 + 1.450112046753E-3 * d) -
            5 * (5.53211777016887 + 5.837118978783E-4 * d) - 1.17984257434817)
        - 0.056 * Real.sin (2 * (0.347233254684272 + 1.450112046753E-3 * d) -
            2 * (5.53211777016887 + 5.837118978783E-4 * d) + 0.366519142918809)
        + 0.042 * Real.sin (3 * (0.347233254684272 + 1.450112046753E-3 * d) -
            5 * (5.53211777016887 + 5.837118978783E-4 * d) + 0.366519142918809)
        - 0.036 * Real.sin ((0.347233254684272 + 1.450112046753E-3 * d) -
            2 * (5.53211777016887 + 5.837118978783E-4 * d))
        + 0.022 * Real.cos ((0.347233254684272 + 1.450112046753E-3 * d) -
            (5.53211777016887 + 5.837118978783E-4 * d))
        + 0.023 * Real.sin (2 * (0.347233254684272 + 1.450112046753E-3 * d) -
            3 * (5.53211777016887 + 5.837118978783E-4 * d) + 0.907571211037051)
        - 0.016 * Real.sin ((0.347233254684272 + 1.450112046753E-3 * d) -
            5 * (5.53211777016887 + 5.837118978783E-4 * d) - 1.20427718387609)) ∧
    (0.332 : ℝ) * Real.pi / 180 < 0.0058 ∧
    |(0.022235495 : ℝ) - 1.274 * Real.pi / 180| ≤ 1e-9 ∧
    day_number 4294771200 = 38752 ∧
    (perturb_planet 5 (day_number 4294771200) p).lon - p.lon ≤ -0.138 ∧
    (-0.138 : ℝ) < -(7 * Real.pi / 180) ∧
    ¬ (|(perturb_planet 5 (day_number 4294771200) p).lon - p.lon| < 1 * Real.pi / 180) ∧
    ¬ (|(perturb_planet 5 (day_number 4294771200) p).lon - p.lon| ≤ 0.0092) := by
  have h1 := Real.pi_gt_d20
  have h2 := Real.pi_lt_d20
  have hd : day_number 4294771200 = 38752 := by
    unfold day_number; norm_num
  have hf : ∀ d : ℝ, (perturb_planet 5 d p).lon =
      p.lon
        - 0.332 * Real.sin (2 * (0.347233254684272 + 1.450112046753E-3 * d) -
            5 * (5.53211777016887 + 5.837118978783E-4 * d) - 1.17984257434817)
        - 0.056 * Real.sin (2 * (0.347233254684272 + 1.450112046753E-3 * d) -
            2 * (5.53211777016887 + 5.837118978783E-4 * d) + 0.366519142918809)
        + 0.042 * Real.sin (3 * (0.347233254684272 + 1.450112046753E-3 * d) -
            5 * (5.53211777016887 + 5.837118978783E-4 * d) + 0.366519142918809)
        - 0.036 * Real.sin ((0.347233254684272 + 1.450112046753E-3 * d) -
            2 * (5.53211777016887 + 5.837118978783E-4 * d))
        + 0.022 * Real.cos ((0.347233254684272 + 1.450112046753E-3 * d) -
            (5.53211777016887 + 5.837118978783E-4 * d))
        + 0.023 * Real.sin (2 * (0.347233254684272 + 1.450112046753E-3 * d) -
            3 * (5.53211777016887 + 5.837118978783E-4 * d) + 0.907571211037051)
        - 0.016 * Real.sin ((0.347233254684272 + 1.450112046753E-3 * d) -
            5 * (5.53211777016887 + 5.837118978783E-4 * d) - 1.20427718387609) := by
    intro d
    simp only [perturb_planet, if_true]
  have hshift : (perturb_planet 5 (day_number 4294771200) p).lon - p.lon ≤ -0.138 := by
    rw [hd, hf]
    obtain ⟨t1, t3, t5, t6⟩ := jupiter_terms 38752 rfl
    have t2 := Real.neg_one_le_sin (2 * (0.347233254684272 + 1.450112046753E-3 * 38752) -
      2 * (5.53211777016887 + 5.837118978783E-4 * 38752) + 0.366519142918809)
    have t4 := Real.neg_one_le_sin ((0.347233254684272 + 1.450112046753E-3 * 38752) -
      2 * (5.53211777016887 + 5.837118978783E-4 * 38752))
    have t7 := Real.neg_one_le_sin ((0.347233254684272 + 1.450112046753E-3 * 38752) -
      5 * (5.53211777016887 + 5.837118978783E-4 * 38752) - 1.20427718387609)
    generalize Real.sin (2 * (0.347233254684272 + 1.450112046753E-3 * 38752) -
      5 * (5.53211777016887 + 5.837118978783E-4 * 38752) - 1.17984257434817) = s1 at t1 ⊢
    generalize Real.sin (2 * (0.347233254684272 + 1.450112046753E-3 * 38752) -
      2 * (5.53211777016887 + 5.837118978783E-4 * 38752) + 0.366519142918809) = s2 at t2 ⊢
    generalize Real.sin (3 * (0.347233254684272 + 1.450112046753E-3 * 38752) -
      5 * (5.53211777016887 + 5.837118978783E-4 * 38752) + 0.366519142918809) = s3 at t3 ⊢
    generalize Real.sin ((0.347233254684272 + 1.450112046753E-3 * 38752) -
      2 * (5.53211777016887 + 5.837118978783E-4 * 38752)) = s4 at t4 ⊢
    generalize Real.cos ((0.347233254684272 + 1.450112046753E-3 * 38752) -
      (5.53211777016887 + 5.837118978783E-4 * 38752)) = s5 at t5 ⊢
    generalize Real.sin (2 * (0.347233254684272 + 1.450112046753E-3 * 38752) -
      3 * (5.53211777016887 + 5.837118978783E-4 * 38752) + 0.907571211037051) = s6 at t6 ⊢
    generalize Real.sin ((0.347233254684272 + 1.450112046753E-3 * 38752) -
      5 * (5.53211777016887 + 5.837118978783E-4 * 38752) - 1.20427718387609) = s7 at t7 ⊢
    norm_num at t1 t3 t5 t6 ⊢
    linarith
  have h7 : (-0.138 : ℝ) < -(7 * Real.pi / 180) := by
    norm_num at h2 ⊢; linarith
  refine ⟨hf, by norm_num at h2 ⊢; linarith, ?_, hd, hshift, h7, ?_, ?_⟩
  · rw [abs_le]
    constructor <;> norm_num at h1 h2 ⊢ <;> linarith
  · intro h
    have := (abs_lt.mp h).1
    linarith
  · intro h
    have := (abs_le.mp h).1
    norm_num at this hshift
    linarith

/-! ## astronomy.cpp: `transform` and the spherical formula -/

theorem transform_eq (ra dc lat sid : ℝ) :
    transform ra dc lat sid =
      ((transform_radians ra dc lat sid).1 / pi * 180,
       (transform_radians ra dc lat sid).2 / pi * 180) := rfl

theorem transform_vector_unit (ra dc lat sid : ℝ) :
    (transform_vector ra dc lat sid).1 ^ 2 + (transform_vector ra dc lat sid).2.1 ^ 2 +
      (transform_vector ra dc lat sid).2.2 ^ 2 = 1 := by
  simp only [transform_vector]
  have h1 := Real.sin_sq_add_cos_sq (sid - ra / 12.00 * pi)
  have h2 := Real.sin_sq_add_cos_sq (dc / 180.0 * pi)
  have h3 := Real.sin_sq_add_cos_sq (lat / 180.0 * pi)
  generalize Real.sin (sid - ra / 12.00 * pi) = sH at h1 ⊢
  generalize Real.cos (sid - ra / 12.00 * pi) = cH at h1 ⊢
  generalize Real.sin (dc / 180.0 * pi) = sD at h2 ⊢
  generalize Real.cos (dc / 180.0 * pi) = cD at h2 ⊢
  generalize Real.sin (lat / 180.0 * pi) = sL at h3 ⊢
  generalize Real.cos (lat / 180.0 * pi) = cL at h3 ⊢
  have e : (cH * cD * sL - sD * cL) ^ 2 + (sH * cD) ^ 2 + (cH * cD * cL + sD * sL) ^ 2 =
      (sH ^ 2 + cH ^ 2) * cD ^ 2 * (sL ^ 2 + cL ^ 2) + sD ^ 2 * (sL ^ 2 + cL ^ 2)
        + (sH ^ 2 * cD ^ 2) * (1 - (sL ^ 2 + cL ^ 2)) := by ring
  rw [e, h1, h3]
  linarith

theorem atan2_nonneg_range (y x : ℝ) (hx : 0 ≤ x) :
    -(Real.pi / 2) ≤ atan2 y x ∧ atan2 y x ≤ Real.pi / 2 := by
  have hp := Real.pi_pos
  unfold atan2
  split_ifs with h1 h2 h3 h4
  · exact ⟨(Real.neg_pi_div_two_lt_arctan _).le, (Real.arctan_lt_pi_div_two _).le⟩
  · exact absurd h2 (not_lt.mpr hx)
  · exact absurd h2 (not_lt.mpr hx)
  · exact ⟨by linarith, le_refl _⟩
  · exact ⟨le_refl _, by linarith⟩
  · exact ⟨by linarith, by linarith⟩

theorem transform_altitude_sin (ra dc lat sid : ℝ) :
    Real.sin (transform_radians ra dc lat sid).2 = (transform_vector ra dc lat sid).2.2 := by
  have hu := transform_vector_unit ra dc lat sid
  simp only [transform_radians]
  set x := (transform_vector ra dc lat sid).1
  set y := (transform_vector ra dc lat sid).2.1
  set z := (transform_vector ra dc lat sid).2.2
  have hs : Real.sqrt (x * x + y * y) ^ 2 = x * x + y * y :=
    Real.sq_sqrt (add_nonneg (mul_self_nonneg _) (mul_self_nonneg _))
  have h := (atan2_sin_cos z (Real.sqrt (x * x + y * y)) 1 (Real.sqrt_nonneg _) one_pos
    (by rw [hs]; nlinarith)).1
  rw [h, div_one]

theorem transform_vector_meridian (ra dc lat : ℝ) :
    transform_vector ra dc lat (ra / 12.00 * pi) =
      (Real.sin (lat / 180.0 * pi - dc / 180.0 * pi), 0,
        Real.cos (lat / 180.0 * pi - dc / 180.0 * pi)) := by
  simp only [transform_vector, sub_self, Real.cos_zero, Real.sin_zero, Real.sin_sub,
    Real.cos_sub, Prod.mk.injEq]
  refine ⟨by ring, by ring, by ring⟩

theorem atan2_cos_sin (θ : ℝ) (h0 : 0 < θ) (h1 : θ < Real.pi) :
    atan2 (Real.cos θ) (Real.sin θ) = Real.pi / 2 - θ := by
  have hs : 0 < Real.sin θ := Real.sin_pos_of_pos_of_lt_pi h0 h1
  have h := (atan2_sin_cos (Real.cos θ) (Real.sin θ) 1 hs.le one_pos
    (by rw [one_pow]; exact Real.sin_sq_add_cos_sq θ)).1
  rw [div_one] at h
  have h2 : Real.sin (atan2 (Real.cos θ) (Real.sin θ)) = Real.sin (Real.pi / 2 - θ) := by
    rw [h, Real.sin_pi_div_two_sub]
  have hr := atan2_nonneg_range (Real.cos θ) (Real.sin θ) hs.le
  exact Real.injOn_sin ⟨hr.1, hr.2⟩ ⟨by linarith, by linarith⟩ h2

/-- The horizontal transform against the standard spherical formula, in exact arithmetic
with the macro `pi` as the sixteen-digit number it is. With `H = sidereal - RA / 12 * pi`,
`delta = Dec / 180 * pi` and `phi = latitude / 180 * pi`: the rotated vector
`(tmp_x, tmp_y, tmp_z)` has unit length; the returned altitude, taken back to radians with
the macro, satisfies `sin (alt / 180 * pi) = sin phi * sin delta +
cos phi * cos delta * cos H`; the angle `object_al_r` lies in `[-π/2, π/2]`, so the returned
altitude is at most `90 * (π / pi)` in magnitude, a bound that is above 90 by less than
`1e-13` and that is attained at the zenith (`transform (0, 0, 0, 0)`). For an object on the
meridian (`H = 0`) with `delta < phi` (declination and latitude in `[-90, 90]` degrees) the
returned azimuth is 180 and the returned altitude is `90 * (π / pi) - (latitude - Dec)`. -/
theorem transform_altitude_exact (ra dc lat sid : ℝ) :
    (transform_vector ra dc lat sid).1 ^ 2 + (transform_vector ra dc lat sid).2.1 ^ 2 +
      (transform_vector ra dc lat sid).2.2 ^ 2 = 1 ∧
    Real.sin ((transform ra dc lat sid).2 / 180.0 * pi) =
      Real.sin (lat / 180.0 * pi) * Real.sin (dc / 180.0 * pi) +
        Real.cos (lat / 180.0 * pi) * Real.cos (dc / 180.0 * pi) *
          Real.cos (sid - ra / 12.00 * pi) ∧
    (transform ra dc lat sid).2 = (transform_radians ra dc lat sid).2 / pi * 180 ∧
    -(Real.pi / 2) ≤ (transform_radians ra dc lat sid).2 ∧
    (transform_radians ra dc lat sid).2 ≤ Real.pi / 2 ∧
    |(transform ra dc lat sid).2| ≤ 90 * (Real.pi / pi) ∧
    90 * (Real.pi / pi) < 90 + 1e-13 ∧
    (transform 0 0 0 0).2 = 90 * (Real.pi / pi) ∧
    90 < (transform 0 0 0 0).2 ∧
    (sid = ra / 12.00 * pi → dc < lat → -90 ≤ dc → lat ≤ 90 →
      (transform ra dc lat sid).1 = 180 ∧
      (transform ra dc lat sid).2 = 90 * (Real.pi / pi) - (lat - dc)) := by
  have hpi : (0 : ℝ) < pi := pi_pos
  have hPi := Real.pi_pos
  have hsin := transform_altitude_sin ra dc lat sid
  have hrange : -(Real.pi / 2) ≤ (transform_radians ra dc lat sid).2 ∧
      (transform_radians ra dc lat sid).2 ≤ Real.pi / 2 := by
    simp only [transform_radians]
    exact atan2_nonneg_range _ _ (Real.sqrt_nonneg _)
  have hgap : Real.pi / pi < 1 + 1e-15 := by
    rw [div_lt_iff₀ hpi]
    have h := Real.pi_lt_d20
    unfold pi
    norm_num at h ⊢
    linarith
  have hback : ∀ a b c e : ℝ, (transform a b c e).2 / 180.0 * pi =
      (transform_radians a b c e).2 := by
    intro a b c e
    rw [transform_eq]
    simp only
    rw [show (180.0 : ℝ) = 180 by norm_num]
    field_simp
    ring
  have hzenith : (transform 0 0 0 0).2 = 90 * (Real.pi / pi) := by
    rw [transform_eq]
    simp only [transform_radians, transform_vector]
    have hz : atan2 (Real.cos (0 - 0 / 12.00 * pi) * Real.cos (0 / 180.0 * pi) *
        Real.cos (0 / 180.0 * pi) + Real.sin (0 / 180.0 * pi) * Real.sin (0 / 180.0 * pi))
        (Real.sqrt ((Real.cos (0 - 0 / 12.00 * pi) * Real.cos (0 / 180.0 * pi) *
          Real.sin (0 / 180.0 * pi) - Real.sin (0 / 180.0 * pi) * Real.cos (0 / 180.0 * pi)) *
          (Real.cos (0 - 0 / 12.00 * pi) * Real.cos (0 / 180.0 * pi) *
          Real.sin (0 / 180.0 * pi) - Real.sin (0 / 180.0 * pi) * Real.cos (0 / 180.0 * pi)) +
          Real.sin (0 - 0 / 12.00 * pi) * Real.cos (0 / 180.0 * pi) *
          (Real.sin (0 - 0 / 12.00 * pi) * Real.cos (0 / 180.0 * pi)))) = Real.pi / 2 := by
      simp [atan2]
    rw [hz]
    field_simp
    ring
  refine ⟨transform_vector_unit ra dc lat sid, ?_, rfl, hrange.1, hrange.2, ?_, ?_, hzenith, ?_,
    ?_⟩
  · rw [hback, hsin]
    simp only [transform_vector]
    ring
  · rw [transform_eq]
    simp only
    rw [div_mul_eq_mul_div, abs_div, abs_of_pos hpi, div_le_iff₀ hpi]
    have e : 90 * (Real.pi / pi) * pi = 90 * Real.pi := by field_simp
    rw [e, abs_le]
    constructor <;> linarith [hrange.1, hrange.2]
  · norm_num at hgap ⊢
    linarith
  · rw [hzenith]
    have h1 : 1 < Real.pi / pi := by
      rw [lt_div_iff₀ hpi]
      linarith [pi_macro_lt_pi]
    linarith
  · intro hH hlt hdc hlat
    subst hH
    have hθ0 : 0 < lat / 180.0 * pi - dc / 180.0 * pi := by
      have : (lat - dc) / 180.0 * pi > 0 := by
        apply mul_pos _ hpi
        apply div_pos (by linarith) (by norm_num)
      linarith [show lat / 180.0 * pi - dc / 180.0 * pi = (lat - dc) / 180.0 * pi by ring]
    have hθ1 : lat / 180.0 * pi - dc / 180.0 * pi < Real.pi := by
      have e : lat / 180.0 * pi - dc / 180.0 * pi = (lat - dc) / 180.0 * pi := by ring
      have h1 : (lat - dc) / 180.0 ≤ 1 := by
        rw [div_le_iff₀ (by norm_num)]; linarith
      have h2 : (lat - dc) / 180.0 * pi ≤ 1 * pi := mul_le_mul_of_nonneg_right h1 hpi.le
      have := pi_macro_lt_pi
      linarith
    have hs := Real.sin_pos_of_pos_of_lt_pi hθ0 hθ1
    constructor
    · rw [transform_eq]
      simp only [transform_radians, transform_vector_meridian]
      have : atan2 0 (Real.sin (lat / 180.0 * pi - dc / 180.0 * pi)) = 0 := by
        unfold atan2
        rw [if_pos hs]
        simp
      rw [this]
      field_simp
    · have hal : (transform_radians ra dc lat (ra / 12.00 * pi)).2 =
          Real.pi / 2 - (lat / 180.0 * pi - dc / 180.0 * pi) := by
        simp only [transform_radians, transform_vector_meridian]
        have hsq : Real.sqrt (Real.sin (lat / 180.0 * pi - dc / 180.0 * pi) *
            Real.sin (lat / 180.0 * pi - dc / 180.0 * pi) + 0 * 0) =
            Real.sin (lat / 180.0 * pi - dc / 180.0 * pi) := by
          rw [mul_zero, add_zero, Real.sqrt_mul_self hs.le]
        rw [hsq]
        exact atan2_cos_sin _ hθ0 hθ1
      rw [transform_eq]
      simp only
      rw [hal]
      field_simp
      ring

/-! ## astronomy.cpp: the vector added for the geocentric position -/

theorem sun_vector (d : ℝ) :
    (sun d).xg = sun_ro d * Real.cos (sun d).lonsun ∧
    (sun d).yg = sun_ro d * Real.sin (sun d).lonsun ∧ (sun d).zg = 0 :=
  ⟨rfl, rfl, rfl⟩

theorem sun_ro_new_year : sun_ro 1 < 0.984 := by
  have e1 : (0.016709 - 1.151E-09 * (1 : ℝ)) = 0.016708998849 := by norm_num
  have e2 : (6.21419244184825 + 1.720196961933E-2 * (1 : ℝ)) = 6.23139441146758 := by norm_num
  unfold sun_ro
  simp only [e1, e2]
  rw [orbit_radius 1.0 0.016708998849 _ (by norm_num) (by norm_num) (by norm_num)]
  set M : ℝ := 6.23139441146758 with hM
  set E : ℝ := M + 0.016708998849 * Real.sin M * (1.0 + 0.016708998849 * Real.cos M) with hE
  clear_value E
  clear_value M
  have hs := Real.sin_le_one M
  have hs2 := Real.neg_one_le_sin M
  have hc := Real.cos_le_one M
  have hc2 := Real.neg_one_le_cos M
  have hprod : |0.016708998849 * Real.sin M * (1.0 + 0.016708998849 * Real.cos M)| ≤ 0.0171 := by
    rw [abs_mul, abs_mul]
    have a1 : |(0.016708998849 : ℝ)| = 0.016708998849 := abs_of_pos (by norm_num)
    have a2 : |Real.sin M| ≤ 1 := abs_le.mpr ⟨hs2, hs⟩
    have a3 : |1.0 + 0.016708998849 * Real.cos M| ≤ 1.02 := by
      rw [abs_le]; constructor <;> norm_num <;> linarith
    rw [a1]
    calc 0.016708998849 * |Real.sin M| * |1.0 + 0.016708998849 * Real.cos M|
        ≤ 0.016708998849 * 1 * 1.02 := by
          apply mul_le_mul _ a3 (abs_nonneg _) (by norm_num)
          exact mul_le_mul_of_nonneg_left a2 (by norm_num)
      _ ≤ 0.0171 := by norm_num
  have hpi1 := Real.pi_gt_d20
  have hpi2 := Real.pi_lt_d20
  have hy : |E - 2 * Real.pi| ≤ 0.07 := by
    have hP := abs_le.mp hprod
    generalize 0.016708998849 * Real.sin M * (1.0 + 0.016708998849 * Real.cos M) = P at hE hP
    rw [abs_le, hE, hM]
    norm_num at hpi1 hpi2 hP ⊢
    constructor <;> linarith [hP.1, hP.2]
  have hcos : 0.99 ≤ Real.cos E := by
    have h1 : Real.cos E = Real.cos (E - 2 * Real.pi) := (Real.cos_sub_two_pi E).symm
    have h2 := Real.one_sub_sq_div_two_le_cos (x := E - 2 * Real.pi)
    have h3 : (E - 2 * Real.pi) ^ 2 ≤ 0.07 ^ 2 := by
      rw [← sq_abs]
      exact pow_le_pow_left₀ (abs_nonneg _) hy 2
    rw [h1]
    norm_num at h3 ⊢
    linarith
  norm_num
  linarith

/-- C24, the code against the claim. For every object other than the Moon `getPlanet`
adds to the heliocentric vector the vector `(as * cos lonsun, as * sin lonsun, 0)` with
the semi-major axis `as = 1.0`, a vector of length 1, where the Sun's position vector of
the same call is `(ro * cos lonsun, ro * sin lonsun, 0)` with the Sun's distance `ro`. At
`now = 946684800` (2000-01-01, day number 1) the Sun's distance is below 0.984, so for
every planet and every heliocentric position the geocentric vector of the code differs
from the heliocentric vector plus the Sun's position vector. For the Moon nothing is
added. -/
theorem geocentric_adds_unit_vector (object : Int) (p : Ecliptic) :
    (object ≠ 3 → ∀ s : SunState, geocentric object s p =
      (p.ro * Real.cos p.lon * Real.cos p.lat + s.as * Real.cos s.lonsun,
       p.ro * Real.sin p.lon * Real.cos p.lat + s.as * Real.sin s.lonsun,
       p.ro * Real.sin p.lat)) ∧
    (∀ d, (sun d).as = 1 ∧ (sun d).xg = sun_ro d * Real.cos (sun d).lonsun ∧
      (sun d).yg = sun_ro d * Real.sin (sun d).lonsun ∧ (sun d).zg = 0) ∧
    day_number 946684800 = 1 ∧
    sun_ro 1 < 0.984 ∧
    (object ≠ 3 → geocentric object (sun 1) p ≠
      (p.ro * Real.cos p.lon * Real.cos p.lat + (sun 1).xg,
       p.ro * Real.sin p.lon * Real.cos p.lat + (sun 1).yg,
       p.ro * Real.sin p.lat + (sun 1).zg)) ∧
    (∀ s : SunState, geocentric 3 s p =
      (p.ro * Real.cos p.lon * Real.cos p.lat, p.ro * Real.sin p.lon * Real.cos p.lat,
       p.ro * Real.sin p.lat)) := by
  have hg : object ≠ 3 → ∀ s : SunState, geocentric object s p =
      (p.ro * Real.cos p.lon * Real.cos p.lat + s.as * Real.cos s.lonsun,
       p.ro * Real.sin p.lon * Real.cos p.lat + s.as * Real.sin s.lonsun,
       p.ro * Real.sin p.lat) := by
    intro h s
    simp only [geocentric, if_neg h]
  have has : ∀ d, (sun d).as = 1 := by
    intro d; rw [sun_as]; norm_num
  refine ⟨hg, fun d => ⟨has d, rfl, rfl, rfl⟩, by unfold day_number; norm_num,
    sun_ro_new_year, ?_, ?_⟩
  · intro h heq
    rw [hg h (sun 1), has 1] at heq
    obtain ⟨hx, hy, hz⟩ := sun_vector 1
    rw [hx, hy] at heq
    simp only [Prod.mk.injEq] at heq
    obtain ⟨h1, h2, -⟩ := heq
    have hr := sun_ro_new_year
    have hc : (1 - sun_ro 1) * Real.cos (sun 1).lonsun = 0 := by linarith
    have hs : (1 - sun_ro 1) * Real.sin (sun 1).lonsun = 0 := by linarith
    have hne : (1 - sun_ro 1) ≠ 0 := by
      have : (0 : ℝ) < 1 - sun_ro 1 := by norm_num at hr ⊢; linarith
      exact ne_of_gt this
    have hc0 := (mul_eq_zero.mp hc).resolve_left hne
    have hs0 := (mul_eq_zero.mp hs).resolve_left hne
    have := Real.sin_sq_add_cos_sq (sun 1).lonsun
    rw [hc0, hs0] at this
    norm_num at this
  · intro s
    simp only [geocentric, if_true]

/-! ## The Kepler loop: number of updates and the last change -/

theorem kepler_loop_zero (e M E dE : ℝ) (h : dE < -0.000872664 ∨ dE > 0.000872664) :
    kepler_loop e M 0 E dE = none := by
  rw [kepler_loop]
  simp only [h, if_true]

theorem kepler_loop_result (e M : ℝ) :
    ∀ (fuel : Nat) (E dE x : ℝ), kepler_loop e M fuel E dE = some x →
      ∃ n, n ≤ fuel ∧ x = Nat.iterate (kepler_step e M) n E ∧
        (n = 0 → ¬ (dE < -0.000872664 ∨ dE > 0.000872664)) ∧
        (0 < n → (dE < -0.000872664 ∨ dE > 0.000872664) ∧
          ¬ (kepler_delta e M (Nat.iterate (kepler_step e M) (n - 1) E) < -0.000872664 ∨
            kepler_delta e M (Nat.iterate (kepler_step e M) (n - 1) E) > 0.000872664)) ∧
        (∀ k, k + 1 < n →
          (kepler_delta e M (Nat.iterate (kepler_step e M) k E) < -0.000872664 ∨
            kepler_delta e M (Nat.iterate (kepler_step e M) k E) > 0.000872664)) := by
  intro fuel
  induction fuel with
  | zero =>
    intro E dE x h
    by_cases c : dE < -0.000872664 ∨ dE > 0.000872664
    · rw [kepler_loop_zero e M E dE c] at h
      exact absurd h (by simp)
    · rw [kepler_loop_stop e M 0 E dE c] at h
      simp only [Option.some.injEq] at h
      exact ⟨0, le_refl _, h.symm, fun _ => c, fun h0 => absurd h0 (lt_irrefl 0),
        fun k hk => absurd hk (by omega)⟩
  | succ fuel ih =>
    intro E dE x h
    by_cases c : dE < -0.000872664 ∨ dE > 0.000872664
    · rw [kepler_loop_next e M fuel E dE c] at h
      obtain ⟨n, hn, hx, z, p, q⟩ := ih _ _ _ h
      refine ⟨n + 1, by omega, ?_, fun h0 => absurd h0 (by omega), fun _ => ⟨c, ?_⟩, ?_⟩
      · rw [Function.iterate_succ_apply]
        exact hx
      · rw [Nat.add_sub_cancel]
        rcases Nat.eq_zero_or_pos n with hz | hp
        · subst hz
          exact z rfl
        · have := (p hp).2
          obtain ⟨m, rfl⟩ : ∃ m, n = m + 1 := ⟨n - 1, by omega⟩
          rw [Nat.add_sub_cancel] at this
          rw [Function.iterate_succ_apply]
          exact this
      · intro k hk
        cases k with
        | zero => exact (p (by omega)).1
        | succ j =>
          rw [Function.iterate_succ_apply]
          exact q j (by omega)
    · rw [kepler_loop_stop e M (fuel + 1) E dE c] at h
      simp only [Option.some.injEq] at h
      exact ⟨0, by omega, h.symm, fun _ => c, fun h0 => absurd h0 (lt_irrefl 0),
        fun k hk => absurd hk (by omega)⟩

theorem tolerance_degrees : |(0.000872664 : ℝ) - 0.05 * Real.pi / 180| ≤ 1e-9 := by
  have h1 := Real.pi_gt_d20
  have h2 := Real.pi_lt_d20
  rw [abs_le]
  constructor <;> norm_num at h1 h2 ⊢ <;> linarith

/-- C25. Totality of the Kepler solver over real arithmetic. For every eccentricity `e` in
`[0, 0.21]` and every mean anomaly `M`, the loop of `getPlanet`, started from
`E0 = M + e * sin M * (1 + e * cos M)` with `EoDelta = 1.0`, returns with any fuel of at
least three iterations; it makes `n` updates `E <- E - (E - e * sin E - M) / (1 - e * cos E)`
with `1 ≤ n ≤ 3`; the last change in `E` has magnitude at most 0.000872664, and every
earlier change was larger; with no fuel for a first update nothing is returned. The
threshold 0.000872664 rad is 0.05 degrees to within `1e-9` rad. -/
theorem eccentric_anomaly_total (e M : ℝ) (h0 : 0 ≤ e) (h1 : e ≤ 0.21) (fuel : Nat)
    (hfuel : 3 ≤ fuel) :
    ∃ n, 1 ≤ n ∧ n ≤ 3 ∧
      eccentric_anomaly fuel e M =
        some (Nat.iterate (kepler_step e M) n (M + e * Real.sin M * (1.0 + e * Real.cos M))) ∧
      |kepler_delta e M
        (Nat.iterate (kepler_step e M) (n - 1) (M + e * Real.sin M * (1.0 + e * Real.cos M)))|
          ≤ 0.000872664 ∧
      (∀ k, k < n - 1 → 0.000872664 < |kepler_delta e M
        (Nat.iterate (kepler_step e M) k (M + e * Real.sin M * (1.0 + e * Real.cos M)))|) ∧
      eccentric_anomaly 0 e M = none ∧
      |(0.000872664 : ℝ) - 0.05 * Real.pi / 180| ≤ 1e-9 := by
  obtain ⟨Eo, h3⟩ := eccentric_anomaly_terminates e M h0 h1 3 (le_refl _)
  have hf : eccentric_anomaly fuel e M = some Eo := kepler_loop_mono e M 3 _ _ Eo h3 fuel hfuel
  obtain ⟨n, hn, hx, z, p, q⟩ := kepler_loop_result e M 3 _ _ Eo h3
  have hpos : 0 < n := by
    rcases Nat.eq_zero_or_pos n with hz | hp
    · exact absurd (Or.inr (by norm_num)) (z hz)
    · exact hp
  have hlast := (p hpos).2
  refine ⟨n, hpos, hn, ?_, ?_, ?_, ?_, tolerance_degrees⟩
  · rw [hf, hx]
  · rw [abs_le]
    push_neg at hlast
    exact ⟨hlast.1, hlast.2⟩
  · intro k hk
    rcases q k (by omega) with c | c
    · rw [lt_abs]; right; linarith
    · rw [lt_abs]; left; exact c
  · exact kepler_loop_zero e M _ _ (Or.inr (by norm_num))

/-- C25, on a circular orbit (`e = 0`) with mean anomaly 1: the loop returns after its
updates, at most three. -/
theorem eccentric_anomaly_total_witness :
    ((0 : ℝ) ≤ 0 ∧ (0 : ℝ) ≤ 0.21 ∧ 3 ≤ 3) ∧
    ∃ n, 1 ≤ n ∧ n ≤ 3 ∧
      eccentric_anomaly 3 0 1 =
        some (Nat.iterate (kepler_step 0 1) n (1 + 0 * Real.sin 1 * (1.0 + 0 * Real.cos 1))) := by
  obtain ⟨n, h1, h2, h3, -⟩ := eccentric_anomaly_total 0 1 (le_refl _) (by norm_num) 3 (le_refl _)
  exact ⟨⟨le_refl _, by norm_num, le_refl _⟩, n, h1, h2, h3⟩

/-! ## The targets of `set_pointer` and the register range -/

theorem trunc_bounds {K : Type} [LinearOrderedField K] [FloorRing K] (x : K) (lo hi : Int)
    (hlo : lo ≤ 0) (hhi : 0 ≤ hi) (h0 : (lo : K) - 1 < x) (h1 : x < (hi : K) + 1) :
    lo ≤ trunc x ∧ trunc x ≤ hi := by
  unfold trunc
  split_ifs with h
  · constructor
    · have : (0 : Int) ≤ ⌊x⌋ := Int.floor_nonneg.mpr h
      omega
    · have : ⌊x⌋ < hi + 1 := Int.floor_lt.mpr (by push_cast; exact h1)
      omega
  · push_neg at h
    constructor
    · have : lo - 1 < ⌈x⌉ := Int.lt_ceil.mpr (by push_cast; exact h0)
      omega
    · have : ⌈x⌉ ≤ 0 := Int.ceil_le.mpr (by exact_mod_cast h.le)
      omega

/-- C26. Targets stay inside the persisted-register range. For every azimuth `a` in
`(-180, 180]` (which the fold of `set_pointer` leaves as it is) and every altitude `h` in
`[-90, 90]` degrees, the targets that `set_pointer` hands to `step_to` are
`az_ticks = trunc (-a * 2048 / 360)`, in `[-1024, 1023]`, and
`al_ticks = max (trunc (h * 2048 / 360), -200)`, in `[-200, 512]`; both lie within the
register range `[-2000, 42639]` and fit an `int` of 16 bits, so that `rtcRead` returns
each of them after `rtcWrite`, whatever the register address. -/
theorem set_pointer_targets_in_range {K : Type} [LinearOrderedField K] [FloorRing K] (a h : K)
    (ha0 : -180 < a) (ha1 : a ≤ 180) (hh0 : -90 ≤ h) (hh1 : h ≤ 90) :
    fold_azimuth a = a ∧
    (set_pointer_targets a h).1 = trunc (-a * 2048 / 360) ∧
    (set_pointer_targets a h).2 = max (trunc (h * 2048 / 360)) (-200) ∧
    -1024 ≤ (set_pointer_targets a h).1 ∧ (set_pointer_targets a h).1 ≤ 1023 ∧
    -200 ≤ (set_pointer_targets a h).2 ∧ (set_pointer_targets a h).2 ≤ 512 ∧
    (∀ t, t = (set_pointer_targets a h).1 ∨ t = (set_pointer_targets a h).2 →
      -2000 ≤ t ∧ t ≤ 42639 ∧
      ∀ (w : Nat) (s : Ds3231.Nvram) (adr : Int), 16 ≤ w →
        (Ds3231.rtcRead w (Ds3231.rtcWrite w s adr t) adr).1 = t) := by
  have hf : fold_azimuth a = a := by
    unfold fold_azimuth
    rw [if_neg (not_lt.mpr ha1)]
  have e1 : (set_pointer_targets a h).1 = trunc (-a * 2048 / 360) := by
    simp [set_pointer_targets, hf, steps_per_revolution]
  have e2 : (set_pointer_targets a h).2 = max (trunc (h * 2048 / 360)) (-200) := by
    simp only [set_pointer_targets, protect_pointer, altitude_limit, steps_per_revolution]
    push_cast
    split_ifs with hc
    · rw [max_eq_right hc.le]
    · rw [max_eq_left (not_lt.mp hc)]
  have b1 : -1024 ≤ trunc (-a * 2048 / 360) ∧ trunc (-a * 2048 / 360) ≤ 1023 := by
    apply trunc_bounds _ _ _ (by decide) (by decide)
    · rw [lt_div_iff₀ (by norm_num)]; push_cast; linarith
    · rw [div_lt_iff₀ (by norm_num)]; push_cast; linarith
  have b2 : -512 ≤ trunc (h * 2048 / 360) ∧ trunc (h * 2048 / 360) ≤ 512 := by
    apply trunc_bounds _ _ _ (by decide) (by decide)
    · rw [lt_div_iff₀ (by norm_num)]; push_cast; linarith
    · rw [div_lt_iff₀ (by norm_num)]; push_cast; linarith
  have c1 : -200 ≤ (set_pointer_targets a h).2 := by rw [e2]; exact le_max_right _ _
  have c2 : (set_pointer_targets a h).2 ≤ 512 := by
    rw [e2]; exact max_le b2.2 (by decide)
  refine ⟨hf, e1, e2, e1 ▸ b1.1, e1 ▸ b1.2, c1, c2, ?_⟩
  intro t ht
  have ht2 : -1024 ≤ t ∧ t ≤ 1023 := by
    rcases ht with rfl | rfl
    · exact ⟨e1 ▸ b1.1, e1 ▸ b1.2⟩
    · exact ⟨by omega, by omega⟩
  refine ⟨by omega, by omega, ?_⟩
  intro w s adr hw
  have hp := Ds3231.half_range w hw
  exact Ds3231.rtcRead_after_rtcWrite w hw s adr t (by omega) (by omega) (by omega)

/-- C26, the witnesses of the claim: `a = 90` gives `az_ticks = -512` and `a = -90` gives
`az_ticks = 512`; the altitude 0 gives `al_ticks = 0`. -/
theorem set_pointer_targets_in_range_witness :
    ((-180 : ℚ) < 90 ∧ (90 : ℚ) ≤ 180 ∧ (-180 : ℚ) < -90 ∧ (-90 : ℚ) ≤ 180 ∧
      (-90 : ℚ) ≤ 0 ∧ (0 : ℚ) ≤ 90) ∧
    (set_pointer_targets (90 : ℚ) 0).1 = -512 ∧ (set_pointer_targets (-90 : ℚ) 0).1 = 512 ∧
    (set_pointer_targets (90 : ℚ) 0).2 = 0 ∧
    -1024 ≤ (set_pointer_targets (90 : ℚ) 0).1 ∧ (set_pointer_targets (90 : ℚ) 0).1 ≤ 1023 := by
  have h := set_pointer_targets_in_range (90 : ℚ) 0 (by norm_num) (by norm_num) (by norm_num)
    (by norm_num)
  refine ⟨⟨by norm_num, by norm_num, by norm_num, by norm_num, by norm_num, by norm_num⟩,
    ?_, ?_, ?_, h.2.2.2.1, h.2.2.2.2.1⟩
  · norm_num [set_pointer_targets, fold_azimuth, trunc, steps_per_revolution, Int.ceil_neg]
  · norm_num [set_pointer_targets, fold_azimuth, trunc, steps_per_revolution]
  · norm_num [set_pointer_targets, fold_azimuth, trunc, steps_per_revolution, protect_pointer,
      altitude_limit]

end StarTracker
